import Mathlib

/-!
# Progress tracker of the Python learning platform

A shallow embedding of `static/js/progress-tracker.js` (class `ProgressTracker`).

* A JavaScript object whose keys are integers is an association list `Obj α`;
  `obj[k]` is `Obj.get k obj` (the first binding of `k`), `obj[k] = v` is
  `Obj.set k v obj`, and an in-place change of the value stored under `k` is
  `Obj.modify k f obj`.
* Module and lesson identifiers are integers (the property key is their decimal text);
  scores and question totals are counts.
* A percentage is computed as JavaScript does, in IEEE 754 double precision:
  `Math.round((a / b) * 100)` rounds the quotient, then the product, then to an integer.
* `new Date().toISOString()` is a clock reading handed to the operation that takes it.
* `localStorage` is the one slot `python_learning_progress`; `JSON.stringify` belongs
  to the host and is a parameter `stringify` of every operation that saves.
* The tracker object is the record `Tracker`; a method is a function from the tracker
  before the call to its return value and the tracker after the call.
* Where the text in the slot is read back (`loadProgress`, `importProgress`), a value is
  a tree `JsVal`, `JSON.stringify` and `JSON.parse` are the parameters `stringifyVal`
  and `parse`, and `toJson d` is the value that the JSON text of the document `d`
  stands for: `NaN` and the infinities are written as `null`.
* Of `static/js/quiz-engine.js` the class `QuizEngine` is embedded as far as scoring,
  submission and navigation go; `confirm` is the answer handed to `submitQuiz`, and the
  page is the set of question cards with their `display` style.  `submitQuiz` constructs
  its tracker from the storage slot: the constructor ends with the error of
  `JSON.parse`, with a tracker over a document of the data model, or with a value that
  is no such document, where the embedding stops.
* Of `static/js/main.js` the numbers that `GlobalProgressBar.update` and
  `ProgressModal.renderProgress` compute are embedded; the sum of the counters is added
  up in double arithmetic.
-/

namespace ProgressTracker

/-! ## Objects keyed by integers -/

/-- A JavaScript object with integer keys, its bindings in insertion order. -/
abbrev Obj (α : Type) := List (Int × α)

namespace Obj

/-- The property read `obj[k]`: `none` stands for `undefined`. -/
def get {α : Type} (k : Int) : Obj α → Option α
  | [] => none
  | (k', v) :: rest => if k' = k then some v else get k rest

/-- The assignment `obj[k] = v`: replaces the binding of `k`, or adds one at the end. -/
def set {α : Type} (k : Int) (v : α) : Obj α → Obj α
  | [] => [(k, v)]
  | (k', v') :: rest => if k' = k then (k', v) :: rest else (k', v') :: set k v rest

/-- An in-place mutation of the value bound to `k` (nothing happens without a binding). -/
def modify {α : Type} (k : Int) (f : α → α) : Obj α → Obj α
  | [] => []
  | (k', v) :: rest => if k' = k then (k', f v) :: rest else (k', v) :: modify k f rest

/-- The keys of the object, in order. -/
def keys {α : Type} (o : Obj α) : List Int := o.map Prod.fst

/-- The list `Object.values(obj)`. -/
def values {α : Type} (o : Obj α) : List α := o.map Prod.snd

end Obj

/-! ## JavaScript numbers produced by `Math.round((a / b) * 100)` -/

/-- The values a rounded percentage can take: an integer, `NaN` or an infinity.
The sign of zero is not tracked (`-0` and `0` compare equal and print alike). -/
inductive JSNumber where
  | nan
  | negInf
  | posInf
  | fin (z : Int)
deriving DecidableEq, Repr

namespace JSNumber

/-- The comparison `a > b` of JavaScript: false whenever an operand is `NaN`. -/
def gt : JSNumber → JSNumber → Bool
  | nan, _ => false
  | _, nan => false
  | negInf, _ => false
  | _, posInf => false
  | posInf, _ => true
  | fin _, negInf => true
  | fin a, fin b => decide (b < a)

/-- The comparison `a >= b` of JavaScript: false whenever an operand is `NaN`. -/
def ge : JSNumber → JSNumber → Bool
  | nan, _ => false
  | _, nan => false
  | posInf, _ => true
  | _, negInf => true
  | negInf, _ => false
  | fin _, posInf => false
  | fin a, fin b => decide (b ≤ a)

end JSNumber

/-! ### IEEE 754 double precision, as far as the percentage needs it

A positive double is `m * 2 ^ e` with `m < 2 ^ 53`.  Division and multiplication are
correctly rounded (round to nearest, ties to even).  The exponent range is not
bounded: the operands met here are integers below `2 ^ 53` and their quotients, far
from overflow and underflow. -/

/-- The number of halvings that bring `n` below 2, at most `fuel` of them. -/
def halvings : Nat → Nat → Nat
  | 0, _ => 0
  | fuel + 1, n => if n < 2 then 0 else halvings fuel (n / 2) + 1

/-- The binary logarithm of `n`, rounded down (0 for `n = 0`). -/
def ilog2 (n : Nat) : Nat := halvings n n

/-- The exponent `e` for which `num / (den * 2 ^ e)` lies in `[2 ^ 52, 2 ^ 53)`, for
positive `num` and `den`. -/
def binExponent (num den : Nat) : Int :=
  let e0 : Int := (ilog2 num : Int) - (ilog2 den : Int) - 52
  if num * 2 ^ (-e0).toNat < 2 ^ 52 * (den * 2 ^ e0.toNat) then e0 - 1 else e0

/-- The double nearest to the positive rational `num / den` (ties to even), as the
pair `(m, e)` that stands for `m * 2 ^ e`. -/
def roundToDouble (num den : Nat) : Nat × Int :=
  let e := binExponent num den
  let n := num * 2 ^ (-e).toNat
  let d := den * 2 ^ e.toNat
  let q := n / d
  let r := n % d
  if 2 * r < d then (q, e)
  else if d < 2 * r then (q + 1, e)
  else if q % 2 = 0 then (q, e) else (q + 1, e)

/-- The double `(a / b) * 100` for positive integers `a` and `b`: the quotient is
rounded, then the product is rounded. -/
def quotTimes100 (a b : Nat) : Nat × Int :=
  let x := roundToDouble a b
  roundToDouble (100 * x.1 * 2 ^ x.2.toNat) (2 ^ (-x.2).toNat)

/-- The integer `Math.round(x)` for the positive double `x = m * 2 ^ e`: the integer
nearest to `x`, a half rounded up, that is `floor(x + 1/2)`. -/
def mathRound (x : Nat × Int) : Nat :=
  (2 * x.1 * 2 ^ x.2.toNat + 2 ^ (-x.2).toNat) / (2 * 2 ^ (-x.2).toNat)

/-- The integer `Math.round(-x)` for the positive double `x = m * 2 ^ e`:
`floor(-x + 1/2)`, so a half is rounded towards zero. -/
def mathRoundNeg (x : Nat × Int) : Int :=
  -(((2 * x.1 * 2 ^ x.2.toNat + 2 ^ (-x.2).toNat - 1) / (2 * 2 ^ (-x.2).toNat) : Nat) : Int)

/-- The value of `Math.round((a / b) * 100)` for an integer `a` and a positive
integer `b`. -/
def roundedPercentFin (a : Int) (b : Nat) : Int :=
  if a = 0 then 0
  else if 0 < a then (mathRound (quotTimes100 a.toNat b) : Int)
  else mathRoundNeg (quotTimes100 (-a).toNat b)

/-- The value of `Math.round((a / b) * 100)` for an integer `a` and a count `b`:
`0 / 0` is `NaN` and `a / 0` is an infinity of the sign of `a`. -/
def roundedPercent (a : Int) (b : Nat) : JSNumber :=
  if b = 0 then
    if a = 0 then JSNumber.nan
    else if 0 < a then JSNumber.posInf else JSNumber.negInf
  else JSNumber.fin (roundedPercentFin a b)

/-! ## The progress document -/

/-- A clock reading: the instant `new Date()` returns, kept in place of its
ISO 8601 text. -/
abbrev Timestamp := Nat

/-- The state of one lesson. -/
structure LessonState where
  completed : Bool
  completedAt : Option Timestamp
  attempts : Int
deriving DecidableEq, Repr

/-- The progress of one module. -/
structure ModuleProgress where
  completed : Int
  total : Int
  lessons : Obj LessonState
deriving DecidableEq, Repr

/-- The record stored in `lastAttempt`. -/
structure Attempt where
  date : Timestamp
  score : Nat
  total : Nat
  percentage : JSNumber
deriving DecidableEq, Repr

/-- The record of one module quiz. -/
structure QuizRecord where
  completed : Bool
  attempts : Int
  bestScore : JSNumber
  lastAttempt : Option Attempt
deriving DecidableEq, Repr

/-- The document kept in memory and in storage. -/
structure ProgressDocument where
  version : String
  lastUpdated : Timestamp
  totalLessonsCompleted : Int
  modules : Obj ModuleProgress
  quizzes : Obj QuizRecord
  startedAt : Timestamp
deriving DecidableEq, Repr

/-- The tracker object and what it has done to its surroundings: `progress` is
`this.progress`, `storage` the content of the slot `python_learning_progress`
(`none` when nothing is stored), `events` the payloads of the `progressUpdated`
events dispatched so far, oldest first. -/
structure Tracker where
  progress : ProgressDocument
  storage : Option String
  events : List ProgressDocument
deriving DecidableEq, Repr

/-- The table `moduleLessons` of `initializeProgress`. -/
def moduleLessons : List Nat := [5, 5, 5, 5, 6, 5, 5, 6, 6, 6, 6, 6, 6, 5]

/-- The method `saveProgress(progress)`: stamps `lastUpdated`, writes the slot, keeps
the document as `this.progress` and dispatches `progressUpdated`. -/
def saveProgress (stringify : ProgressDocument → String) (now : Timestamp)
    (progress : ProgressDocument) (t : Tracker) : Tracker :=
  let progress := { progress with lastUpdated := now }
  { progress := progress,
    storage := some (stringify progress),
    events := t.events ++ [progress] }

/-- The lesson object that the inner loop of `initializeProgress` stores. -/
def freshLesson : LessonState :=
  { completed := false, completedAt := none, attempts := 0 }

/-- The quiz object that `initializeProgress` stores. -/
def freshQuiz : QuizRecord :=
  { completed := false, attempts := 0, bestScore := JSNumber.fin 0, lastAttempt := none }

/-- One round `i` of the outer loop of `initializeProgress`. -/
def initializeModule (progress : ProgressDocument) (i : Nat) : ProgressDocument :=
  let total := moduleLessons.getD (i - 1) 0
  let module : ModuleProgress := { completed := 0, total := total, lessons := [] }
  let module := (List.range' 1 total).foldl
    (fun (m : ModuleProgress) j => { m with lessons := Obj.set (j : Int) freshLesson m.lessons })
    module
  { progress with
    modules := Obj.set (i : Int) module progress.modules,
    quizzes := Obj.set (i : Int) freshQuiz progress.quizzes }

/-- The document that `initializeProgress` builds before it saves it; `tUpdated` and
`tStarted` are the two clock readings of the object literal. -/
def defaultDocument (tUpdated tStarted : Timestamp) : ProgressDocument :=
  (List.range' 1 14).foldl initializeModule
    { version := "1.0.0", lastUpdated := tUpdated, totalLessonsCompleted := 0,
      modules := [], quizzes := [], startedAt := tStarted }

/-- The method `initializeProgress()`: returns the default document and saves it. -/
def initializeProgress (stringify : ProgressDocument → String)
    (tUpdated tStarted tSaved : Timestamp) (t : Tracker) : ProgressDocument × Tracker :=
  let t := saveProgress stringify tSaved (defaultDocument tUpdated tStarted) t
  (t.progress, t)

/-- The method `markLessonComplete(moduleId, lessonId)`; `tDone` is the clock reading
for `completedAt` and `tSaved` the one `saveProgress` takes. -/
def markLessonComplete (stringify : ProgressDocument → String) (tDone tSaved : Timestamp)
    (moduleId lessonId : Int) (t : Tracker) : Bool × Tracker :=
  match Obj.get moduleId t.progress.modules with
  | none => (false, t)
  | some module =>
    match Obj.get lessonId module.lessons with
    | none => (false, t)
    | some lesson =>
      let progress :=
        if !lesson.completed then
          { t.progress with
            modules := Obj.modify moduleId (fun m =>
              { m with
                lessons := Obj.modify lessonId (fun l =>
                  { l with completed := true, completedAt := some tDone }) m.lessons,
                completed := m.completed + 1 }) t.progress.modules,
            totalLessonsCompleted := t.progress.totalLessonsCompleted + 1 }
        else t.progress
      let progress :=
        { progress with
          modules := Obj.modify moduleId (fun m =>
            { m with
              lessons := Obj.modify lessonId (fun l =>
                { l with attempts := l.attempts + 1 }) m.lessons }) progress.modules }
      (true, saveProgress stringify tSaved progress t)

/-- The method `markLessonIncomplete(moduleId, lessonId)`. -/
def markLessonIncomplete (stringify : ProgressDocument → String) (tSaved : Timestamp)
    (moduleId lessonId : Int) (t : Tracker) : Bool × Tracker :=
  match Obj.get moduleId t.progress.modules with
  | none => (false, t)
  | some module =>
    match Obj.get lessonId module.lessons with
    | none => (false, t)
    | some lesson =>
      let progress :=
        if lesson.completed then
          { t.progress with
            modules := Obj.modify moduleId (fun m =>
              { m with
                lessons := Obj.modify lessonId (fun l =>
                  { l with completed := false, completedAt := none }) m.lessons,
                completed := m.completed - 1 }) t.progress.modules,
            totalLessonsCompleted := t.progress.totalLessonsCompleted - 1 }
        else t.progress
      (true, saveProgress stringify tSaved progress t)

/-- The method `recordQuizAttempt(moduleId, score, totalQuestions)`; `tDate` is the
clock reading stored in `lastAttempt.date`. -/
def recordQuizAttempt (stringify : ProgressDocument → String) (tDate tSaved : Timestamp)
    (moduleId : Int) (score totalQuestions : Nat) (t : Tracker) : Bool × Tracker :=
  match Obj.get moduleId t.progress.quizzes with
  | none => (false, t)
  | some _ =>
    let percentage := roundedPercent (score : Int) totalQuestions
    let progress :=
      { t.progress with
        quizzes := Obj.modify moduleId (fun quiz =>
          let quiz := { quiz with attempts := quiz.attempts + 1 }
          let attempt : Attempt :=
            { date := tDate, score := score, total := totalQuestions,
              percentage := percentage }
          let quiz := { quiz with lastAttempt := some attempt }
          let quiz :=
            if JSNumber.gt percentage quiz.bestScore then
              { quiz with bestScore := percentage }
            else quiz
          if JSNumber.ge percentage (JSNumber.fin 70) then
            { quiz with completed := true }
          else quiz) t.progress.quizzes }
    (true, saveProgress stringify tSaved progress t)

/-- The method `getOverallPercentage()`. -/
def getOverallPercentage (t : Tracker) : Int :=
  roundedPercentFin t.progress.totalLessonsCompleted 73

/-- The result of `getNextLesson()`: a lesson, `null`, or the `TypeError` raised when
the scan reads a property of `undefined`. -/
inductive NextLesson where
  | lesson (moduleId lessonId : Int)
  | null
  | typeError
deriving DecidableEq, Repr

/-- The inner loop of `getNextLesson()` over the lesson ids still to visit: `some r`
when the loop leaves the method with `r`, `none` when it runs to its end. -/
def scanLessons (moduleId : Int) (module : ModuleProgress) : List Nat → Option NextLesson
  | [] => none
  | lessonId :: rest =>
    match Obj.get (lessonId : Int) module.lessons with
    | none => some NextLesson.typeError
    | some lesson =>
      if !lesson.completed then some (NextLesson.lesson moduleId lessonId)
      else scanLessons moduleId module rest

/-- The outer loop of `getNextLesson()` over the module ids still to visit. -/
def scanModules (progress : ProgressDocument) : List Nat → NextLesson
  | [] => NextLesson.null
  | moduleId :: rest =>
    match Obj.get (moduleId : Int) progress.modules with
    | none => NextLesson.typeError
    | some module =>
      match scanLessons moduleId module (List.range' 1 module.total.toNat) with
      | some r => r
      | none => scanModules progress rest

/-- The method `getNextLesson()`. -/
def getNextLesson (t : Tracker) : NextLesson :=
  scanModules t.progress (List.range' 1 14)

/-- The method `isLessonComplete(moduleId, lessonId)`. -/
def isLessonComplete (t : Tracker) (moduleId lessonId : Int) : Bool :=
  match Obj.get moduleId t.progress.modules with
  | none => false
  | some module =>
    match Obj.get lessonId module.lessons with
    | none => false
    | some lesson => lesson.completed

/-! ## Sequences of calls -/

/-- One call of a mutating method, with its arguments and the clock readings it takes. -/
inductive Op where
  | complete (moduleId lessonId : Int) (tDone tSaved : Timestamp)
  | incomplete (moduleId lessonId : Int) (tSaved : Timestamp)
  | quiz (moduleId : Int) (score totalQuestions : Nat) (tDate tSaved : Timestamp)
deriving DecidableEq, Repr

/-- The call `op` made on the tracker `t`: return value and tracker afterwards. -/
def Op.call (stringify : ProgressDocument → String) (op : Op) (t : Tracker) : Bool × Tracker :=
  match op with
  | Op.complete moduleId lessonId tDone tSaved =>
    markLessonComplete stringify tDone tSaved moduleId lessonId t
  | Op.incomplete moduleId lessonId tSaved =>
    markLessonIncomplete stringify tSaved moduleId lessonId t
  | Op.quiz moduleId score totalQuestions tDate tSaved =>
    recordQuizAttempt stringify tDate tSaved moduleId score totalQuestions t

/-- The tracker after the calls `ops`, made in order. -/
def run (stringify : ProgressDocument → String) (ops : List Op) (t : Tracker) : Tracker :=
  ops.foldl (fun t op => (op.call stringify t).2) t

/-- The tracker right after `initializeProgress()`. -/
def initialTracker (stringify : ProgressDocument → String)
    (tUpdated tStarted tSaved : Timestamp) (t : Tracker) : Tracker :=
  (initializeProgress stringify tUpdated tStarted tSaved t).2

/-- The number of lessons of a module whose `completed` flag is true. -/
def completedCount (lessons : Obj LessonState) : Int :=
  ((Obj.values lessons).countP (fun l => l.completed) : Nat)

/-- What no call changes in a document: the module ids with each module's `total`
and lesson ids. -/
def shape (d : ProgressDocument) : List (Int × Int × List Int) :=
  d.modules.map (fun p => (p.1, p.2.total, Obj.keys p.2.lessons))

/-- The method `getModuleProgress(moduleId)`; the fallback object
`{ completed: 0, total: 0 }` has no lessons. -/
def getModuleProgress (t : Tracker) (moduleId : Int) : ModuleProgress :=
  match Obj.get moduleId t.progress.modules with
  | some module => module
  | none => { completed := 0, total := 0, lessons := [] }

/-- A serializer for worked examples: it prints the lesson counter only. -/
def counterStringify (d : ProgressDocument) : String :=
  toString d.totalLessonsCompleted

/-- A tracker for worked examples: nothing stored, nothing dispatched. -/
def blankTracker : Tracker :=
  { progress := defaultDocument 0 0, storage := none, events := [] }

/-- The read `this.progress.modules[moduleId]?.lessons[lessonId]`. -/
def lessonAt (t : Tracker) (moduleId lessonId : Int) : Option LessonState :=
  (Obj.get moduleId t.progress.modules).bind (fun m => Obj.get lessonId m.lessons)

/-- The trackers that arise from `initializeProgress()` by calls of
`markLessonComplete`, `markLessonIncomplete` and `recordQuizAttempt`. -/
def Reachable (stringify : ProgressDocument → String) (t : Tracker) : Prop :=
  ∃ (tUpdated tStarted tSaved : Timestamp) (t0 : Tracker) (ops : List Op),
    t = run stringify ops (initialTracker stringify tUpdated tStarted tSaved t0)

/-- The percentages of the attempts that the calls `ops` hand to `recordQuizAttempt`
for the module `moduleId`, oldest first. -/
def attemptPercentages (ops : List Op) (moduleId : Int) : List JSNumber :=
  ops.filterMap (fun op =>
    match op with
    | Op.quiz m score totalQuestions _ _ =>
      if m = moduleId then some (roundedPercent (score : Int) totalQuestions) else none
    | _ => none)

/-- The percentages among `attemptPercentages` that are numbers (`NaN` left out). -/
def numericPercentages (ops : List Op) (moduleId : Int) : List JSNumber :=
  (attemptPercentages ops moduleId).filter (fun p => decide (p ≠ JSNumber.nan))

/-- The calls that complete every lesson of the modules 1..13 and then lesson 1 of
module 14, one after the other: 73 calls. -/
def completeSeventyThree : List Op :=
  (List.range' 1 13).flatMap (fun m =>
    (List.range' 1 (moduleLessons.getD (m - 1) 0)).map (fun l =>
      Op.complete (m : Int) (l : Int) 0 0))
  ++ [Op.complete 14 1 0 0]

/-- The rational number that the pair `(m, e)` stands for: `m * 2 ^ e`. -/
def toRat (x : Nat × Int) : ℚ := (x.1 : ℚ) * (2 : ℚ) ^ x.2

/-- A tracker whose document counts `n` completed lessons, for worked examples. -/
def trackerWithCount (n : Int) : Tracker :=
  { blankTracker with progress := { defaultDocument 0 0 with totalLessonsCompleted := n } }

/-! ## Statistics and achievements -/

/-- The method `isModuleComplete(moduleId)`, as the truth value of its result
(`undefined` for a missing module counts as false). -/
def isModuleComplete (t : Tracker) (moduleId : Int) : Bool :=
  match Obj.get moduleId t.progress.modules with
  | none => false
  | some module => decide (module.completed = module.total)

/-- The object that `getStatistics()` returns. -/
structure Statistics where
  totalLessons : Nat
  completedLessons : Int
  overallPercentage : Int
  modulesCompleted : Nat
  quizzesCompleted : Nat
  startedAt : Timestamp
  lastUpdated : Timestamp
  daysActive : Int
deriving DecidableEq, Repr

/-- The method `getStatistics()`; `now` is the reading of the clock, in milliseconds
like `startedAt`, so that `daysActive` is the floor of their difference in days. -/
def getStatistics (now : Timestamp) (t : Tracker) : Statistics :=
  let stats : Statistics :=
    { totalLessons := 73,
      completedLessons := t.progress.totalLessonsCompleted,
      overallPercentage := getOverallPercentage t,
      modulesCompleted := 0,
      quizzesCompleted := 0,
      startedAt := t.progress.startedAt,
      lastUpdated := t.progress.lastUpdated,
      daysActive := 0 }
  let stats := (List.range' 1 14).foldl
    (fun (s : Statistics) (i : Nat) =>
      if isModuleComplete t (i : Int) then { s with modulesCompleted := s.modulesCompleted + 1 }
      else s)
    stats
  let stats :=
    { stats with quizzesCompleted :=
        ((Obj.values t.progress.quizzes).filter (fun (quiz : QuizRecord) => quiz.completed)).length }
  { stats with daysActive := ((now : Int) - (t.progress.startedAt : Int)) / (1000 * 60 * 60 * 24) }

/-- An entry of the list that `getAchievements()` returns. -/
structure Achievement where
  title : String
  description : String
  icon : String
  unlocked : Bool
deriving DecidableEq, Repr

/-- The achievement for the first lesson. -/
def firstSteps : Achievement :=
  { title := "First Steps", description := "Completed your first lesson", icon := "🎯",
    unlocked := true }

/-- The achievement for the first module. -/
def moduleMaster : Achievement :=
  { title := "Module Master", description := "Completed your first module", icon := "🏆",
    unlocked := true }

/-- The achievement for half of the course. -/
def halfwayThere : Achievement :=
  { title := "Halfway There", description := "Completed 50% of the course", icon := "⚡",
    unlocked := true }

/-- The achievement for the whole course. -/
def fullStackDeveloper : Achievement :=
  { title := "Full Stack Developer", description := "Completed the entire course!",
    icon := "🚀", unlocked := true }

/-- The achievement for ten quizzes passed. -/
def quizMaster : Achievement :=
  { title := "Quiz Master", description := "Passed 10 module quizzes", icon := "📝",
    unlocked := true }

/-- The achievement for five perfect quizzes. -/
def perfectScholar : Achievement :=
  { title := "Perfect Scholar", description := "Scored 100% on 5 quizzes", icon := "💯",
    unlocked := true }

/-- The count `perfectQuizzes` of `getAchievements()`. -/
def perfectQuizzes (t : Tracker) : Nat :=
  ((Obj.values t.progress.quizzes).filter
    (fun (quiz : QuizRecord) => decide (quiz.bestScore = JSNumber.fin 100))).length

/-- The method `getAchievements()`; `now` is the clock reading that `getStatistics()`
takes. -/
def getAchievements (now : Timestamp) (t : Tracker) : List Achievement :=
  let achievements : List Achievement := []
  let stats := getStatistics now t
  let achievements :=
    if 1 ≤ stats.completedLessons then achievements ++ [firstSteps] else achievements
  let achievements :=
    if 1 ≤ stats.modulesCompleted then achievements ++ [moduleMaster] else achievements
  let achievements :=
    if 50 ≤ stats.overallPercentage then achievements ++ [halfwayThere] else achievements
  let achievements :=
    if stats.overallPercentage = 100 then achievements ++ [fullStackDeveloper]
    else achievements
  let achievements :=
    if 10 ≤ stats.quizzesCompleted then achievements ++ [quizMaster] else achievements
  if 5 ≤ perfectQuizzes t then achievements ++ [perfectScholar] else achievements

/-- The calls that score 10 of 10 in the quizzes of the modules 1..5. -/
def fivePerfectQuizzes : List Op :=
  [Op.quiz 1 10 10 0 0, Op.quiz 2 10 10 0 0, Op.quiz 3 10 10 0 0, Op.quiz 4 10 10 0 0,
   Op.quiz 5 10 10 0 0]

/-- The calls that mark a lesson incomplete. -/
def Op.isIncomplete : Op → Bool
  | Op.incomplete _ _ _ => true
  | _ => false

/-! ## The quiz engine (`static/js/quiz-engine.js`) -/

/-- A value of `correct_answer` in the quiz data: a string, a number or a boolean.  A
number is held as the text that its `toString()` gives, `42` for 42, `2.5` for 2.5 and
`1e+21` for the 21st power of ten: the conversion of a number to its text is the
host's. -/
inductive AnswerValue where
  | str (s : String)
  | num (text : String)
  | bool (b : Bool)
deriving DecidableEq, Repr

/-- The method `toString()` of a `correct_answer`. -/
def AnswerValue.toString : AnswerValue → String
  | AnswerValue.str s => s
  | AnswerValue.num text => text
  | AnswerValue.bool b => if b then "true" else "false"

/-- A question of the quiz data, with the two fields that the engine reads. -/
structure Question where
  type : String
  correct_answer : AnswerValue
deriving DecidableEq, Repr

/-- The state of a `QuizEngine` object; `answers` is keyed by the number in the id
`question-N` of the card that holds the input. -/
structure QuizEngine where
  questions : List Question
  moduleId : Int
  currentQuestion : Int
  answers : Obj String
  score : Nat
  quizSubmitted : Bool
deriving DecidableEq, Repr

/-- The constructor of `QuizEngine`. -/
def QuizEngine.new (questions : List Question) (moduleId : Int) : QuizEngine :=
  { questions := questions, moduleId := moduleId, currentQuestion := 0, answers := [],
    score := 0, quizSubmitted := false }

/-- The `change` handler of an option input: `this.answers[questionId] = value`. -/
def recordAnswer (questionId : Int) (value : String) (q : QuizEngine) : QuizEngine :=
  { q with answers := Obj.set questionId value q.answers }

/-- The engine after the `change` events `events`, oldest first. -/
def recordAnswers (events : List (Int × String)) (q : QuizEngine) : QuizEngine :=
  events.foldl (fun q e => recordAnswer e.1 e.2 q) q

/-- The method `checkAnswer(userAnswer, correctAnswer, questionType)`; a `userAnswer`
that is `undefined` is `none`. -/
def checkAnswer (userAnswer : Option String) (correctAnswer : AnswerValue)
    (questionType : String) : Bool :=
  if questionType = "true_false" then
    userAnswer == some correctAnswer.toString
  else
    userAnswer == some correctAnswer.toString

/-- The scoring loop of `submitQuiz()`, from the score 0. -/
def countCorrect (q : QuizEngine) : Nat :=
  (q.questions.enumFrom 1).foldl
    (fun score (p : Nat × Question) =>
      if checkAnswer (Obj.get (p.1 : Int) q.answers) p.2.correct_answer p.2.type then score + 1
      else score)
    0

/-- A quiz of 40 questions with the answer `a`, for worked examples. -/
def fortyQuestions : List Question :=
  List.replicate 40 { type := "multiple_choice", correct_answer := AnswerValue.str "a" }

/-- The `change` events that answer the questions 1..23 with `a` and 24..40 with `b`. -/
def twentyThreeRight : List (Int × String) :=
  (List.range' 1 23).map (fun i => ((i : Int), "a"))
  ++ (List.range' 24 17).map (fun i => ((i : Int), "b"))

/-- A quiz of five questions of three kinds, for worked examples. -/
def fiveQuestions : List Question :=
  [{ type := "multiple_choice", correct_answer := AnswerValue.str "b" },
   { type := "true_false", correct_answer := AnswerValue.bool true },
   { type := "multiple_choice", correct_answer := AnswerValue.num "42" },
   { type := "true_false", correct_answer := AnswerValue.bool false },
   { type := "multiple_choice", correct_answer := AnswerValue.str "c" }]

/-- Answers to `fiveQuestions`: three right, two wrong (one by its capital letter). -/
def threeRight : List (Int × String) :=
  [(1, "a"), (2, "true"), (3, "42"), (4, "False"), (5, "c"), (1, "b"), (5, "d")]

/-! ## JSON: the values, the stored text, loading, export and import -/

/-- A JavaScript value as far as JSON reaches: what `JSON.parse` can return and what
the tracker hands to `JSON.stringify`.  A number is a `JSNumber`. -/
inductive JsVal where
  | null
  | bool (b : Bool)
  | num (n : JSNumber)
  | str (s : String)
  | arr (items : List JsVal)
  | obj (fields : List (String × JsVal))

/-- The property read `v[name]` on a value that is not `null`; `none` is `undefined`.
The primitives and the arrays have none of the names asked for here. -/
def JsVal.getField (v : JsVal) (name : String) : Option JsVal :=
  match v with
  | JsVal.obj fields => (fields.find? (fun f => f.1 = name)).map (fun f => f.2)
  | _ => none

/-- The fields of an object after `fields[name] = x`. -/
def setFieldIn (name : String) (x : JsVal) : List (String × JsVal) → List (String × JsVal)
  | [] => [(name, x)]
  | (k, v) :: rest => if k = name then (k, x) :: rest else (k, v) :: setFieldIn name x rest

/-- The assignment `v[name] = x` on an object. -/
def JsVal.setField (v : JsVal) (name : String) (x : JsVal) : JsVal :=
  match v with
  | JsVal.obj fields => JsVal.obj (setFieldIn name x fields)
  | other => other

/-- The truth value of a JavaScript value in a condition. -/
def JsVal.truthy : JsVal → Bool
  | JsVal.null => false
  | JsVal.bool b => b
  | JsVal.num JSNumber.nan => false
  | JsVal.num (JSNumber.fin z) => decide (z ≠ 0)
  | JsVal.num _ => true
  | JsVal.str s => decide (s ≠ "")
  | JsVal.arr _ => true
  | JsVal.obj _ => true

/-- The truth value of a property read, `undefined` being false. -/
def truthyField (v : Option JsVal) : Bool :=
  match v with
  | none => false
  | some x => x.truthy

/-- The numbers that are neither `NaN` nor an infinity. -/
def JSNumber.isFinite : JSNumber → Bool
  | JSNumber.fin _ => true
  | _ => false

/-- The text of a clock reading (the model keeps the reading in decimal in place of
the ISO 8601 text). -/
def timeText (t : Timestamp) : String := toString t

/-- The property key of an integer id. -/
def keyText (i : Int) : String := toString i

/-- A number as a value; with `json` set, as `JSON.stringify` and `JSON.parse` hand it
on: `NaN` and the infinities become `null`. -/
def numJs (json : Bool) (n : JSNumber) : JsVal :=
  if json && !n.isFinite then JsVal.null else JsVal.num n

/-- A lesson as a value. -/
def lessonJs (l : LessonState) : JsVal :=
  JsVal.obj
    [("completed", JsVal.bool l.completed),
     ("completedAt", match l.completedAt with
        | none => JsVal.null
        | some t => JsVal.str (timeText t)),
     ("attempts", JsVal.num (JSNumber.fin l.attempts))]

/-- A module as a value. -/
def moduleJs (m : ModuleProgress) : JsVal :=
  JsVal.obj
    [("completed", JsVal.num (JSNumber.fin m.completed)),
     ("total", JsVal.num (JSNumber.fin m.total)),
     ("lessons", JsVal.obj (m.lessons.map (fun p => (keyText p.1, lessonJs p.2))))]

/-- A `lastAttempt` record as a value. -/
def attemptJs (json : Bool) (a : Attempt) : JsVal :=
  JsVal.obj
    [("date", JsVal.str (timeText a.date)),
     ("score", JsVal.num (JSNumber.fin a.score)),
     ("total", JsVal.num (JSNumber.fin a.total)),
     ("percentage", numJs json a.percentage)]

/-- A quiz record as a value. -/
def quizJs (json : Bool) (q : QuizRecord) : JsVal :=
  JsVal.obj
    [("completed", JsVal.bool q.completed),
     ("attempts", JsVal.num (JSNumber.fin q.attempts)),
     ("bestScore", numJs json q.bestScore),
     ("lastAttempt", match q.lastAttempt with
        | none => JsVal.null
        | some a => attemptJs json a)]

/-- A document as a value, its fields in the order of the literal in
`initializeProgress`; with `json` set, the value that `JSON.parse` makes of the text
that `JSON.stringify` makes of the document. -/
def docJs (json : Bool) (d : ProgressDocument) : JsVal :=
  JsVal.obj
    [("version", JsVal.str d.version),
     ("lastUpdated", JsVal.str (timeText d.lastUpdated)),
     ("totalLessonsCompleted", JsVal.num (JSNumber.fin d.totalLessonsCompleted)),
     ("modules", JsVal.obj (d.modules.map (fun p => (keyText p.1, moduleJs p.2)))),
     ("quizzes", JsVal.obj (d.quizzes.map (fun p => (keyText p.1, quizJs json p.2)))),
     ("startedAt", JsVal.str (timeText d.startedAt))]

/-- The document in memory, as a value. -/
def toJs (d : ProgressDocument) : JsVal := docJs false d

/-- The document as it comes back from its JSON text. -/
def toJson (d : ProgressDocument) : JsVal := docJs true d

/-- The result of `JSON.parse`: a value, or the `SyntaxError` it raises. -/
inductive ParseResult where
  | syntaxError
  | value (v : JsVal)

/-- The serializer that the typed operations take, from the host's `JSON.stringify`. -/
def docText (stringifyVal : JsVal → String) (d : ProgressDocument) : String :=
  stringifyVal (toJs d)

/-- The outcome of `loadProgress()`: the value it returns, or the error it lets
through. -/
inductive LoadResult where
  | raised
  | returned (v : JsVal)

/-- The method `loadProgress()` of a tracker under construction: `t` stands for the
object whose `progress` is not assigned yet, only its storage slot is read.
`stringifyVal` and `parse` are the host's `JSON.stringify` and `JSON.parse`. -/
def loadProgress (stringifyVal : JsVal → String) (parse : String → ParseResult)
    (tUpdated tStarted tSaved : Timestamp) (t : Tracker) : LoadResult × Tracker :=
  match t.storage with
  | some stored =>
    if stored ≠ "" then
      match parse stored with
      | ParseResult.syntaxError => (LoadResult.raised, t)
      | ParseResult.value v => (LoadResult.returned v, t)
    else
      let r := initializeProgress (docText stringifyVal) tUpdated tStarted tSaved t
      (LoadResult.returned (toJs r.1), r.2)
  | none =>
    let r := initializeProgress (docText stringifyVal) tUpdated tStarted tSaved t
    (LoadResult.returned (toJs r.1), r.2)

/-- The tracker with its document as a plain value, as it is after an import. -/
structure RawTracker where
  progress : JsVal
  storage : Option String
  events : List JsVal

/-- The tracker of the data model, seen as a raw tracker. -/
def Tracker.toRaw (t : Tracker) : RawTracker :=
  { progress := toJs t.progress, storage := t.storage, events := t.events.map toJs }

/-- The method `saveProgress()` on a document that is a plain value. -/
def rawSaveProgress (stringifyVal : JsVal → String) (now : Timestamp) (progress : JsVal)
    (t : RawTracker) : RawTracker :=
  let progress := progress.setField "lastUpdated" (JsVal.str (timeText now))
  { progress := progress,
    storage := some (stringifyVal progress),
    events := t.events ++ [progress] }

/-- The method `exportProgress()`: the text of the file offered for download, made by
`JSON.stringify(this.progress, null, 2)`, for which `prettyVal` stands. -/
def exportProgress (prettyVal : JsVal → String) (t : Tracker) : String :=
  prettyVal (toJs t.progress)

/-- The three messages of `importProgress`. -/
inductive ImportOutcome where
  | imported
  | invalidFormat
  | importError
deriving DecidableEq, Repr

/-- The `onload` handler of `importProgress(file)`, given the text of the file.  A
`SyntaxError` of `JSON.parse` and the `TypeError` of reading `version` off `null` end
in the `catch` branch. -/
def importProgress (stringifyVal : JsVal → String) (parse : String → ParseResult)
    (now : Timestamp) (fileText : String) (t : RawTracker) : ImportOutcome × RawTracker :=
  match parse fileText with
  | ParseResult.syntaxError => (ImportOutcome.importError, t)
  | ParseResult.value JsVal.null => (ImportOutcome.importError, t)
  | ParseResult.value imported =>
    if truthyField (imported.getField "version") && truthyField (imported.getField "modules") then
      (ImportOutcome.imported, rawSaveProgress stringifyVal now imported t)
    else
      (ImportOutcome.invalidFormat, t)

/-- The documents whose quiz numbers are neither `NaN` nor an infinity. -/
def FiniteNumbers (d : ProgressDocument) : Prop :=
  ∀ p ∈ d.quizzes, p.2.bestScore.isFinite = true
    ∧ ∀ a, p.2.lastAttempt = some a → a.percentage.isFinite = true

/-- The calls that are not a quiz attempt on a quiz without questions. -/
def Op.hasQuestions : Op → Bool
  | Op.quiz _ _ totalQuestions _ _ => decide (0 < totalQuestions)
  | _ => true

/-- A parser for worked examples: it reads every text that is not empty as the JSON
text of the value `v`. -/
def echoParse (v : JsVal) (text : String) : ParseResult :=
  if text = "" then ParseResult.syntaxError else ParseResult.value v

/-- A serializer for worked examples: every value gets the same text. -/
def markStringify (_ : JsVal) : String := "json"

/-- The path `quizzes[3].lastAttempt.percentage` in a value. -/
def percentageOfQuiz3 (v : JsVal) : Option JsVal :=
  (((v.getField "quizzes").bind (fun q => q.getField "3")).bind
    (fun q => q.getField "lastAttempt")).bind (fun a => a.getField "percentage")

/-- A file content with an empty `version`. -/
def emptyVersionFile : JsVal :=
  JsVal.obj [("version", JsVal.str ""), ("modules", JsVal.obj [])]

/-- The clock reading that the call hands to `saveProgress`. -/
def Op.savedAt : Op → Timestamp
  | Op.complete _ _ _ tSaved => tSaved
  | Op.incomplete _ _ tSaved => tSaved
  | Op.quiz _ _ _ _ tSaved => tSaved

/-- The tracker after `recordQuizAttempt(3, 0, 0)` on the fresh document. -/
def emptyQuizTracker : Tracker :=
  (recordQuizAttempt (docText markStringify) 5 6 3 0 0
    (initialTracker (docText markStringify) 1 2 3 blankTracker)).2


/-- The trackers that arise from `initializeProgress()` by calls none of which is a
quiz attempt on a quiz without questions; `stringifyVal` is the host's serializer. -/
def ReachableWithQuestions (stringifyVal : JsVal → String) (t : Tracker) : Prop :=
  ∃ (tUpdated tStarted tSaved : Timestamp) (t0 : Tracker) (ops : List Op),
    (∀ op ∈ ops, op.hasQuestions = true)
      ∧ t = run (docText stringifyVal) ops
          (initialTracker (docText stringifyVal) tUpdated tStarted tSaved t0)

/-- A parser for worked examples: it knows that the text `null` is the value `null`
and that a lone opening brace is no JSON text; it is not asked about other texts. -/
def braceParse (text : String) : ParseResult :=
  if text = "null" then ParseResult.value JsVal.null else ParseResult.syntaxError

/-- A tracker under construction whose storage slot holds a lone opening brace. -/
def braceTracker : Tracker :=
  { blankTracker with storage := some "\x7b" }

/-! ## Constructing a tracker and submitting a quiz -/

/-- The number that the decimal digits `cs` denote, read from the left onto `acc`. -/
def digitsValue (acc : Nat) (cs : List Char) : Nat :=
  cs.foldl (fun (a : Nat) (c : Char) => a * 10 + (c.toNat - 48)) acc

/-- The clock reading whose text is `s`: the inverse of `timeText`. -/
def natOfText (s : String) : Option Nat :=
  let n := digitsValue 0 s.data
  if timeText n = s then some n else none

/-- The integer whose property key is `s`: the inverse of `keyText`. -/
def intOfText (s : String) : Option Int :=
  let i : Int :=
    match s.data with
    | c :: rest =>
      if c = Char.ofNat 45 then -(digitsValue 0 rest : Int)
      else (digitsValue 0 (c :: rest) : Int)
    | [] => 0
  if keyText i = s then some i else none

/-- The object with integer keys that the fields `fields` stand for, `f` reading the
values. -/
def entriesOfJs {α : Type} (f : JsVal → Option α) : List (String × JsVal) → Option (Obj α)
  | [] => some []
  | (k, v) :: rest =>
    match intOfText k, f v, entriesOfJs f rest with
    | some i, some x, some o => some ((i, x) :: o)
    | _, _, _ => none

/-- The lesson that a value stands for: the inverse of `lessonJs`. -/
def lessonOfJs : JsVal → Option LessonState
  | JsVal.obj [(k1, JsVal.bool completed), (k2, completedAt),
      (k3, JsVal.num (JSNumber.fin attempts))] =>
    if k1 = "completed" ∧ k2 = "completedAt" ∧ k3 = "attempts" then
      match completedAt with
      | JsVal.null => some { completed := completed, completedAt := none, attempts := attempts }
      | JsVal.str s =>
        (natOfText s).map
          (fun t => { completed := completed, completedAt := some t, attempts := attempts })
      | _ => none
    else none
  | _ => none

/-- The module that a value stands for: the inverse of `moduleJs`. -/
def moduleOfJs : JsVal → Option ModuleProgress
  | JsVal.obj [(k1, JsVal.num (JSNumber.fin completed)), (k2, JsVal.num (JSNumber.fin total)),
      (k3, JsVal.obj lessons)] =>
    if k1 = "completed" ∧ k2 = "total" ∧ k3 = "lessons" then
      (entriesOfJs lessonOfJs lessons).map
        (fun l => { completed := completed, total := total, lessons := l })
    else none
  | _ => none

/-- The `lastAttempt` record that a value stands for: the inverse of `attemptJs false`. -/
def attemptOfJs : JsVal → Option Attempt
  | JsVal.obj [(k1, JsVal.str date), (k2, JsVal.num (JSNumber.fin score)),
      (k3, JsVal.num (JSNumber.fin total)), (k4, JsVal.num percentage)] =>
    if k1 = "date" ∧ k2 = "score" ∧ k3 = "total" ∧ k4 = "percentage" ∧ 0 ≤ score ∧ 0 ≤ total then
      (natOfText date).map
        (fun t => { date := t, score := score.toNat, total := total.toNat,
                    percentage := percentage })
    else none
  | _ => none

/-- The quiz record that a value stands for: the inverse of `quizJs false`. -/
def quizOfJs : JsVal → Option QuizRecord
  | JsVal.obj [(k1, JsVal.bool completed), (k2, JsVal.num (JSNumber.fin attempts)),
      (k3, JsVal.num bestScore), (k4, lastAttempt)] =>
    if k1 = "completed" ∧ k2 = "attempts" ∧ k3 = "bestScore" ∧ k4 = "lastAttempt" then
      match lastAttempt with
      | JsVal.null =>
        some { completed := completed, attempts := attempts, bestScore := bestScore,
               lastAttempt := none }
      | other =>
        (attemptOfJs other).map
          (fun a => { completed := completed, attempts := attempts, bestScore := bestScore,
                      lastAttempt := some a })
    else none
  | _ => none

/-- The document of the data model that a value is: the inverse of `toJs`.  A value
that is not `toJs d` for a document `d` (other fields, other types, a quiz number that
is `null`) is no document of the data model. -/
def documentOfJs : JsVal → Option ProgressDocument
  | JsVal.obj [(k1, JsVal.str version), (k2, JsVal.str lastUpdated),
      (k3, JsVal.num (JSNumber.fin totalLessonsCompleted)), (k4, JsVal.obj modules),
      (k5, JsVal.obj quizzes), (k6, JsVal.str startedAt)] =>
    if k1 = "version" ∧ k2 = "lastUpdated" ∧ k3 = "totalLessonsCompleted" ∧ k4 = "modules"
        ∧ k5 = "quizzes" ∧ k6 = "startedAt" then
      match natOfText lastUpdated, entriesOfJs moduleOfJs modules,
          entriesOfJs quizOfJs quizzes, natOfText startedAt with
      | some tUpdated, some ms, some qs, some tStarted =>
        some { version := version, lastUpdated := tUpdated,
               totalLessonsCompleted := totalLessonsCompleted, modules := ms, quizzes := qs,
               startedAt := tStarted }
      | _, _, _, _ => none
    else none
  | _ => none

/-- How `new ProgressTracker()` ends: `JSON.parse` raises in `loadProgress()`, or the
tracker is built over a document of the data model, or `this.progress` is a value that
is no document of the data model; the methods are followed on documents of the data
model only. -/
inductive Construction where
  | raised (slot : Tracker)
  | built (t : Tracker)
  | foreign (v : JsVal) (slot : Tracker)

/-- The constructor of `ProgressTracker`: `this.progress = this.loadProgress()`.  `slot`
carries the storage slot that the constructor finds. -/
def Tracker.new (stringifyVal : JsVal → String) (parse : String → ParseResult)
    (tUpdated tStarted tSaved : Timestamp) (slot : Tracker) : Construction :=
  match loadProgress stringifyVal parse tUpdated tStarted tSaved slot with
  | (LoadResult.raised, t) => Construction.raised t
  | (LoadResult.returned v, t) =>
    match documentOfJs v with
    | some d => Construction.built { t with progress := d }
    | none => Construction.foreign v t

/-- How a call of `submitQuiz()` ends: the confirmation was declined; `JSON.parse`
raised in the constructor of the tracker, and with it `submitQuiz()`; the method ran to
its end on a document of the data model; or the tracker holds a value that is no
document of the data model, and what `recordQuizAttempt` and `showResults` then do is
not followed. -/
inductive Ending where
  | declined
  | raised
  | finished
  | foreign
deriving DecidableEq, Repr

/-- What a call of `submitQuiz()` leaves: how it ended, the engine, the tracker (the
storage slot as it was found, when no tracker was built), the calls of
`recordQuizAttempt` made (module id, score, total), whether the confirmation was asked
for, and the percentage handed to `showResults`.  For the ending `foreign` these are
the values at the moment the tracker is constructed, not those at the end of the call. -/
structure SubmitResult where
  ending : Ending
  engine : QuizEngine
  tracker : Tracker
  calls : List (Int × Nat × Nat)
  asked : Bool
  shown : Option JSNumber
deriving DecidableEq, Repr

/-- The method `submitQuiz()`.  `confirmed` is the answer that `confirm` gets if it is
asked; `slot` carries the storage slot that `new ProgressTracker()` finds; `tUpdated`,
`tStarted` and `tSaved0` are the clock readings of an `initializeProgress()` in the
constructor, `tDate` and `tSaved` those of `recordQuizAttempt`. -/
def submitQuiz (stringifyVal : JsVal → String) (parse : String → ParseResult)
    (confirmed : Bool) (tUpdated tStarted tSaved0 tDate tSaved : Timestamp) (slot : Tracker)
    (q : QuizEngine) : SubmitResult :=
  let totalQuestions := q.questions.length
  let answeredQuestions := (Obj.keys q.answers).length
  if answeredQuestions < totalQuestions ∧ confirmed = false then
    { ending := Ending.declined, engine := q, tracker := slot, calls := [], asked := true,
      shown := none }
  else
    let q := { q with score := countCorrect q }
    let percentage := roundedPercent (q.score : Int) totalQuestions
    match Tracker.new stringifyVal parse tUpdated tStarted tSaved0 slot with
    | Construction.raised t =>
      { ending := Ending.raised, engine := q, tracker := t, calls := [],
        asked := decide (answeredQuestions < totalQuestions), shown := none }
    | Construction.foreign _ t =>
      { ending := Ending.foreign, engine := q, tracker := t, calls := [],
        asked := decide (answeredQuestions < totalQuestions), shown := none }
    | Construction.built progressTracker =>
      let progressTracker :=
        (recordQuizAttempt (docText stringifyVal) tDate tSaved q.moduleId q.score totalQuestions
          progressTracker).2
      { ending := Ending.finished,
        engine := { q with quizSubmitted := true },
        tracker := progressTracker,
        calls := [(q.moduleId, q.score, totalQuestions)],
        asked := decide (answeredQuestions < totalQuestions),
        shown := some percentage }

/-- The engine with the five questions of `fiveQuestions` answered as in `threeRight`. -/
def threeRightEngine : QuizEngine :=
  recordAnswers threeRight (QuizEngine.new fiveQuestions 3)

/-! ## Reset, quiz navigation and the presentation layer -/

/-- The method `resetProgress()`; `confirmed` is the answer that `confirm` gets.
`tUpdated`, `tStarted` and `tSaved1` are the clock readings of `initializeProgress()`,
`tSaved2` is the one of the `saveProgress()` that follows it.  The reload of the page
that ends the method constructs the trackers anew from the storage slot. -/
def resetProgress (stringify : ProgressDocument → String) (confirmed : Bool)
    (tUpdated tStarted tSaved1 tSaved2 : Timestamp) (t : Tracker) : Tracker :=
  if confirmed then
    let r := initializeProgress stringify tUpdated tStarted tSaved1 t
    let t := { r.2 with progress := r.1 }
    saveProgress stringify tSaved2 t.progress t
  else
    t

/-- The number of lesson objects of a document. -/
def lessonCount (d : ProgressDocument) : Nat :=
  ((Obj.values d.modules).map (fun (m : ModuleProgress) => m.lessons.length)).sum

/-- The quiz engine with the page it drives, as far as navigation goes: `cards` holds
the `display` style of every card `question-N` that is in the document, keyed by `N`.
The progress bar, the counter and the scroll position, which `updateProgress()` and
`scrollToTop()` write, are no part of it; those two methods read `currentQuestion` and
the number of questions and assign no field of the engine. -/
structure QuizView where
  engine : QuizEngine
  cards : Obj String
deriving DecidableEq, Repr

/-- The method `nextQuestion(currentQuestionNum)`. -/
def nextQuestion (currentQuestionNum : Int) (v : QuizView) : QuizView :=
  match Obj.get currentQuestionNum v.cards, Obj.get (currentQuestionNum + 1) v.cards with
  | some _, some _ =>
    { engine := { v.engine with currentQuestion := currentQuestionNum },
      cards := Obj.set (currentQuestionNum + 1) "block"
        (Obj.set currentQuestionNum "none" v.cards) }
  | _, _ => v

/-- The method `previousQuestion(currentQuestionNum)`. -/
def previousQuestion (currentQuestionNum : Int) (v : QuizView) : QuizView :=
  match Obj.get currentQuestionNum v.cards, Obj.get (currentQuestionNum - 1) v.cards with
  | some _, some _ =>
    { engine := { v.engine with currentQuestion := currentQuestionNum - 2 },
      cards := Obj.set (currentQuestionNum - 1) "block"
        (Obj.set currentQuestionNum "none" v.cards) }
  | _, _ => v

/-- The page of a quiz right after it is rendered: the first card is shown, the others
are hidden. -/
def QuizView.new (questions : List Question) (moduleId : Int) : QuizView :=
  { engine := QuizEngine.new questions moduleId,
    cards := (questions.enumFrom 1).map
      (fun (p : Nat × Question) => ((p.1 : Int), if p.1 = 1 then "block" else "none")) }

/-- A tracker with one completed lesson, for worked examples. -/
def oneLessonTracker : Tracker :=
  run counterStringify [Op.complete 1 1 5 6] (initialTracker counterStringify 1 2 3 blankTracker)

/-! ## The presentation layer (`static/js/main.js`) -/

/-- The integer that the double `m * 2 ^ e` is, for a double that is an integer. -/
def intOfDouble (x : Nat × Int) : Nat :=
  x.1 * 2 ^ x.2.toNat / 2 ^ (-x.2).toNat

/-- The double nearest to the integer `x`, ties to even: `x` itself up to `2 ^ 53` in
absolute value, and an infinity when the nearest value of 53 bits has a binary
logarithm of 1024 or more. -/
def doubleOfInt (x : Int) : JSNumber :=
  if x = 0 then JSNumber.fin 0
  else
    let m := intOfDouble (roundToDouble x.natAbs 1)
    if 1024 ≤ ilog2 m then
      if 0 < x then JSNumber.posInf else JSNumber.negInf
    else
      JSNumber.fin (if 0 < x then (m : Int) else -(m : Int))

/-- The sum `sum + c` of JavaScript for a counter `c`, a double that is an integer:
the exact sum is rounded to the nearest double; an infinity and `NaN` stay. -/
def doubleAdd (sum : JSNumber) (c : Int) : JSNumber :=
  match sum with
  | JSNumber.fin a => doubleOfInt (a + c)
  | other => other

/-- The sum `Object.values(progress.modules).reduce((sum, module) => sum +
module.completed, 0)` of `main.js`, added up in double arithmetic in the order of the
bindings, which for the modules 1..14 of `initializeProgress` is the ascending order of
the keys that `Object.values` follows. -/
def completedLessonsOf (progress : ProgressDocument) : JSNumber :=
  (Obj.values progress.modules).foldl
    (fun (sum : JSNumber) (module : ModuleProgress) => doubleAdd sum module.completed)
    (JSNumber.fin 0)

/-- The value of `Math.round((x / b) * 100)` for a sum `x` and a positive count `b`:
an infinity and `NaN` stay what they are. -/
def roundedPercentOf (x : JSNumber) (b : Nat) : JSNumber :=
  match x with
  | JSNumber.fin a => roundedPercent a b
  | other => other

/-- The text of a number in a template literal. -/
def numberText : JSNumber → String
  | JSNumber.fin k => toString k
  | JSNumber.nan => "NaN"
  | JSNumber.posInf => "Infinity"
  | JSNumber.negInf => "-Infinity"

/-- What `GlobalProgressBar.update()` computes and writes: the percentage, the width of
`global-progress-fill` and the text of `global-progress-text`. -/
structure BarUpdate where
  percentage : JSNumber
  width : String
  text : String
deriving DecidableEq, Repr

/-- The method `GlobalProgressBar.update()`; `t` is the tracker that
`new ProgressTracker()` yields. -/
def GlobalProgressBar.update (t : Tracker) : BarUpdate :=
  let progress := t.progress
  let totalLessons : Nat := 73
  let completedLessons := completedLessonsOf progress
  let percentage := roundedPercentOf completedLessons totalLessons
  { percentage := percentage,
    width := numberText percentage ++ "%",
    text := numberText percentage ++ "% Complete" }

/-- A row of the module list of the progress modal. -/
structure ModuleRow where
  moduleId : Nat
  percentage : Int
  completed : Int
  total : Int
deriving DecidableEq, Repr

/-- What `ProgressModal.renderProgress()` puts into the modal body: the numbers of the
summary and the rows of the modules 1..14. -/
structure ModalContent where
  completedLessons : JSNumber
  totalLessons : Nat
  overallPercentage : JSNumber
  rows : List ModuleRow
deriving DecidableEq, Repr

/-- The method `ProgressModal.renderProgress()` when the modal body exists; `t` is the
tracker that `new ProgressTracker()` yields. -/
def ProgressModal.renderProgress (t : Tracker) : ModalContent :=
  let progress := t.progress
  let totalLessons : Nat := 73
  let completedLessons := completedLessonsOf progress
  let overallPercentage := roundedPercentOf completedLessons totalLessons
  { completedLessons := completedLessons,
    totalLessons := totalLessons,
    overallPercentage := overallPercentage,
    rows := (List.range' 1 14).map (fun (i : Nat) =>
      let moduleProgress : ModuleProgress :=
        match Obj.get (i : Int) progress.modules with
        | some module => module
        | none => { completed := 0, total := 0, lessons := [] }
      let percentage :=
        if 0 < moduleProgress.total then
          roundedPercentFin moduleProgress.completed moduleProgress.total.toNat
        else 0
      { moduleId := i, percentage := percentage, completed := moduleProgress.completed,
        total := moduleProgress.total }) }

/-- A document whose modules 1, 2 and 3 count `2 ^ 53`, 1 and 1 completed lessons and
whose `totalLessonsCompleted` is their sum, for worked examples. -/
def largeCountTracker : Tracker :=
  { blankTracker with
    progress :=
      { defaultDocument 0 0 with
        totalLessonsCompleted := 2 ^ 53 + 2,
        modules :=
          Obj.modify 1 (fun m => { m with completed := 2 ^ 53 })
            (Obj.modify 2 (fun m => { m with completed := 1 })
              (Obj.modify 3 (fun m => { m with completed := 1 })
                (defaultDocument 0 0).modules)) } }

/-- The lessons that are not completed carry no completion time. -/
def Unstamped (lessons : Obj LessonState) : Prop :=
  ∀ q ∈ lessons, q.2.completed = false → q.2.completedAt = none

/-- The consistency of a document: it has the modules, totals and lesson ids of the
default document, a quiz record for the same ids, its counters agree with the
lesson flags, and only completed lessons carry a completion time. -/
structure Consistent (d : ProgressDocument) : Prop where
  shape_eq : shape d = shape (defaultDocument 0 0)
  quiz_keys : Obj.keys d.quizzes = Obj.keys (defaultDocument 0 0).quizzes
  module_count : ∀ p ∈ d.modules, p.2.completed = completedCount p.2.lessons
  total_sum : d.totalLessonsCompleted
    = ((Obj.values d.modules).map (fun m => m.completed)).sum
  unstamped : ∀ p ∈ d.modules, Unstamped p.2.lessons

/-! # Theorems -/

/-! ## Objects -/

theorem Obj.keys_modify {α : Type} (k : Int) (f : α → α) (o : Obj α) :
    Obj.keys (Obj.modify k f o) = Obj.keys o := by
  induction o with
  | nil => rfl
  | cons p rest ih =>
    obtain ⟨k', v⟩ := p
    unfold Obj.keys at ih ⊢
    by_cases h : k' = k
    · simp [Obj.modify, h]
    · simp [Obj.modify, h, ih]

theorem Obj.get_modify {α : Type} (k k' : Int) (f : α → α) (o : Obj α) :
    Obj.get k' (Obj.modify k f o)
      = if k' = k then (Obj.get k o).map f else Obj.get k' o := by
  induction o with
  | nil => simp [Obj.modify, Obj.get]
  | cons p rest ih =>
    obtain ⟨k1, v⟩ := p
    by_cases h : k1 = k
    · subst h
      by_cases h' : k1 = k'
      · subst h'
        simp [Obj.modify, Obj.get]
      · have h'' : ¬ k' = k1 := fun e => h' e.symm
        simp [Obj.modify, Obj.get, h', h'']
    · by_cases h' : k1 = k'
      · subst h'
        simp [Obj.modify, Obj.get, h]
      · simp only [Obj.modify, h, if_false, Obj.get, h', ih]

theorem Obj.get_modify_self {α : Type} (k : Int) (f : α → α) (o : Obj α) :
    Obj.get k (Obj.modify k f o) = (Obj.get k o).map f := by
  simp [Obj.get_modify]

theorem Obj.get_modify_ne {α : Type} (k k' : Int) (f : α → α) (o : Obj α) (h : k' ≠ k) :
    Obj.get k' (Obj.modify k f o) = Obj.get k' o := by
  simp [Obj.get_modify, h]

theorem Obj.modify_modify {α : Type} (k : Int) (f g : α → α) (o : Obj α) :
    Obj.modify k f (Obj.modify k g o) = Obj.modify k (fun v => f (g v)) o := by
  induction o with
  | nil => rfl
  | cons p rest ih =>
    obtain ⟨k1, v⟩ := p
    by_cases h : k1 = k
    · simp [Obj.modify, h]
    · simp [Obj.modify, h, ih]

theorem Obj.mem_modify {α : Type} (k : Int) (f : α → α) (o : Obj α) (p : Int × α)
    (hp : p ∈ Obj.modify k f o) :
    p ∈ o ∨ ∃ v, Obj.get k o = some v ∧ p = (k, f v) := by
  induction o with
  | nil => simp [Obj.modify] at hp
  | cons q rest ih =>
    obtain ⟨k1, v⟩ := q
    by_cases hk : k1 = k
    · simp only [Obj.modify, hk, if_true, List.mem_cons] at hp
      rcases hp with hp | hp
      · exact Or.inr ⟨v, by simp [Obj.get, hk], hp⟩
      · exact Or.inl (List.mem_cons_of_mem _ hp)
    · simp only [Obj.modify, hk, if_false, List.mem_cons] at hp
      rcases hp with hp | hp
      · exact Or.inl (by simp [hp])
      · rcases ih hp with h | ⟨w, hw, e⟩
        · exact Or.inl (List.mem_cons_of_mem _ h)
        · exact Or.inr ⟨w, by simpa [Obj.get, hk] using hw, e⟩

theorem Obj.mem_of_get {α : Type} (k : Int) (o : Obj α) (v : α)
    (h : Obj.get k o = some v) : (k, v) ∈ o := by
  induction o with
  | nil => simp [Obj.get] at h
  | cons q rest ih =>
    obtain ⟨k1, w⟩ := q
    by_cases hk : k1 = k
    · simp [Obj.get, hk] at h
      simp [hk, h]
    · simp only [Obj.get, hk, if_false] at h
      exact List.mem_cons_of_mem _ (ih h)

theorem Obj.get_isSome_iff {α : Type} (k : Int) (o : Obj α) :
    (Obj.get k o).isSome = true ↔ k ∈ Obj.keys o := by
  induction o with
  | nil => simp [Obj.get, Obj.keys]
  | cons q rest ih =>
    obtain ⟨k1, w⟩ := q
    unfold Obj.keys at ih ⊢
    by_cases hk : k1 = k
    · simp [Obj.get, hk]
    · have hk' : ¬ k = k1 := fun e => hk e.symm
      simp [Obj.get, hk, hk', ih]

theorem Obj.map_modify {α β : Type} (k : Int) (f : α → α) (o : Obj α) (F : Int × α → β)
    (h : ∀ v, Obj.get k o = some v → F (k, f v) = F (k, v)) :
    (Obj.modify k f o).map F = o.map F := by
  induction o with
  | nil => rfl
  | cons q rest ih =>
    obtain ⟨k1, w⟩ := q
    by_cases hk : k1 = k
    · have := h w (by simp [Obj.get, hk])
      simp [Obj.modify, hk, this]
    · have ih' := ih (fun w hw => h w (by simpa [Obj.get, hk] using hw))
      simp [Obj.modify, hk, ih']

theorem Obj.sum_modify {α : Type} (k : Int) (f : α → α) (o : Obj α) (F : α → Int) :
    ((Obj.values (Obj.modify k f o)).map F).sum
      = ((Obj.values o).map F).sum
        + (match Obj.get k o with
           | some v => F (f v) - F v
           | none => 0) := by
  induction o with
  | nil => simp [Obj.modify, Obj.get, Obj.values]
  | cons q rest ih =>
    obtain ⟨k1, w⟩ := q
    unfold Obj.values at ih ⊢
    by_cases hk : k1 = k
    · simp only [Obj.modify, hk, if_true, Obj.get, List.map_cons, List.sum_cons]
      ring
    · simp only [Obj.modify, hk, if_false, Obj.get, List.map_cons, List.sum_cons, ih]
      ring

theorem completedCount_modify (k : Int) (f : LessonState → LessonState) (o : Obj LessonState) :
    completedCount (Obj.modify k f o)
      = completedCount o
        + (match Obj.get k o with
           | some v => (if (f v).completed then 1 else 0) - (if v.completed then 1 else 0)
           | none => 0) := by
  induction o with
  | nil => simp [Obj.modify, Obj.get, completedCount, Obj.values]
  | cons q rest ih =>
    obtain ⟨k1, w⟩ := q
    unfold completedCount Obj.values at ih ⊢
    by_cases hk : k1 = k
    · simp only [Obj.modify, hk, if_true, Obj.get, List.map_cons, List.countP_cons]
      cases (f w).completed <;> cases w.completed <;> simp
    · simp only [Obj.modify, hk, if_false, Obj.get, List.map_cons, List.countP_cons]
      push_cast
      rw [ih]
      ring

/-! ## The consistency of the document is kept by every call -/

theorem Consistent.modify_module (d : ProgressDocument) (hc : Consistent d) (k : Int)
    (g : ModuleProgress → ModuleProgress) (delta : Int) (now : Timestamp)
    (hg : ∀ v, Obj.get k d.modules = some v →
      (g v).total = v.total ∧ Obj.keys (g v).lessons = Obj.keys v.lessons
      ∧ (g v).completed = v.completed + delta
      ∧ completedCount (g v).lessons = completedCount v.lessons + delta
      ∧ (Unstamped v.lessons → Unstamped (g v).lessons))
    (hk : (Obj.get k d.modules).isSome = true) :
    Consistent { d with lastUpdated := now, modules := Obj.modify k g d.modules,
                        totalLessonsCompleted := d.totalLessonsCompleted + delta } := by
  obtain ⟨v0, hv0⟩ := Option.isSome_iff_exists.mp hk
  refine ⟨?_, hc.quiz_keys, ?_, ?_, ?_⟩
  · rw [← hc.shape_eq]
    unfold shape
    apply Obj.map_modify
    intro v hv
    obtain ⟨h1, h2, -, -, -⟩ := hg v hv
    simp [h1, h2]
  · intro p hp
    rcases Obj.mem_modify k g d.modules p hp with h | ⟨v, hv, rfl⟩
    · exact hc.module_count p h
    · obtain ⟨-, -, h3, h4, -⟩ := hg v hv
      have := hc.module_count (k, v) (Obj.mem_of_get k d.modules v hv)
      simp only at this ⊢
      rw [h3, h4, this]
  · show d.totalLessonsCompleted + delta = _
    rw [Obj.sum_modify, hv0]
    simp only []
    rw [(hg v0 hv0).2.2.1, hc.total_sum]
    ring
  · intro p hp
    rcases Obj.mem_modify k g d.modules p hp with h | ⟨v, hv, rfl⟩
    · exact hc.unstamped p h
    · exact (hg v hv).2.2.2.2 (hc.unstamped (k, v) (Obj.mem_of_get k d.modules v hv))

theorem Consistent.touch (d : ProgressDocument) (hc : Consistent d) (now : Timestamp) :
    Consistent { d with lastUpdated := now } :=
  ⟨hc.shape_eq, hc.quiz_keys, hc.module_count, hc.total_sum, hc.unstamped⟩

theorem Consistent.modify_quiz (d : ProgressDocument) (hc : Consistent d) (k : Int)
    (g : QuizRecord → QuizRecord) (now : Timestamp) :
    Consistent { d with lastUpdated := now, quizzes := Obj.modify k g d.quizzes } :=
  ⟨hc.shape_eq, by rw [← hc.quiz_keys]; exact Obj.keys_modify k g d.quizzes,
    hc.module_count, hc.total_sum, hc.unstamped⟩

theorem default_module_count :
    ∀ p ∈ (defaultDocument 0 0).modules, p.2.completed = completedCount p.2.lessons := by
  decide

theorem default_unstamped :
    ∀ p ∈ (defaultDocument 0 0).modules, ∀ q ∈ p.2.lessons,
      q.2.completed = false → q.2.completedAt = none := by
  decide

theorem Unstamped.modify (lessons : Obj LessonState) (h : Unstamped lessons) (k : Int)
    (f : LessonState → LessonState)
    (hf : ∀ v, (f v).completed = false → (f v).completedAt = none) :
    Unstamped (Obj.modify k f lessons) := by
  intro q hq
  rcases Obj.mem_modify k f lessons q hq with hq' | ⟨v, -, rfl⟩
  · exact h q hq'
  · exact hf v

theorem Unstamped.modify_keep (lessons : Obj LessonState) (h : Unstamped lessons) (k : Int)
    (f : LessonState → LessonState)
    (hf : ∀ v, (f v).completed = v.completed ∧ (f v).completedAt = v.completedAt) :
    Unstamped (Obj.modify k f lessons) := by
  intro q hq
  rcases Obj.mem_modify k f lessons q hq with hq' | ⟨v, hv, rfl⟩
  · exact h q hq'
  · intro hc
    have := h (k, v) (Obj.mem_of_get k lessons v hv)
    simp only [(hf v).1, (hf v).2] at hc ⊢
    exact this hc

theorem defaultDocument_modules (tUpdated tStarted : Timestamp) :
    (defaultDocument tUpdated tStarted).modules = (defaultDocument 0 0).modules :=
  rfl

theorem defaultDocument_quizzes (tUpdated tStarted : Timestamp) :
    (defaultDocument tUpdated tStarted).quizzes = (defaultDocument 0 0).quizzes :=
  rfl

theorem defaultDocument_total (tUpdated tStarted : Timestamp) :
    (defaultDocument tUpdated tStarted).totalLessonsCompleted = 0 :=
  rfl

theorem default_total_sum :
    (0 : Int) = ((Obj.values (defaultDocument 0 0).modules).map (fun m => m.completed)).sum := by
  decide

theorem consistent_defaultDocument (tUpdated tStarted : Timestamp) :
    Consistent (defaultDocument tUpdated tStarted) := by
  refine ⟨?_, ?_, ?_, ?_, ?_⟩
  · unfold shape
    rw [defaultDocument_modules]
  · rw [defaultDocument_quizzes]
  · rw [defaultDocument_modules]
    exact default_module_count
  · rw [defaultDocument_modules, defaultDocument_total]
    exact default_total_sum
  · rw [defaultDocument_modules]
    exact default_unstamped

theorem saveProgress_progress (stringify : ProgressDocument → String) (now : Timestamp)
    (progress : ProgressDocument) (t : Tracker) :
    (saveProgress stringify now progress t).progress = { progress with lastUpdated := now } :=
  rfl

theorem consistent_markLessonComplete (stringify : ProgressDocument → String)
    (tDone tSaved : Timestamp) (moduleId lessonId : Int) (t : Tracker)
    (hc : Consistent t.progress) :
    Consistent (markLessonComplete stringify tDone tSaved moduleId lessonId t).2.progress := by
  cases hm : Obj.get moduleId t.progress.modules with
  | none => simpa only [markLessonComplete, hm] using hc
  | some module =>
    cases hl : Obj.get lessonId module.lessons with
    | none => simpa only [markLessonComplete, hm, hl] using hc
    | some lesson =>
      simp only [markLessonComplete, hm, hl, saveProgress_progress]
      cases hcomp : lesson.completed with
      | true =>
        have := Consistent.modify_module t.progress hc moduleId
          (fun m => { m with lessons := (Obj.modify lessonId
            (fun l => { l with attempts := l.attempts + 1 }) m.lessons) }) 0 tSaved
          (by
            intro v hv
            rw [hm] at hv
            cases hv
            refine ⟨rfl, Obj.keys_modify _ _ _, by simp, ?_, ?_⟩
            · simp [completedCount_modify, hl]
            · intro hu
              exact hu.modify_keep _ _ _ (fun _ => ⟨rfl, rfl⟩))
          (by simp [hm])
        simpa using this
      | false =>
        have := Consistent.modify_module t.progress hc moduleId
          (fun m => { m with
            lessons := (Obj.modify lessonId (fun l => { l with attempts := l.attempts + 1 })
              (Obj.modify lessonId
                (fun l => { l with completed := true, completedAt := some tDone }) m.lessons)),
            completed := m.completed + 1 }) 1 tSaved
          (by
            intro v hv
            rw [hm] at hv
            cases hv
            refine ⟨rfl, by simp [Obj.keys_modify], by simp, ?_, ?_⟩
            · simp [completedCount_modify, Obj.get_modify_self, hl, hcomp]
            · intro hu
              simp only [Obj.modify_modify]
              exact hu.modify _ _ _ (fun _ h => by simp at h))
          (by simp [hm])
        simpa [Obj.modify_modify] using this

theorem consistent_markLessonIncomplete (stringify : ProgressDocument → String)
    (tSaved : Timestamp) (moduleId lessonId : Int) (t : Tracker)
    (hc : Consistent t.progress) :
    Consistent (markLessonIncomplete stringify tSaved moduleId lessonId t).2.progress := by
  cases hm : Obj.get moduleId t.progress.modules with
  | none => simpa only [markLessonIncomplete, hm] using hc
  | some module =>
    cases hl : Obj.get lessonId module.lessons with
    | none => simpa only [markLessonIncomplete, hm, hl] using hc
    | some lesson =>
      simp only [markLessonIncomplete, hm, hl, saveProgress_progress]
      cases hcomp : lesson.completed with
      | false => simpa using Consistent.touch t.progress hc tSaved
      | true =>
        have := Consistent.modify_module t.progress hc moduleId
          (fun m => { m with
            lessons := (Obj.modify lessonId
              (fun l => { l with completed := false, completedAt := none }) m.lessons),
            completed := m.completed - 1 }) (-1) tSaved
          (by
            intro v hv
            rw [hm] at hv
            cases hv
            refine ⟨rfl, by simp [Obj.keys_modify], by simp [sub_eq_add_neg], ?_, ?_⟩
            · simp [completedCount_modify, hl, hcomp, sub_eq_add_neg]
            · intro hu
              exact hu.modify _ _ _ (fun _ _ => rfl))
          (by simp [hm])
        simpa [sub_eq_add_neg] using this

theorem consistent_recordQuizAttempt (stringify : ProgressDocument → String)
    (tDate tSaved : Timestamp) (moduleId : Int) (score totalQuestions : Nat) (t : Tracker)
    (hc : Consistent t.progress) :
    Consistent
      (recordQuizAttempt stringify tDate tSaved moduleId score totalQuestions t).2.progress := by
  cases hm : Obj.get moduleId t.progress.quizzes with
  | none => simpa only [recordQuizAttempt, hm] using hc
  | some quiz =>
    simp only [recordQuizAttempt, hm, saveProgress_progress]
    exact Consistent.modify_quiz t.progress hc moduleId _ tSaved

theorem consistent_call (stringify : ProgressDocument → String) (op : Op) (t : Tracker)
    (hc : Consistent t.progress) : Consistent (op.call stringify t).2.progress := by
  cases op with
  | complete m l tDone tSaved => exact consistent_markLessonComplete stringify tDone tSaved m l t hc
  | incomplete m l tSaved => exact consistent_markLessonIncomplete stringify tSaved m l t hc
  | quiz m s n tDate tSaved => exact consistent_recordQuizAttempt stringify tDate tSaved m s n t hc

theorem consistent_run (stringify : ProgressDocument → String) (ops : List Op) (t : Tracker)
    (hc : Consistent t.progress) : Consistent (run stringify ops t).progress := by
  induction ops generalizing t with
  | nil => exact hc
  | cons op rest ih => exact ih _ (consistent_call stringify op t hc)

theorem consistent_initialTracker (stringify : ProgressDocument → String)
    (tUpdated tStarted tSaved : Timestamp) (t : Tracker) :
    Consistent (initialTracker stringify tUpdated tStarted tSaved t).progress :=
  Consistent.touch _ (consistent_defaultDocument tUpdated tStarted) tSaved

theorem consistent_reachable (stringify : ProgressDocument → String)
    (tUpdated tStarted tSaved : Timestamp) (t : Tracker) (ops : List Op) :
    Consistent (run stringify ops (initialTracker stringify tUpdated tStarted tSaved t)).progress :=
  consistent_run stringify ops _ (consistent_initialTracker stringify tUpdated tStarted tSaved t)

theorem Obj.map_values_eq_map_keys {α : Type} (o : Obj α) (F : α → Int)
    (hnd : (Obj.keys o).Nodup) :
    (Obj.values o).map F
      = (Obj.keys o).map (fun k => match Obj.get k o with
                                   | some v => F v
                                   | none => 0) := by
  induction o with
  | nil => rfl
  | cons q rest ih =>
    obtain ⟨k1, w⟩ := q
    simp only [Obj.values, Obj.keys, List.map_cons, List.nodup_cons] at ih hnd ⊢
    congr 1
    · simp [Obj.get]
    · rw [ih hnd.2]
      apply List.map_congr_left
      intro k hk
      have hne : ¬ k1 = k := fun e => hnd.1 (e ▸ hk)
      simp [Obj.get, hne]

theorem keys_modules_eq_map_shape (d : ProgressDocument) :
    Obj.keys d.modules = (shape d).map (fun x => x.1) := by
  simp [shape, Obj.keys]

theorem Consistent.keys_modules (d : ProgressDocument) (hc : Consistent d) :
    Obj.keys d.modules = [1, 2, 3, 4, 5, 6, 7, 8, 9, 10, 11, 12, 13, 14] := by
  rw [keys_modules_eq_map_shape, hc.shape_eq]
  decide

theorem Consistent.get_module_isSome (d : ProgressDocument) (hc : Consistent d) (i : Int)
    (h1 : 1 ≤ i) (h14 : i ≤ 14) : (Obj.get i d.modules).isSome = true := by
  rw [Obj.get_isSome_iff, hc.keys_modules]
  interval_cases i <;> decide

/-- C1: after any sequence of calls made on the tracker that `initializeProgress`
leaves (lesson toggles with any ids, repeated or unknown, and quiz attempts as well),
every module `i` of 1..14 exists and its `completed` counter is the number of its
lessons whose `completed` flag is true. -/
theorem module_completed_eq_completedCount (stringify : ProgressDocument → String)
    (tUpdated tStarted tSaved : Timestamp) (t0 : Tracker) (ops : List Op)
    (i : Int) (h1 : 1 ≤ i) (h14 : i ≤ 14) :
    ∃ m, Obj.get i
        (run stringify ops (initialTracker stringify tUpdated tStarted tSaved t0)).progress.modules
          = some m
      ∧ m.completed = completedCount m.lessons := by
  have hc := consistent_reachable stringify tUpdated tStarted tSaved t0 ops
  obtain ⟨m, hm⟩ := Option.isSome_iff_exists.mp (hc.get_module_isSome _ i h1 h14)
  exact ⟨m, hm, hc.module_count (i, m) (Obj.mem_of_get i _ m hm)⟩

/-- Witness of C1: module 1 after completing lesson 1 twice, completing lesson 2,
toggling lesson 2 back and touching an unknown lesson. -/
theorem module_completed_eq_completedCount_witness :
    ((1 : Int) ≤ 1 ∧ (1 : Int) ≤ 14) ∧
    ∃ m, Obj.get 1
        (run counterStringify
          [Op.complete 1 1 10 11, Op.complete 1 1 12 13, Op.complete 1 2 14 15,
           Op.incomplete 1 2 16, Op.incomplete 1 9 17]
          (initialTracker counterStringify 1 2 3 blankTracker)).progress.modules = some m
      ∧ m.completed = completedCount m.lessons :=
  ⟨by decide,
   module_completed_eq_completedCount counterStringify 1 2 3 blankTracker
    [Op.complete 1 1 10 11, Op.complete 1 1 12 13, Op.complete 1 2 14 15,
     Op.incomplete 1 2 16, Op.incomplete 1 9 17] 1 (by decide) (by decide)⟩

/-- C2: after any sequence of `markLessonComplete`, `markLessonIncomplete` and
`recordQuizAttempt` calls made on the tracker that `initializeProgress` leaves,
`totalLessonsCompleted` is the sum of `modules[i].completed` over the modules 1..14,
which are all the modules of the document. -/
theorem totalLessonsCompleted_eq_sum (stringify : ProgressDocument → String)
    (tUpdated tStarted tSaved : Timestamp) (t0 : Tracker) (ops : List Op) :
    Obj.keys
        (run stringify ops (initialTracker stringify tUpdated tStarted tSaved t0)).progress.modules
      = [1, 2, 3, 4, 5, 6, 7, 8, 9, 10, 11, 12, 13, 14]
    ∧ (run stringify ops
        (initialTracker stringify tUpdated tStarted tSaved t0)).progress.totalLessonsCompleted
      = (([1, 2, 3, 4, 5, 6, 7, 8, 9, 10, 11, 12, 13, 14] : List Int).map (fun i =>
          (getModuleProgress
            (run stringify ops (initialTracker stringify tUpdated tStarted tSaved t0))
            i).completed)).sum := by
  have hc := consistent_reachable stringify tUpdated tStarted tSaved t0 ops
  refine ⟨hc.keys_modules, ?_⟩
  rw [hc.total_sum, Obj.map_values_eq_map_keys _ _ (by rw [hc.keys_modules]; decide),
    hc.keys_modules]
  congr 1
  apply List.map_congr_left
  intro k _
  unfold getModuleProgress
  cases Obj.get k _ <;> rfl

/-! ## What a lesson toggle does to a lesson that exists -/

theorem markLessonComplete_spec (stringify : ProgressDocument → String)
    (tDone tSaved : Timestamp) (moduleId lessonId : Int) (t : Tracker)
    (module : ModuleProgress) (lesson : LessonState)
    (hm : Obj.get moduleId t.progress.modules = some module)
    (hl : Obj.get lessonId module.lessons = some lesson) :
    (markLessonComplete stringify tDone tSaved moduleId lessonId t).1 = true
    ∧ (markLessonComplete stringify tDone tSaved moduleId lessonId t).2.progress.totalLessonsCompleted
        = t.progress.totalLessonsCompleted + (if lesson.completed then 0 else 1)
    ∧ (markLessonComplete stringify tDone tSaved moduleId lessonId t).2.progress.quizzes
        = t.progress.quizzes
    ∧ (∀ i, i ≠ moduleId →
        Obj.get i (markLessonComplete stringify tDone tSaved moduleId lessonId t).2.progress.modules
          = Obj.get i t.progress.modules)
    ∧ ∃ module',
        Obj.get moduleId
            (markLessonComplete stringify tDone tSaved moduleId lessonId t).2.progress.modules
          = some module'
        ∧ module'.completed = module.completed + (if lesson.completed then 0 else 1)
        ∧ module'.total = module.total
        ∧ (∀ j, j ≠ lessonId → Obj.get j module'.lessons = Obj.get j module.lessons)
        ∧ Obj.get lessonId module'.lessons
            = some { completed := true,
                     completedAt := if lesson.completed then lesson.completedAt else some tDone,
                     attempts := lesson.attempts + 1 } := by
  simp only [markLessonComplete, hm, hl, saveProgress_progress]
  cases hcomp : lesson.completed with
  | true =>
    refine ⟨trivial, by simp, by simp, ?_, ?_⟩
    · intro i hi
      simp [Obj.get_modify_ne _ _ _ _ hi]
    · simp only [Bool.not_true, Bool.false_eq_true, if_false, Obj.get_modify_self, hm,
        Option.map_some', if_true]
      refine ⟨_, rfl, by simp, rfl, ?_, ?_⟩
      · intro j hj
        simp [Obj.get_modify_ne _ _ _ _ hj]
      · simp [Obj.get_modify_self, hl, hcomp]
  | false =>
    refine ⟨trivial, by simp, by simp, ?_, ?_⟩
    · intro i hi
      simp [Obj.get_modify_ne _ _ _ _ hi]
    · simp only [Bool.not_false, if_true, Obj.get_modify_self, hm, Option.map_some',
        Bool.false_eq_true, if_false]
      refine ⟨_, rfl, by simp, rfl, ?_, ?_⟩
      · intro j hj
        simp [Obj.get_modify_ne _ _ _ _ hj]
      · simp [Obj.get_modify_self, hl]

theorem markLessonIncomplete_spec (stringify : ProgressDocument → String)
    (tSaved : Timestamp) (moduleId lessonId : Int) (t : Tracker)
    (module : ModuleProgress) (lesson : LessonState)
    (hm : Obj.get moduleId t.progress.modules = some module)
    (hl : Obj.get lessonId module.lessons = some lesson) :
    (markLessonIncomplete stringify tSaved moduleId lessonId t).1 = true
    ∧ (markLessonIncomplete stringify tSaved moduleId lessonId t).2.progress.totalLessonsCompleted
        = t.progress.totalLessonsCompleted - (if lesson.completed then 1 else 0)
    ∧ (markLessonIncomplete stringify tSaved moduleId lessonId t).2.progress.quizzes
        = t.progress.quizzes
    ∧ (∀ i, i ≠ moduleId →
        Obj.get i (markLessonIncomplete stringify tSaved moduleId lessonId t).2.progress.modules
          = Obj.get i t.progress.modules)
    ∧ ∃ module',
        Obj.get moduleId
            (markLessonIncomplete stringify tSaved moduleId lessonId t).2.progress.modules
          = some module'
        ∧ module'.completed = module.completed - (if lesson.completed then 1 else 0)
        ∧ module'.total = module.total
        ∧ (∀ j, j ≠ lessonId → Obj.get j module'.lessons = Obj.get j module.lessons)
        ∧ Obj.get lessonId module'.lessons
            = some { completed := false,
                     completedAt := if lesson.completed then none else lesson.completedAt,
                     attempts := lesson.attempts } := by
  simp only [markLessonIncomplete, hm, hl, saveProgress_progress]
  cases hcomp : lesson.completed with
  | false =>
    refine ⟨trivial, by simp, by simp, ?_, ?_⟩
    · intro i _
      simp
    · refine ⟨module, by simp [hm], by simp, rfl, fun j _ => rfl, ?_⟩
      rw [hl]
      cases lesson
      simp_all
  | true =>
    refine ⟨trivial, by simp, by simp, ?_, ?_⟩
    · intro i hi
      simp [Obj.get_modify_ne _ _ _ _ hi]
    · simp only [if_true, Obj.get_modify_self, hm, Option.map_some']
      refine ⟨_, rfl, by simp, rfl, ?_, ?_⟩
      · intro j hj
        simp [Obj.get_modify_ne _ _ _ _ hj]
      · simp [Obj.get_modify_self, hl]

theorem isLessonComplete_eq (t : Tracker) (moduleId lessonId : Int) :
    isLessonComplete t moduleId lessonId
      = ((lessonAt t moduleId lessonId).map (fun l => l.completed)).getD false := by
  unfold isLessonComplete lessonAt
  cases Obj.get moduleId t.progress.modules with
  | none => rfl
  | some m =>
    cases h : Obj.get lessonId m.lessons with
    | none => simp [h]
    | some l => simp [h]

/-- C3: on any document and for any lesson that exists, `markLessonComplete` returns
true and leaves the lesson completed, raising `modules[moduleId].completed` and
`totalLessonsCompleted` by one exactly when the lesson was not completed before; a
second call with the same ids returns true and leaves the `completed` flag of every
lesson, the `completed` counter of every module and `totalLessonsCompleted` as the
first call left them. -/
theorem markLessonComplete_idempotent (stringify : ProgressDocument → String)
    (tDone1 tSaved1 tDone2 tSaved2 : Timestamp) (moduleId lessonId : Int) (t : Tracker)
    (module : ModuleProgress) (lesson : LessonState)
    (hm : Obj.get moduleId t.progress.modules = some module)
    (hl : Obj.get lessonId module.lessons = some lesson) :
    (markLessonComplete stringify tDone1 tSaved1 moduleId lessonId t).1 = true
    ∧ isLessonComplete (markLessonComplete stringify tDone1 tSaved1 moduleId lessonId t).2
        moduleId lessonId = true
    ∧ (markLessonComplete stringify tDone1 tSaved1 moduleId lessonId t).2.progress.totalLessonsCompleted
        = t.progress.totalLessonsCompleted + (if lesson.completed then 0 else 1)
    ∧ (getModuleProgress (markLessonComplete stringify tDone1 tSaved1 moduleId lessonId t).2
        moduleId).completed = module.completed + (if lesson.completed then 0 else 1)
    ∧ (markLessonComplete stringify tDone2 tSaved2 moduleId lessonId
        (markLessonComplete stringify tDone1 tSaved1 moduleId lessonId t).2).1 = true
    ∧ (∀ i j,
        (lessonAt (markLessonComplete stringify tDone2 tSaved2 moduleId lessonId
          (markLessonComplete stringify tDone1 tSaved1 moduleId lessonId t).2).2 i j).map
            (fun l => l.completed)
        = (lessonAt (markLessonComplete stringify tDone1 tSaved1 moduleId lessonId t).2 i j).map
            (fun l => l.completed))
    ∧ (∀ i,
        (Obj.get i (markLessonComplete stringify tDone2 tSaved2 moduleId lessonId
          (markLessonComplete stringify tDone1 tSaved1 moduleId lessonId t).2).2.progress.modules).map
            (fun m => m.completed)
        = (Obj.get i
            (markLessonComplete stringify tDone1 tSaved1 moduleId lessonId t).2.progress.modules).map
            (fun m => m.completed))
    ∧ (markLessonComplete stringify tDone2 tSaved2 moduleId lessonId
        (markLessonComplete stringify tDone1 tSaved1 moduleId lessonId t).2).2.progress.totalLessonsCompleted
        = (markLessonComplete stringify tDone1 tSaved1 moduleId lessonId t).2.progress.totalLessonsCompleted := by
  obtain ⟨a1, a2, -, -, module1, b1, b2, -, -, b5⟩ :=
    markLessonComplete_spec stringify tDone1 tSaved1 moduleId lessonId t module lesson hm hl
  obtain ⟨c1, c2, -, c4, module2, d1, d2, -, d4, d5⟩ :=
    markLessonComplete_spec stringify tDone2 tSaved2 moduleId lessonId
      (markLessonComplete stringify tDone1 tSaved1 moduleId lessonId t).2 module1 _ b1 b5
  refine ⟨a1, ?_, a2, ?_, c1, ?_, ?_, ?_⟩
  · simp [isLessonComplete_eq, lessonAt, b1, b5]
  · simp [getModuleProgress, b1, b2]
  · intro i j
    by_cases hi : i = moduleId
    · subst hi
      by_cases hj : j = lessonId
      · subst hj
        simp [lessonAt, b1, b5, d1, d5]
      · simp [lessonAt, b1, d1, d4 j hj]
    · simp [lessonAt, c4 i hi]
  · intro i
    by_cases hi : i = moduleId
    · subst hi
      simp [b1, d1, d2]
    · rw [c4 i hi]
  · simpa using c2

/-- Witness of C3: lesson 2 of module 3 of the default document, completed twice. -/
theorem markLessonComplete_idempotent_witness :
    isLessonComplete (markLessonComplete counterStringify 10 11 3 2 blankTracker).2 3 2 = true
    ∧ (markLessonComplete counterStringify 12 13 3 2
        (markLessonComplete counterStringify 10 11 3 2 blankTracker).2).2.progress.totalLessonsCompleted
        = (markLessonComplete counterStringify 10 11 3 2 blankTracker).2.progress.totalLessonsCompleted :=
  have h := markLessonComplete_idempotent counterStringify 10 11 12 13 3 2 blankTracker
    { completed := 0, total := 5,
      lessons := [(1, freshLesson), (2, freshLesson), (3, freshLesson), (4, freshLesson),
        (5, freshLesson)] }
    freshLesson (by decide) (by decide)
  ⟨h.2.1, h.2.2.2.2.2.2.2⟩

theorem Reachable.consistent (stringify : ProgressDocument → String) (t : Tracker)
    (hr : Reachable stringify t) : Consistent t.progress := by
  obtain ⟨tUpdated, tStarted, tSaved, t0, ops, rfl⟩ := hr
  exact consistent_reachable stringify tUpdated tStarted tSaved t0 ops

theorem reachable_run (stringify : ProgressDocument → String)
    (tUpdated tStarted tSaved : Timestamp) (t0 : Tracker) (ops : List Op) :
    Reachable stringify (run stringify ops (initialTracker stringify tUpdated tStarted tSaved t0)) :=
  ⟨tUpdated, tStarted, tSaved, t0, ops, rfl⟩

theorem markLessonIncomplete_of_incomplete (stringify : ProgressDocument → String)
    (tSaved : Timestamp) (moduleId lessonId : Int) (t : Tracker)
    (module : ModuleProgress) (lesson : LessonState)
    (hm : Obj.get moduleId t.progress.modules = some module)
    (hl : Obj.get lessonId module.lessons = some lesson)
    (hc : lesson.completed = false) :
    (markLessonIncomplete stringify tSaved moduleId lessonId t).2.progress
      = { t.progress with lastUpdated := tSaved } := by
  simp [markLessonIncomplete, hm, hl, hc, saveProgress_progress]

/-- C4: on a tracker reached from `initializeProgress()` and a lesson that exists,
`markLessonIncomplete` returns true, leaves the lesson with `completed` false and
`completedAt` null (its `attempts` untouched) and lowers `modules[moduleId].completed`
and `totalLessonsCompleted` by one exactly when the lesson was completed before; a
second consecutive call changes nothing in the document but `lastUpdated`; and
`markLessonComplete` followed by `markLessonIncomplete` on a lesson that was not
completed gives back that lesson's `completed` flag, its `completedAt` and both
counters. -/
theorem markLessonIncomplete_inverse (stringify : ProgressDocument → String)
    (tSaved1 tSaved2 tDone tSaved3 tSaved4 : Timestamp) (moduleId lessonId : Int) (t : Tracker)
    (module : ModuleProgress) (lesson : LessonState)
    (hr : Reachable stringify t)
    (hm : Obj.get moduleId t.progress.modules = some module)
    (hl : Obj.get lessonId module.lessons = some lesson) :
    (markLessonIncomplete stringify tSaved1 moduleId lessonId t).1 = true
    ∧ lessonAt (markLessonIncomplete stringify tSaved1 moduleId lessonId t).2 moduleId lessonId
        = some { completed := false, completedAt := none, attempts := lesson.attempts }
    ∧ (getModuleProgress (markLessonIncomplete stringify tSaved1 moduleId lessonId t).2
        moduleId).completed = module.completed - (if lesson.completed then 1 else 0)
    ∧ (markLessonIncomplete stringify tSaved1 moduleId lessonId t).2.progress.totalLessonsCompleted
        = t.progress.totalLessonsCompleted - (if lesson.completed then 1 else 0)
    ∧ (markLessonIncomplete stringify tSaved2 moduleId lessonId
        (markLessonIncomplete stringify tSaved1 moduleId lessonId t).2).2.progress
        = { (markLessonIncomplete stringify tSaved1 moduleId lessonId t).2.progress with
            lastUpdated := tSaved2 }
    ∧ (lesson.completed = false →
        (lessonAt (markLessonIncomplete stringify tSaved4 moduleId lessonId
            (markLessonComplete stringify tDone tSaved3 moduleId lessonId t).2).2
          moduleId lessonId).map (fun l => (l.completed, l.completedAt))
          = some (lesson.completed, lesson.completedAt)
        ∧ (getModuleProgress (markLessonIncomplete stringify tSaved4 moduleId lessonId
            (markLessonComplete stringify tDone tSaved3 moduleId lessonId t).2).2
          moduleId).completed = module.completed
        ∧ (markLessonIncomplete stringify tSaved4 moduleId lessonId
            (markLessonComplete stringify tDone tSaved3 moduleId lessonId t).2).2.progress.totalLessonsCompleted
          = t.progress.totalLessonsCompleted) := by
  have hcons := hr.consistent
  have hun : lesson.completed = false → lesson.completedAt = none :=
    hcons.unstamped (moduleId, module) (Obj.mem_of_get _ _ _ hm) (lessonId, lesson)
      (Obj.mem_of_get _ _ _ hl)
  obtain ⟨a1, a2, -, -, module1, b1, b2, -, -, b5⟩ :=
    markLessonIncomplete_spec stringify tSaved1 moduleId lessonId t module lesson hm hl
  refine ⟨a1, ?_, ?_, a2, ?_, ?_⟩
  · simp only [lessonAt, b1, Option.some_bind, b5]
    cases hcomp : lesson.completed with
    | true => simp
    | false => simp [hun hcomp]
  · simp [getModuleProgress, b1, b2]
  · exact markLessonIncomplete_of_incomplete stringify tSaved2 moduleId lessonId _ module1 _
      b1 b5 rfl
  · intro hcomp
    obtain ⟨-, c2, -, -, module2, d1, d2, -, -, d5⟩ :=
      markLessonComplete_spec stringify tDone tSaved3 moduleId lessonId t module lesson hm hl
    obtain ⟨-, e2, -, -, module3, f1, f2, -, -, f5⟩ :=
      markLessonIncomplete_spec stringify tSaved4 moduleId lessonId
        (markLessonComplete stringify tDone tSaved3 moduleId lessonId t).2 module2 _ d1 d5
    refine ⟨?_, ?_, ?_⟩
    · simp [lessonAt, f1, f5, hcomp, hun hcomp]
    · simp [getModuleProgress, f1, f2, d2, hcomp]
    · rw [e2, c2]
      simp [hcomp]

/-- Witness of C4: lesson 4 of module 5, after that lesson and another were completed. -/
theorem markLessonIncomplete_inverse_witness :
    lessonAt (markLessonIncomplete counterStringify 20 5 4
        (run counterStringify [Op.complete 5 4 10 11, Op.complete 1 1 12 13]
          (initialTracker counterStringify 1 2 3 blankTracker))).2 5 4
      = some { completed := false, completedAt := none, attempts := 1 }
    ∧ (markLessonIncomplete counterStringify 20 5 4
        (run counterStringify [Op.complete 5 4 10 11, Op.complete 1 1 12 13]
          (initialTracker counterStringify 1 2 3 blankTracker))).2.progress.totalLessonsCompleted
      = 2 - 1 :=
  have h := markLessonIncomplete_inverse counterStringify 20 21 22 23 24 5 4
    (run counterStringify [Op.complete 5 4 10 11, Op.complete 1 1 12 13]
      (initialTracker counterStringify 1 2 3 blankTracker))
    { completed := 1, total := 6,
      lessons := [(1, freshLesson), (2, freshLesson), (3, freshLesson),
        (4, { completed := true, completedAt := some 10, attempts := 1 }),
        (5, freshLesson), (6, freshLesson)] }
    { completed := true, completedAt := some 10, attempts := 1 }
    (reachable_run counterStringify 1 2 3 blankTracker _) (by decide) (by decide)
  ⟨h.2.1, h.2.2.2.1⟩

/-! ## Unknown identifiers -/

theorem markLessonComplete_fst (stringify : ProgressDocument → String)
    (tDone tSaved : Timestamp) (moduleId lessonId : Int) (t : Tracker) :
    (markLessonComplete stringify tDone tSaved moduleId lessonId t).1
      = (lessonAt t moduleId lessonId).isSome := by
  unfold markLessonComplete lessonAt
  cases Obj.get moduleId t.progress.modules with
  | none => rfl
  | some m =>
    cases h : Obj.get lessonId m.lessons with
    | none => simp [h]
    | some l => simp [h]

theorem markLessonComplete_of_false (stringify : ProgressDocument → String)
    (tDone tSaved : Timestamp) (moduleId lessonId : Int) (t : Tracker)
    (h : (markLessonComplete stringify tDone tSaved moduleId lessonId t).1 = false) :
    (markLessonComplete stringify tDone tSaved moduleId lessonId t).2 = t := by
  cases hm : Obj.get moduleId t.progress.modules with
  | none => simp only [markLessonComplete, hm]
  | some m =>
    cases hl : Obj.get lessonId m.lessons with
    | none => simp only [markLessonComplete, hm, hl]
    | some l => simp [markLessonComplete, hm, hl] at h

theorem markLessonIncomplete_fst (stringify : ProgressDocument → String)
    (tSaved : Timestamp) (moduleId lessonId : Int) (t : Tracker) :
    (markLessonIncomplete stringify tSaved moduleId lessonId t).1
      = (lessonAt t moduleId lessonId).isSome := by
  unfold markLessonIncomplete lessonAt
  cases Obj.get moduleId t.progress.modules with
  | none => rfl
  | some m =>
    cases h : Obj.get lessonId m.lessons with
    | none => simp [h]
    | some l => simp [h]

theorem markLessonIncomplete_of_false (stringify : ProgressDocument → String)
    (tSaved : Timestamp) (moduleId lessonId : Int) (t : Tracker)
    (h : (markLessonIncomplete stringify tSaved moduleId lessonId t).1 = false) :
    (markLessonIncomplete stringify tSaved moduleId lessonId t).2 = t := by
  cases hm : Obj.get moduleId t.progress.modules with
  | none => simp only [markLessonIncomplete, hm]
  | some m =>
    cases hl : Obj.get lessonId m.lessons with
    | none => simp only [markLessonIncomplete, hm, hl]
    | some l => simp [markLessonIncomplete, hm, hl] at h

theorem recordQuizAttempt_fst (stringify : ProgressDocument → String)
    (tDate tSaved : Timestamp) (moduleId : Int) (score totalQuestions : Nat) (t : Tracker) :
    (recordQuizAttempt stringify tDate tSaved moduleId score totalQuestions t).1
      = (Obj.get moduleId t.progress.quizzes).isSome := by
  unfold recordQuizAttempt
  cases Obj.get moduleId t.progress.quizzes <;> rfl

theorem recordQuizAttempt_of_false (stringify : ProgressDocument → String)
    (tDate tSaved : Timestamp) (moduleId : Int) (score totalQuestions : Nat) (t : Tracker)
    (h : (recordQuizAttempt stringify tDate tSaved moduleId score totalQuestions t).1 = false) :
    (recordQuizAttempt stringify tDate tSaved moduleId score totalQuestions t).2 = t := by
  cases hm : Obj.get moduleId t.progress.quizzes with
  | none => simp only [recordQuizAttempt, hm]
  | some q => simp [recordQuizAttempt, hm] at h

theorem lessonAt_eq_none_iff (t : Tracker) (moduleId lessonId : Int) :
    lessonAt t moduleId lessonId = none
      ↔ Obj.get moduleId t.progress.modules = none
        ∨ ∃ m, Obj.get moduleId t.progress.modules = some m ∧ Obj.get lessonId m.lessons = none := by
  unfold lessonAt
  cases Obj.get moduleId t.progress.modules with
  | none => simp
  | some m => simp

/-- C5: on every tracker, `markLessonComplete` and `markLessonIncomplete` return false
exactly when `modules[moduleId]` is missing or that module has no `lessons[lessonId]`,
and `recordQuizAttempt` exactly when `quizzes[moduleId]` is missing; a call that
returns false leaves the whole tracker as it was: the document in memory with its
`lastUpdated`, the stored text and the dispatched events.  Every call yields a return
value and a tracker, there is no path that raises; a value that is not false is true. -/
theorem unknown_ids_return_false_and_change_nothing (stringify : ProgressDocument → String)
    (tDone tDate tSaved : Timestamp) (moduleId lessonId : Int) (score totalQuestions : Nat)
    (t : Tracker) :
    (((markLessonComplete stringify tDone tSaved moduleId lessonId t).1 = false
        ↔ Obj.get moduleId t.progress.modules = none
          ∨ ∃ m, Obj.get moduleId t.progress.modules = some m
              ∧ Obj.get lessonId m.lessons = none)
      ∧ ((markLessonComplete stringify tDone tSaved moduleId lessonId t).1 = false
        → (markLessonComplete stringify tDone tSaved moduleId lessonId t).2 = t))
    ∧ (((markLessonIncomplete stringify tSaved moduleId lessonId t).1 = false
        ↔ Obj.get moduleId t.progress.modules = none
          ∨ ∃ m, Obj.get moduleId t.progress.modules = some m
              ∧ Obj.get lessonId m.lessons = none)
      ∧ ((markLessonIncomplete stringify tSaved moduleId lessonId t).1 = false
        → (markLessonIncomplete stringify tSaved moduleId lessonId t).2 = t))
    ∧ (((recordQuizAttempt stringify tDate tSaved moduleId score totalQuestions t).1 = false
        ↔ Obj.get moduleId t.progress.quizzes = none)
      ∧ ((recordQuizAttempt stringify tDate tSaved moduleId score totalQuestions t).1 = false
        → (recordQuizAttempt stringify tDate tSaved moduleId score totalQuestions t).2 = t)) := by
  refine ⟨⟨?_, markLessonComplete_of_false stringify tDone tSaved moduleId lessonId t⟩,
    ⟨?_, markLessonIncomplete_of_false stringify tSaved moduleId lessonId t⟩,
    ⟨?_, recordQuizAttempt_of_false stringify tDate tSaved moduleId score totalQuestions t⟩⟩
  · rw [markLessonComplete_fst, ← lessonAt_eq_none_iff]
    cases lessonAt t moduleId lessonId <;> simp
  · rw [markLessonIncomplete_fst, ← lessonAt_eq_none_iff]
    cases lessonAt t moduleId lessonId <;> simp
  · rw [recordQuizAttempt_fst]
    cases Obj.get moduleId t.progress.quizzes <;> simp

/-! ## Quiz attempts -/

theorem recordQuizAttempt_spec (stringify : ProgressDocument → String)
    (tDate tSaved : Timestamp) (moduleId : Int) (score totalQuestions : Nat) (t : Tracker)
    (quiz : QuizRecord) (hq : Obj.get moduleId t.progress.quizzes = some quiz) :
    (recordQuizAttempt stringify tDate tSaved moduleId score totalQuestions t).1 = true
    ∧ (recordQuizAttempt stringify tDate tSaved moduleId score totalQuestions t).2.progress.modules
        = t.progress.modules
    ∧ (recordQuizAttempt stringify tDate tSaved moduleId score
        totalQuestions t).2.progress.totalLessonsCompleted = t.progress.totalLessonsCompleted
    ∧ (∀ i, i ≠ moduleId →
        Obj.get i
          (recordQuizAttempt stringify tDate tSaved moduleId score totalQuestions t).2.progress.quizzes
          = Obj.get i t.progress.quizzes)
    ∧ Obj.get moduleId
        (recordQuizAttempt stringify tDate tSaved moduleId score totalQuestions t).2.progress.quizzes
        = some
          { completed :=
              quiz.completed
                || JSNumber.ge (roundedPercent (score : Int) totalQuestions) (JSNumber.fin 70),
            attempts := quiz.attempts + 1,
            bestScore :=
              if JSNumber.gt (roundedPercent (score : Int) totalQuestions) quiz.bestScore then
                roundedPercent (score : Int) totalQuestions
              else quiz.bestScore,
            lastAttempt := some
              { date := tDate, score := score, total := totalQuestions,
                percentage := roundedPercent (score : Int) totalQuestions } } := by
  simp only [recordQuizAttempt, hq, saveProgress_progress]
  refine ⟨trivial, trivial, trivial, ?_, ?_⟩
  · intro i hi
    simp [Obj.get_modify_ne _ _ _ _ hi]
  · simp only [Obj.get_modify_self, hq, Option.map_some']
    cases h1 : JSNumber.gt (roundedPercent (score : Int) totalQuestions) quiz.bestScore <;>
      cases h2 : JSNumber.ge (roundedPercent (score : Int) totalQuestions) (JSNumber.fin 70) <;>
      simp

theorem markLessonComplete_quizzes (stringify : ProgressDocument → String)
    (tDone tSaved : Timestamp) (moduleId lessonId : Int) (t : Tracker) :
    (markLessonComplete stringify tDone tSaved moduleId lessonId t).2.progress.quizzes
      = t.progress.quizzes := by
  cases hm : Obj.get moduleId t.progress.modules with
  | none => simp only [markLessonComplete, hm]
  | some m =>
    cases hl : Obj.get lessonId m.lessons with
    | none => simp only [markLessonComplete, hm, hl]
    | some l => exact (markLessonComplete_spec stringify tDone tSaved moduleId lessonId t m l hm hl).2.2.1

theorem markLessonIncomplete_quizzes (stringify : ProgressDocument → String)
    (tSaved : Timestamp) (moduleId lessonId : Int) (t : Tracker) :
    (markLessonIncomplete stringify tSaved moduleId lessonId t).2.progress.quizzes
      = t.progress.quizzes := by
  cases hm : Obj.get moduleId t.progress.modules with
  | none => simp only [markLessonIncomplete, hm]
  | some m =>
    cases hl : Obj.get lessonId m.lessons with
    | none => simp only [markLessonIncomplete, hm, hl]
    | some l => exact (markLessonIncomplete_spec stringify tSaved moduleId lessonId t m l hm hl).2.2.1

theorem recordQuizAttempt_get_ne (stringify : ProgressDocument → String)
    (tDate tSaved : Timestamp) (moduleId : Int) (score totalQuestions : Nat) (t : Tracker)
    (i : Int) (hi : i ≠ moduleId) :
    Obj.get i
        (recordQuizAttempt stringify tDate tSaved moduleId score totalQuestions t).2.progress.quizzes
      = Obj.get i t.progress.quizzes := by
  cases hm : Obj.get moduleId t.progress.quizzes with
  | none => simp only [recordQuizAttempt, hm]
  | some q =>
    exact (recordQuizAttempt_spec stringify tDate tSaved moduleId score totalQuestions t q hm).2.2.2.1
      i hi

theorem run_cons (stringify : ProgressDocument → String) (op : Op) (ops : List Op)
    (t : Tracker) :
    run stringify (op :: ops) t = run stringify ops (op.call stringify t).2 :=
  rfl

/-- The quiz record of a module after a run: its flag and its best score follow from
the record before the run and the percentages of the attempts made for the module. -/
theorem quiz_after_run (stringify : ProgressDocument → String) (ops : List Op) (m : Int) :
    ∀ (t : Tracker) (q : QuizRecord), Obj.get m t.progress.quizzes = some q →
      ∃ q', Obj.get m (run stringify ops t).progress.quizzes = some q'
        ∧ q'.completed
            = (q.completed
                || (attemptPercentages ops m).any (fun p => JSNumber.ge p (JSNumber.fin 70)))
        ∧ q'.bestScore
            = (attemptPercentages ops m).foldl
                (fun b p => if JSNumber.gt p b then p else b) q.bestScore
        ∧ q'.attempts = q.attempts + ((attemptPercentages ops m).length : Int) := by
  induction ops with
  | nil =>
    intro t q hq
    exact ⟨q, hq, by simp [attemptPercentages], by simp [attemptPercentages],
      by simp [attemptPercentages]⟩
  | cons op rest ih =>
    intro t q hq
    rw [run_cons]
    cases op with
    | complete mi li tDone tSaved =>
      have h : Obj.get m (Op.call stringify (Op.complete mi li tDone tSaved) t).2.progress.quizzes
          = some q := by
        simp only [Op.call, markLessonComplete_quizzes, hq]
      obtain ⟨q', h1, h2, h3, h4⟩ := ih _ q h
      exact ⟨q', h1, by simpa [attemptPercentages] using h2,
        by simpa [attemptPercentages] using h3, by simpa [attemptPercentages] using h4⟩
    | incomplete mi li tSaved =>
      have h : Obj.get m (Op.call stringify (Op.incomplete mi li tSaved) t).2.progress.quizzes
          = some q := by
        simp only [Op.call, markLessonIncomplete_quizzes, hq]
      obtain ⟨q', h1, h2, h3, h4⟩ := ih _ q h
      exact ⟨q', h1, by simpa [attemptPercentages] using h2,
        by simpa [attemptPercentages] using h3, by simpa [attemptPercentages] using h4⟩
    | quiz mi score n tDate tSaved =>
      by_cases hmi : mi = m
      · subst hmi
        have h := (recordQuizAttempt_spec stringify tDate tSaved mi score n t q hq).2.2.2.2
        obtain ⟨q', h1, h2, h3, h4⟩ := ih _ _ h
        refine ⟨q', h1, ?_, ?_, ?_⟩
        · rw [h2]
          simp [attemptPercentages, Bool.or_assoc]
        · rw [h3]
          simp [attemptPercentages]
        · rw [h4]
          simp [attemptPercentages]
          ring
      · have h : Obj.get m (Op.call stringify (Op.quiz mi score n tDate tSaved) t).2.progress.quizzes
            = some q := by
          simp only [Op.call]
          rw [recordQuizAttempt_get_ne stringify tDate tSaved mi score n t m (fun e => hmi e.symm)]
          exact hq
        obtain ⟨q', h1, h2, h3, h4⟩ := ih _ q h
        exact ⟨q', h1, by simpa [attemptPercentages, hmi] using h2,
          by simpa [attemptPercentages, hmi] using h3, by simpa [attemptPercentages, hmi] using h4⟩

theorem initialTracker_get_quiz (stringify : ProgressDocument → String)
    (tUpdated tStarted tSaved : Timestamp) (t0 : Tracker) (m : Int) (h1 : 1 ≤ m) (h14 : m ≤ 14) :
    Obj.get m (initialTracker stringify tUpdated tStarted tSaved t0).progress.quizzes
      = some freshQuiz := by
  show Obj.get m (defaultDocument tUpdated tStarted).quizzes = some freshQuiz
  rw [defaultDocument_quizzes]
  interval_cases m <;> decide

/-! ## The order of JavaScript numbers -/

theorem JSNumber.ge_refl (a : JSNumber) (h : a ≠ JSNumber.nan) : JSNumber.ge a a = true := by
  cases a <;> simp_all [JSNumber.ge]

theorem JSNumber.ge_trans (a b c : JSNumber) (h1 : JSNumber.ge a b = true)
    (h2 : JSNumber.ge b c = true) : JSNumber.ge a c = true := by
  cases a <;> cases b <;> cases c <;> simp_all [JSNumber.ge]
  omega

theorem JSNumber.ge_of_gt (a b : JSNumber) (h : JSNumber.gt a b = true) :
    JSNumber.ge a b = true := by
  cases a <;> cases b <;> simp_all [JSNumber.gt, JSNumber.ge]
  omega

theorem JSNumber.ge_of_not_gt (a b : JSNumber) (ha : a ≠ JSNumber.nan) (hb : b ≠ JSNumber.nan)
    (h : JSNumber.gt a b = false) : JSNumber.ge b a = true := by
  cases a <;> cases b <;> simp_all [JSNumber.gt, JSNumber.ge]

theorem JSNumber.ne_nan_of_gt (a b : JSNumber) (h : JSNumber.gt a b = true) :
    a ≠ JSNumber.nan := by
  cases a <;> simp_all [JSNumber.gt]

theorem JSNumber.ge_antisymm (a b : JSNumber) (h1 : JSNumber.ge a b = true)
    (h2 : JSNumber.ge b a = true) : a = b := by
  cases a <;> cases b <;> simp_all [JSNumber.ge]
  omega

theorem JSNumber.gt_asymm (a b : JSNumber) (h : JSNumber.gt a b = true) :
    JSNumber.gt b a = false := by
  cases a <;> cases b <;> simp_all [JSNumber.gt]
  omega

theorem JSNumber.gt_irrefl (a : JSNumber) : JSNumber.gt a a = false := by
  cases a <;> simp [JSNumber.gt]

theorem JSNumber.gt_keep_best (b p : JSNumber) :
    JSNumber.gt b (if JSNumber.gt p b then p else b) = false := by
  cases h : JSNumber.gt p b with
  | true => simpa using JSNumber.gt_asymm p b h
  | false => simpa using JSNumber.gt_irrefl b

/-- The running best score is a number, it bounds the start value and every number
met, and it is the start value or one of the values met. -/
theorem best_foldl (ps : List JSNumber) :
    ∀ b : JSNumber, b ≠ JSNumber.nan →
      ps.foldl (fun b p => if JSNumber.gt p b then p else b) b ≠ JSNumber.nan
      ∧ JSNumber.ge (ps.foldl (fun b p => if JSNumber.gt p b then p else b) b) b = true
      ∧ (∀ p ∈ ps, p ≠ JSNumber.nan →
          JSNumber.ge (ps.foldl (fun b p => if JSNumber.gt p b then p else b) b) p = true)
      ∧ (ps.foldl (fun b p => if JSNumber.gt p b then p else b) b = b
          ∨ ps.foldl (fun b p => if JSNumber.gt p b then p else b) b ∈ ps) := by
  induction ps with
  | nil =>
    intro b hb
    exact ⟨hb, JSNumber.ge_refl b hb, by simp, Or.inl rfl⟩
  | cons p rest ih =>
    intro b hb
    simp only [List.foldl_cons]
    cases hgt : JSNumber.gt p b with
    | true =>
      have hp : p ≠ JSNumber.nan := JSNumber.ne_nan_of_gt p b hgt
      obtain ⟨i1, i2, i3, i4⟩ := ih p hp
      simp only [if_true]
      refine ⟨i1, JSNumber.ge_trans _ p b i2 (JSNumber.ge_of_gt p b hgt), ?_, ?_⟩
      · intro x hx hxn
        rcases List.mem_cons.mp hx with rfl | hx'
        · exact i2
        · exact i3 x hx' hxn
      · rcases i4 with h | h
        · exact Or.inr (by rw [h]; exact List.mem_cons_self _ _)
        · exact Or.inr (List.mem_cons_of_mem _ h)
    | false =>
      obtain ⟨i1, i2, i3, i4⟩ := ih b hb
      simp only [Bool.false_eq_true, if_false]
      refine ⟨i1, i2, ?_, ?_⟩
      · intro x hx hxn
        rcases List.mem_cons.mp hx with rfl | hx'
        · exact JSNumber.ge_trans _ b x i2 (JSNumber.ge_of_not_gt x b hxn hb hgt)
        · exact i3 x hx' hxn
      · rcases i4 with h | h
        · exact Or.inl h
        · exact Or.inr (List.mem_cons_of_mem _ h)

theorem roundedPercent_nonneg (score totalQuestions : Nat)
    (h : roundedPercent (score : Int) totalQuestions ≠ JSNumber.nan) :
    JSNumber.ge (roundedPercent (score : Int) totalQuestions) (JSNumber.fin 0) = true := by
  unfold roundedPercent at h ⊢
  by_cases hn : totalQuestions = 0
  · by_cases hs : (score : Int) = 0
    · simp [hn, hs] at h
    · have : (0 : Int) < score := by omega
      simp [hn, hs, this, JSNumber.ge]
  · simp only [hn, if_false, JSNumber.ge, decide_eq_true_eq]
    unfold roundedPercentFin
    by_cases hs : (score : Int) = 0
    · simp [hs]
    · have : (0 : Int) < score := by omega
      simp [hs, this]

theorem attemptPercentages_nonneg (ops : List Op) (m : Int) (p : JSNumber)
    (hp : p ∈ attemptPercentages ops m) (hn : p ≠ JSNumber.nan) :
    JSNumber.ge p (JSNumber.fin 0) = true := by
  unfold attemptPercentages at hp
  rw [List.mem_filterMap] at hp
  obtain ⟨op, -, hop⟩ := hp
  cases op with
  | complete _ _ _ _ => simp at hop
  | incomplete _ _ _ => simp at hop
  | quiz mi score n _ _ =>
    by_cases hmi : mi = m
    · simp only [hmi, if_true, Option.some.injEq] at hop
      subst hop
      exact roundedPercent_nonneg score n hn
    · simp [hmi] at hop

theorem mem_numericPercentages (ops : List Op) (m : Int) (p : JSNumber) :
    p ∈ numericPercentages ops m ↔ p ∈ attemptPercentages ops m ∧ p ≠ JSNumber.nan := by
  simp [numericPercentages]

/-- C7 (amended): after any sequence of calls made on the tracker that
`initializeProgress` leaves, the quiz record of a module `m` of 1..14 has as
`bestScore` the largest of the percentages of the attempts made for `m` that are
numbers (an attempt with no questions and no score has the percentage `NaN` and is
passed over), and 0 when there is none; no call on any tracker lowers a `bestScore`;
`recordQuizAttempt(3, 7, 10)` on the fresh document gives 70 and a following
`recordQuizAttempt(3, 5, 10)` leaves 70. -/
theorem bestScore_eq_largest_percentage (stringify : ProgressDocument → String)
    (tUpdated tStarted tSaved : Timestamp) (t0 : Tracker) (ops : List Op)
    (m : Int) (h1 : 1 ≤ m) (h14 : m ≤ 14) :
    (∃ q, Obj.get m
        (run stringify ops (initialTracker stringify tUpdated tStarted tSaved t0)).progress.quizzes
          = some q
      ∧ (numericPercentages ops m = [] → q.bestScore = JSNumber.fin 0)
      ∧ (numericPercentages ops m ≠ [] → q.bestScore ∈ numericPercentages ops m)
      ∧ (∀ p ∈ numericPercentages ops m, JSNumber.ge q.bestScore p = true))
    ∧ (∀ (t : Tracker) (op : Op) (q : QuizRecord), Obj.get m t.progress.quizzes = some q →
        ∃ q', Obj.get m (op.call stringify t).2.progress.quizzes = some q'
          ∧ JSNumber.gt q.bestScore q'.bestScore = false)
    ∧ (∀ (a b c d : Timestamp),
        (Obj.get 3 (run stringify [Op.quiz 3 7 10 a b]
          (initialTracker stringify tUpdated tStarted tSaved t0)).progress.quizzes).map
            (fun q => q.bestScore) = some (JSNumber.fin 70)
        ∧ (Obj.get 3 (run stringify [Op.quiz 3 7 10 a b, Op.quiz 3 5 10 c d]
          (initialTracker stringify tUpdated tStarted tSaved t0)).progress.quizzes).map
            (fun q => q.bestScore) = some (JSNumber.fin 70)) := by
  refine ⟨?_, ?_, ?_⟩
  · obtain ⟨q, hq, -, hb, -⟩ := quiz_after_run stringify ops m _ freshQuiz
      (initialTracker_get_quiz stringify tUpdated tStarted tSaved t0 m h1 h14)
    obtain ⟨f1, f2, f3, f4⟩ := best_foldl (attemptPercentages ops m) (JSNumber.fin 0) (by simp)
    have hb' : q.bestScore = (attemptPercentages ops m).foldl
        (fun b p => if JSNumber.gt p b then p else b) (JSNumber.fin 0) := hb
    rw [← hb'] at f1 f2 f3 f4
    refine ⟨q, hq, ?_, ?_, ?_⟩
    · intro hnil
      rcases f4 with h | h
      · exact h
      · have : q.bestScore ∈ numericPercentages ops m :=
          (mem_numericPercentages ops m _).mpr ⟨h, f1⟩
        rw [hnil] at this
        simp at this
    · intro hne
      rcases f4 with h | h
      · obtain ⟨p, hp⟩ := List.exists_mem_of_ne_nil _ hne
        obtain ⟨hp1, hp2⟩ := (mem_numericPercentages ops m p).mp hp
        have e : p = q.bestScore :=
          JSNumber.ge_antisymm p q.bestScore
            (by rw [h]; exact attemptPercentages_nonneg ops m p hp1 hp2) (f3 p hp1 hp2)
        rw [← e]
        exact hp
      · exact (mem_numericPercentages ops m _).mpr ⟨h, f1⟩
    · intro p hp
      obtain ⟨hp1, hp2⟩ := (mem_numericPercentages ops m p).mp hp
      exact f3 p hp1 hp2
  · intro t op q hq
    obtain ⟨q', hq', -, hb, -⟩ := quiz_after_run stringify [op] m t q hq
    refine ⟨q', hq', ?_⟩
    rw [hb]
    cases op with
    | complete _ _ _ _ => simpa [attemptPercentages] using JSNumber.gt_irrefl q.bestScore
    | incomplete _ _ _ => simpa [attemptPercentages] using JSNumber.gt_irrefl q.bestScore
    | quiz mi score n _ _ =>
      by_cases hmi : mi = m
      · simpa [attemptPercentages, hmi] using JSNumber.gt_keep_best q.bestScore _
      · simpa [attemptPercentages, hmi] using JSNumber.gt_irrefl q.bestScore
  · intro a b c d
    constructor
    · obtain ⟨q, hq, -, hb, -⟩ := quiz_after_run stringify [Op.quiz 3 7 10 a b] 3 _ freshQuiz
        (initialTracker_get_quiz stringify tUpdated tStarted tSaved t0 3 (by decide) (by decide))
      rw [hq, Option.map_some', hb]
      have e : attemptPercentages [Op.quiz 3 7 10 a b] 3 = [roundedPercent 7 10] := rfl
      rw [e]
      decide
    · obtain ⟨q, hq, -, hb, -⟩ :=
        quiz_after_run stringify [Op.quiz 3 7 10 a b, Op.quiz 3 5 10 c d] 3 _ freshQuiz
        (initialTracker_get_quiz stringify tUpdated tStarted tSaved t0 3 (by decide) (by decide))
      rw [hq, Option.map_some', hb]
      have e : attemptPercentages [Op.quiz 3 7 10 a b, Op.quiz 3 5 10 c d] 3
          = [roundedPercent 7 10, roundedPercent 5 10] := rfl
      rw [e]
      decide

/-- Witness of C7 (amended): module 3 after attempts of 7/10, 0/0 and 5/10. -/
theorem bestScore_eq_largest_percentage_witness :
    ((1 : Int) ≤ 3 ∧ (3 : Int) ≤ 14) ∧
    ∃ q, Obj.get 3
        (run counterStringify [Op.quiz 3 7 10 10 11, Op.quiz 3 0 0 12 13, Op.quiz 3 5 10 14 15]
          (initialTracker counterStringify 1 2 3 blankTracker)).progress.quizzes = some q
      ∧ (numericPercentages [Op.quiz 3 7 10 10 11, Op.quiz 3 0 0 12 13, Op.quiz 3 5 10 14 15] 3
          ≠ [] →
        q.bestScore
          ∈ numericPercentages [Op.quiz 3 7 10 10 11, Op.quiz 3 0 0 12 13, Op.quiz 3 5 10 14 15] 3) :=
  ⟨by decide,
   (bestScore_eq_largest_percentage counterStringify 1 2 3 blankTracker
      [Op.quiz 3 7 10 10 11, Op.quiz 3 0 0 12 13, Op.quiz 3 5 10 14 15] 3
      (by decide) (by decide)).1.imp (fun _ h => ⟨h.1, h.2.2.1⟩)⟩

/-- Counterexample to C7 as stated: after the one attempt `recordQuizAttempt(3, 0, 0)`
on the fresh document the only percentage recorded for module 3 is `NaN`, and
`bestScore` is 0, which is not the percentage of any attempt. -/
theorem bestScore_after_empty_quiz :
    (Obj.get 3 (recordQuizAttempt counterStringify 10 11 3 0 0
        (initialTracker counterStringify 1 2 3 blankTracker)).2.progress.quizzes).map
        (fun q => (q.attempts, q.bestScore, q.lastAttempt.map (fun a => a.percentage)))
      = some (1, JSNumber.fin 0, some JSNumber.nan)
    ∧ attemptPercentages [Op.quiz 3 0 0 10 11] 3 = [JSNumber.nan]
    ∧ JSNumber.fin 0 ∉ attemptPercentages [Op.quiz 3 0 0 10 11] 3 := by
  decide

/-- C8: after any sequence of calls made on the tracker that `initializeProgress`
leaves, the quiz record of a module `m` of 1..14 has `completed` true exactly when
one of the attempts made for `m` had a percentage `>= 70`; and no call on any tracker
turns a `completed` flag that is true back to false. -/
theorem quiz_completed_iff_passed (stringify : ProgressDocument → String)
    (tUpdated tStarted tSaved : Timestamp) (t0 : Tracker) (ops : List Op)
    (m : Int) (h1 : 1 ≤ m) (h14 : m ≤ 14) :
    (∃ q, Obj.get m
        (run stringify ops (initialTracker stringify tUpdated tStarted tSaved t0)).progress.quizzes
          = some q
      ∧ (q.completed = true
          ↔ ∃ p ∈ attemptPercentages ops m, JSNumber.ge p (JSNumber.fin 70) = true))
    ∧ (∀ (t : Tracker) (op : Op) (q : QuizRecord), Obj.get m t.progress.quizzes = some q →
        q.completed = true →
        ∃ q', Obj.get m (op.call stringify t).2.progress.quizzes = some q'
          ∧ q'.completed = true) := by
  constructor
  · obtain ⟨q, hq, hc, -, -⟩ := quiz_after_run stringify ops m _ freshQuiz
      (initialTracker_get_quiz stringify tUpdated tStarted tSaved t0 m h1 h14)
    refine ⟨q, hq, ?_⟩
    rw [hc]
    simp [freshQuiz]
  · intro t op q hq hcomp
    obtain ⟨q', hq', hc, -, -⟩ := quiz_after_run stringify [op] m t q hq
    exact ⟨q', hq', by rw [hc, hcomp]; rfl⟩

/-- Witness of C8: module 3 after attempts of 5/10, 7/10 and 2/10. -/
theorem quiz_completed_iff_passed_witness :
    ((1 : Int) ≤ 3 ∧ (3 : Int) ≤ 14) ∧
    ∃ q, Obj.get 3
        (run counterStringify [Op.quiz 3 5 10 10 11, Op.quiz 3 7 10 12 13, Op.quiz 3 2 10 14 15]
          (initialTracker counterStringify 1 2 3 blankTracker)).progress.quizzes = some q
      ∧ (q.completed = true
          ↔ ∃ p ∈ attemptPercentages
              [Op.quiz 3 5 10 10 11, Op.quiz 3 7 10 12 13, Op.quiz 3 2 10 14 15] 3,
            JSNumber.ge p (JSNumber.fin 70) = true) :=
  ⟨by decide,
   (quiz_completed_iff_passed counterStringify 1 2 3 blankTracker
      [Op.quiz 3 5 10 10 11, Op.quiz 3 7 10 12 13, Op.quiz 3 2 10 14 15] 3
      (by decide) (by decide)).1⟩

/-! ## The next lesson -/

/-- The inner scan over the ids `a, a + 1, ..` either runs to its end over completed
lessons, or stops at the first lesson that is not completed. -/
theorem scanLessons_range' (mid : Int) (module : ModuleProgress) :
    ∀ (n a : Nat),
      (∀ l : Nat, a ≤ l → l < a + n → (Obj.get (l : Int) module.lessons).isSome = true) →
      (scanLessons mid module (List.range' a n) = none
        ∧ ∀ l : Nat, a ≤ l → l < a + n →
            ∃ s, Obj.get (l : Int) module.lessons = some s ∧ s.completed = true)
      ∨ ∃ l : Nat, scanLessons mid module (List.range' a n) = some (NextLesson.lesson mid l)
          ∧ a ≤ l ∧ l < a + n
          ∧ (∃ s, Obj.get (l : Int) module.lessons = some s ∧ s.completed = false)
          ∧ ∀ l' : Nat, a ≤ l' → l' < l →
              ∃ s, Obj.get (l' : Int) module.lessons = some s ∧ s.completed = true := by
  intro n
  induction n with
  | zero =>
    intro a _
    exact Or.inl ⟨rfl, fun l h1 h2 => by omega⟩
  | succ n ih =>
    intro a hex
    obtain ⟨s, hs⟩ := Option.isSome_iff_exists.mp (hex a (le_refl a) (by omega))
    rw [List.range'_succ]
    cases hc : s.completed with
    | false =>
      refine Or.inr ⟨a, ?_, le_refl a, by omega, ⟨s, hs, hc⟩, fun l' h1 h2 => by omega⟩
      simp [scanLessons, hs, hc]
    | true =>
      have hstep : scanLessons mid module (a :: List.range' (a + 1) n)
          = scanLessons mid module (List.range' (a + 1) n) := by
        simp [scanLessons, hs, hc]
      rw [hstep]
      rcases ih (a + 1) (fun l h1 h2 => hex l (by omega) (by omega)) with ⟨h0, hall⟩ | ⟨l, hl, h1, h2, h3, h4⟩
      · refine Or.inl ⟨h0, fun l h1 h2 => ?_⟩
        by_cases hla : l = a
        · subst hla
          exact ⟨s, hs, hc⟩
        · exact hall l (by omega) (by omega)
      · refine Or.inr ⟨l, hl, by omega, by omega, h3, fun l' h1' h2' => ?_⟩
        by_cases hla : l' = a
        · subst hla
          exact ⟨s, hs, hc⟩
        · exact h4 l' (by omega) h2'

/-- The outer scan over the module ids `a, a + 1, ..`, when every module met exists
and holds the lessons `1..total`: it runs to its end over completed lessons, or stops
at the first lesson that is not completed. -/
theorem scanModules_range' (d : ProgressDocument) :
    ∀ (n a : Nat),
      (∀ m : Nat, a ≤ m → m < a + n → ∃ module, Obj.get (m : Int) d.modules = some module
        ∧ ∀ l : Nat, 1 ≤ l → l < 1 + module.total.toNat →
            (Obj.get (l : Int) module.lessons).isSome = true) →
      (scanModules d (List.range' a n) = NextLesson.null
        ∧ ∀ m : Nat, a ≤ m → m < a + n → ∃ module, Obj.get (m : Int) d.modules = some module
            ∧ ∀ l : Nat, 1 ≤ l → l < 1 + module.total.toNat →
                ∃ s, Obj.get (l : Int) module.lessons = some s ∧ s.completed = true)
      ∨ ∃ (m l : Nat) (module : ModuleProgress),
          scanModules d (List.range' a n) = NextLesson.lesson m l
          ∧ a ≤ m ∧ m < a + n ∧ Obj.get (m : Int) d.modules = some module
          ∧ 1 ≤ l ∧ l < 1 + module.total.toNat
          ∧ (∃ s, Obj.get (l : Int) module.lessons = some s ∧ s.completed = false)
          ∧ (∀ l' : Nat, 1 ≤ l' → l' < l →
              ∃ s, Obj.get (l' : Int) module.lessons = some s ∧ s.completed = true)
          ∧ ∀ m' : Nat, a ≤ m' → m' < m → ∃ module', Obj.get (m' : Int) d.modules = some module'
              ∧ ∀ l' : Nat, 1 ≤ l' → l' < 1 + module'.total.toNat →
                  ∃ s, Obj.get (l' : Int) module'.lessons = some s ∧ s.completed = true := by
  intro n
  induction n with
  | zero =>
    intro a _
    exact Or.inl ⟨rfl, fun m h1 h2 => by omega⟩
  | succ n ih =>
    intro a hex
    obtain ⟨module, hmod, hles⟩ := hex a (le_refl a) (by omega)
    rw [List.range'_succ]
    rcases scanLessons_range' (a : Int) module module.total.toNat 1 hles with
      ⟨h0, hall⟩ | ⟨l, hl, h1, h2, h3, h4⟩
    · have hstep : scanModules d (a :: List.range' (a + 1) n)
          = scanModules d (List.range' (a + 1) n) := by
        simp [scanModules, hmod, h0]
      rw [hstep]
      rcases ih (a + 1) (fun m h1 h2 => hex m (by omega) (by omega)) with
        ⟨hn, hall'⟩ | ⟨m, l, module', hr, g1, g2, g3, g4, g5, g6, g7, g8⟩
      · refine Or.inl ⟨hn, fun m h1 h2 => ?_⟩
        by_cases hma : m = a
        · subst hma
          exact ⟨module, hmod, hall⟩
        · exact hall' m (by omega) (by omega)
      · refine Or.inr ⟨m, l, module', hr, by omega, by omega, g3, g4, g5, g6, g7,
          fun m' h1' h2' => ?_⟩
        by_cases hma : m' = a
        · subst hma
          exact ⟨module, hmod, hall⟩
        · exact g8 m' (by omega) h2'
    · refine Or.inr ⟨a, l, module, ?_, le_refl a, by omega, hmod, h1, h2, h3, h4,
        fun m' h1' h2' => by omega⟩
      simp [scanModules, hmod, hl]

theorem default_shape_lessons :
    ∀ x ∈ shape (defaultDocument 0 0),
      x.2.2 = (List.range' 1 x.2.1.toNat).map (fun l : Nat => (l : Int)) := by
  decide

theorem default_shape_totals :
    ∀ x ∈ shape (defaultDocument 0 0),
      x.2.1 = ((moduleLessons.getD (x.1.toNat - 1) 0 : Nat) : Int) := by
  decide

theorem Consistent.lessons_keys (d : ProgressDocument) (hc : Consistent d) (m : Int)
    (module : ModuleProgress) (hm : Obj.get m d.modules = some module) :
    Obj.keys module.lessons
        = (List.range' 1 module.total.toNat).map (fun l : Nat => (l : Int))
      ∧ module.total = ((moduleLessons.getD (m.toNat - 1) 0 : Nat) : Int) := by
  have hmem : (m, module.total, Obj.keys module.lessons) ∈ shape d :=
    List.mem_map.mpr ⟨(m, module), Obj.mem_of_get m d.modules module hm, rfl⟩
  rw [hc.shape_eq] at hmem
  exact ⟨default_shape_lessons _ hmem, default_shape_totals _ hmem⟩

theorem Consistent.lesson_isSome (d : ProgressDocument) (hc : Consistent d) (m : Int)
    (module : ModuleProgress) (hm : Obj.get m d.modules = some module)
    (l : Nat) (h1 : 1 ≤ l) (h2 : l < 1 + module.total.toNat) :
    (Obj.get (l : Int) module.lessons).isSome = true := by
  rw [Obj.get_isSome_iff, (hc.lessons_keys d m module hm).1]
  exact List.mem_map.mpr ⟨l, List.mem_range'_1.mpr ⟨h1, h2⟩, rfl⟩

theorem reads_of_get (t : Tracker) (m l : Int) (module : ModuleProgress) (s : LessonState)
    (hm : Obj.get m t.progress.modules = some module)
    (hs : Obj.get l module.lessons = some s) :
    isLessonComplete t m l = s.completed ∧ lessonAt t m l = some s
      ∧ getModuleProgress t m = module := by
  simp [isLessonComplete, lessonAt, getModuleProgress, hm, hs]

theorem getModuleProgress_of_get (t : Tracker) (m : Int) (module : ModuleProgress)
    (hm : Obj.get m t.progress.modules = some module) : getModuleProgress t m = module := by
  simp [getModuleProgress, hm]

/-- The scan of `getNextLesson()` on a consistent document, with integer ids. -/
theorem getNextLesson_cases (t : Tracker) (hc : Consistent t.progress) :
    (getNextLesson t = NextLesson.null
      ∧ ∀ m l : Int, 1 ≤ m → m ≤ 14 → 1 ≤ l → l ≤ (getModuleProgress t m).total →
          isLessonComplete t m l = true)
    ∨ ∃ m l : Int, getNextLesson t = NextLesson.lesson m l
        ∧ 1 ≤ m ∧ m ≤ 14 ∧ 1 ≤ l ∧ l ≤ (getModuleProgress t m).total
        ∧ (lessonAt t m l).isSome = true ∧ isLessonComplete t m l = false
        ∧ ∀ m' l' : Int, 1 ≤ m' → 1 ≤ l' → l' ≤ (getModuleProgress t m').total →
            (m' < m ∨ (m' = m ∧ l' < l)) → isLessonComplete t m' l' = true := by
  have hex : ∀ m : Nat, 1 ≤ m → m < 1 + 14 →
      ∃ module, Obj.get (m : Int) t.progress.modules = some module
        ∧ ∀ l : Nat, 1 ≤ l → l < 1 + module.total.toNat →
            (Obj.get (l : Int) module.lessons).isSome = true := by
    intro m h1 h2
    obtain ⟨module, hm⟩ := Option.isSome_iff_exists.mp
      (hc.get_module_isSome _ (m : Int) (by omega) (by omega))
    exact ⟨module, hm, fun l h1 h2 => hc.lesson_isSome _ _ module hm l h1 h2⟩
  rcases scanModules_range' t.progress 14 1 hex with
    ⟨hnull, hall⟩ | ⟨m, l, module, hres, g1, g2, g3, g4, g5, ⟨s, hs, hsc⟩, g7, g8⟩
  · refine Or.inl ⟨hnull, ?_⟩
    intro m l h1 h2 h3 h4
    obtain ⟨mn, rfl⟩ := Int.eq_ofNat_of_zero_le (by omega : 0 ≤ m)
    obtain ⟨ln, rfl⟩ := Int.eq_ofNat_of_zero_le (by omega : 0 ≤ l)
    obtain ⟨module, hm, hl⟩ := hall mn (by omega) (by omega)
    rw [getModuleProgress_of_get t _ module hm] at h4
    obtain ⟨s, hs, hsc⟩ := hl ln (by omega) (by omega)
    rw [(reads_of_get t _ _ module s hm hs).1, hsc]
  · refine Or.inr ⟨(m : Int), (l : Int), hres, by omega, by omega, by omega, ?_, ?_, ?_, ?_⟩
    · rw [getModuleProgress_of_get t _ module g3]
      omega
    · rw [(reads_of_get t _ _ module s g3 hs).2.1]
      rfl
    · rw [(reads_of_get t _ _ module s g3 hs).1, hsc]
    · intro m' l' h1 h2 h3 h4
      obtain ⟨mn, rfl⟩ := Int.eq_ofNat_of_zero_le (by omega : 0 ≤ m')
      obtain ⟨ln, rfl⟩ := Int.eq_ofNat_of_zero_le (by omega : 0 ≤ l')
      by_cases hlt : mn < m
      · obtain ⟨module', hm', hl'⟩ := g8 mn (by omega) hlt
        rw [getModuleProgress_of_get t _ module' hm'] at h3
        obtain ⟨s', hs', hsc'⟩ := hl' ln (by omega) (by omega)
        rw [(reads_of_get t _ _ module' s' hm' hs').1, hsc']
      · have hmm : mn = m := by omega
        subst hmm
        obtain ⟨s', hs', hsc'⟩ := g7 ln (by omega) (by omega)
        rw [(reads_of_get t _ _ module s' g3 hs').1, hsc']

/-- On every tracker reached from `initializeProgress()`, `getNextLesson()` does
not fail on a missing module or lesson; when it returns a lesson, that lesson exists
in a module of 1..14 with an id of 1..total, it is not completed, and every lesson of
an earlier module or with a smaller id in the same module is completed; it returns
null exactly when every lesson `1..total` of every module 1..14 is completed, and
these are 77 lessons; with module 1 completed and lesson 1 of module 2 not, it
returns module 2, lesson 1.  The method is a function of the tracker and yields a
value only. -/
theorem getNextLesson_first_incomplete (stringify : ProgressDocument → String) (t : Tracker)
    (hr : Reachable stringify t) :
    getNextLesson t ≠ NextLesson.typeError
    ∧ (∀ m l : Int, getNextLesson t = NextLesson.lesson m l →
        1 ≤ m ∧ m ≤ 14 ∧ 1 ≤ l ∧ l ≤ (getModuleProgress t m).total
        ∧ (lessonAt t m l).isSome = true ∧ isLessonComplete t m l = false
        ∧ ∀ m' l' : Int, 1 ≤ m' → 1 ≤ l' → l' ≤ (getModuleProgress t m').total →
            (m' < m ∨ (m' = m ∧ l' < l)) → isLessonComplete t m' l' = true)
    ∧ (getNextLesson t = NextLesson.null
        ↔ ∀ m l : Int, 1 ≤ m → m ≤ 14 → 1 ≤ l → l ≤ (getModuleProgress t m).total →
            isLessonComplete t m l = true)
    ∧ (([1, 2, 3, 4, 5, 6, 7, 8, 9, 10, 11, 12, 13, 14] : List Int).map
        (fun m => (getModuleProgress t m).total)).sum = 77
    ∧ ((∀ l : Int, 1 ≤ l → l ≤ (getModuleProgress t 1).total → isLessonComplete t 1 l = true) →
        isLessonComplete t 2 1 = false →
        getNextLesson t = NextLesson.lesson 2 1) := by
  have hc := hr.consistent
  have htot : ∀ m : Int, 1 ≤ m → m ≤ 14 →
      (getModuleProgress t m).total = ((moduleLessons.getD (m.toNat - 1) 0 : Nat) : Int) := by
    intro m h1 h2
    obtain ⟨module, hm⟩ := Option.isSome_iff_exists.mp (hc.get_module_isSome _ m h1 h2)
    rw [getModuleProgress_of_get t m module hm]
    exact (hc.lessons_keys _ m module hm).2
  have hsum : (([1, 2, 3, 4, 5, 6, 7, 8, 9, 10, 11, 12, 13, 14] : List Int).map
      (fun m => (getModuleProgress t m).total)).sum = 77 := by
    simp only [List.map_cons, List.map_nil, List.sum_cons, List.sum_nil]
    rw [htot 1 (by decide) (by decide), htot 2 (by decide) (by decide),
      htot 3 (by decide) (by decide), htot 4 (by decide) (by decide),
      htot 5 (by decide) (by decide), htot 6 (by decide) (by decide),
      htot 7 (by decide) (by decide), htot 8 (by decide) (by decide),
      htot 9 (by decide) (by decide), htot 10 (by decide) (by decide),
      htot 11 (by decide) (by decide), htot 12 (by decide) (by decide),
      htot 13 (by decide) (by decide), htot 14 (by decide) (by decide)]
    decide
  rcases getNextLesson_cases t hc with ⟨hnull, hall⟩ | ⟨m, l, hres, g1, g2, g3, g4, g5, g6, g7⟩
  · refine ⟨by rw [hnull]; simp, ?_, ⟨fun _ => hall, fun _ => hnull⟩, hsum, ?_⟩
    · intro m l h
      rw [hnull] at h
      cases h
    · intro _ h21
      have h2 : (1 : Int) ≤ (getModuleProgress t 2).total := by
        rw [htot 2 (by decide) (by decide)]
        decide
      rw [hall 2 1 (by decide) (by decide) (by decide) h2] at h21
      cases h21
  · refine ⟨by rw [hres]; simp, ?_, ⟨fun h => ?_, fun h => ?_⟩, hsum, ?_⟩
    · intro m' l' h
      rw [hres] at h
      cases h
      exact ⟨g1, g2, g3, g4, g5, g6, g7⟩
    · rw [hres] at h
      cases h
    · rw [h m l g1 g2 g3 g4] at g6
      cases g6
    · intro hmod1 h21
      have h2 : (1 : Int) ≤ (getModuleProgress t 2).total := by
        rw [htot 2 (by decide) (by decide)]
        decide
      have hm2 : m = 2 := by
        by_contra hne
        by_cases hlt : m < 2
        · have hm1 : m = 1 := by omega
          subst hm1
          rw [hmod1 l g3 g4] at g6
          cases g6
        · rw [g7 2 1 (by decide) (by decide) h2 (Or.inl (by omega))] at h21
          cases h21
      subst hm2
      have hl1 : l = 1 := by
        by_contra hne
        rw [g7 2 1 (by decide) (by decide) h2 (Or.inr ⟨rfl, by omega⟩)] at h21
        cases h21
      subst hl1
      exact hres

/-- An instance: the tracker after module 1 was completed lesson by lesson. -/
theorem getNextLesson_first_incomplete_witness :
    getNextLesson
        (run counterStringify
          [Op.complete 1 1 10 11, Op.complete 1 2 12 13, Op.complete 1 3 14 15,
           Op.complete 1 4 16 17, Op.complete 1 5 18 19]
          (initialTracker counterStringify 1 2 3 blankTracker))
      ≠ NextLesson.typeError
    ∧ getNextLesson
        (run counterStringify
          [Op.complete 1 1 10 11, Op.complete 1 2 12 13, Op.complete 1 3 14 15,
           Op.complete 1 4 16 17, Op.complete 1 5 18 19]
          (initialTracker counterStringify 1 2 3 blankTracker))
      = NextLesson.lesson 2 1 :=
  have h := getNextLesson_first_incomplete counterStringify
    (run counterStringify
      [Op.complete 1 1 10 11, Op.complete 1 2 12 13, Op.complete 1 3 14 15,
       Op.complete 1 4 16 17, Op.complete 1 5 18 19]
      (initialTracker counterStringify 1 2 3 blankTracker))
    (reachable_run counterStringify 1 2 3 blankTracker _)
  ⟨h.1, by decide⟩

set_option maxRecDepth 100000 in
/-- C10 (the code at the failing input): after the 73 calls that complete all lessons
of modules 1..13 and lesson 1 of module 14, every call having returned true,
`totalLessonsCompleted` is 73 and `getOverallPercentage()` is 100, yet
`getNextLesson()` returns lesson 2 of module 14: the document of
`initializeProgress` holds 77 lessons, not 73. -/
theorem getNextLesson_after_73_lessons :
    completeSeventyThree.length = 73
    ∧ (run counterStringify completeSeventyThree
        (initialTracker counterStringify 1 2 3 blankTracker)).progress.totalLessonsCompleted = 73
    ∧ getOverallPercentage (run counterStringify completeSeventyThree
        (initialTracker counterStringify 1 2 3 blankTracker)) = 100
    ∧ getNextLesson (run counterStringify completeSeventyThree
        (initialTracker counterStringify 1 2 3 blankTracker)) = NextLesson.lesson 14 2
    ∧ (moduleLessons.sum = 77) := by
  refine ⟨by decide, by decide, by decide, by decide, by decide⟩

/-! ## The rounding error of the percentage -/

theorem halvings_bounds : ∀ fuel n : Nat, 1 ≤ n → n ≤ fuel →
    2 ^ halvings fuel n ≤ n ∧ n < 2 ^ (halvings fuel n + 1) := by
  intro fuel
  induction fuel with
  | zero =>
    intro n h1 h2
    omega
  | succ fuel ih =>
    intro n h1 h2
    by_cases h : n < 2
    · have h' : n = 1 := by omega
      subst h'
      simp [halvings]
    · obtain ⟨a, b⟩ := ih (n / 2) (by omega) (by omega)
      simp only [halvings, h, if_false]
      rw [pow_succ, pow_succ]
      rw [pow_succ] at b
      constructor <;> omega

theorem ilog2_bounds (n : Nat) (h : 1 ≤ n) : 2 ^ ilog2 n ≤ n ∧ n < 2 ^ (ilog2 n + 1) :=
  halvings_bounds n n h (le_refl n)

theorem two_zpow_eq_div (e : Int) :
    (2 : ℚ) ^ e = (2 : ℚ) ^ e.toNat / (2 : ℚ) ^ (-e).toNat := by
  rcases le_or_lt 0 e with h | h
  · have h1 : (-e).toNat = 0 := by omega
    have h2 : ((e.toNat : Nat) : Int) = e := Int.toNat_of_nonneg h
    rw [h1, pow_zero, div_one, ← zpow_natCast, h2]
  · have h1 : e.toNat = 0 := by omega
    have h2 : (((-e).toNat : Nat) : Int) = -e := Int.toNat_of_nonneg (by omega)
    rw [h1, pow_zero, ← zpow_natCast, h2, zpow_neg, one_div, inv_inv]

theorem two_zpow_pos (e : Int) : (0 : ℚ) < (2 : ℚ) ^ e := by positivity

/-- The scaled quotient is at least `2 ^ 52`. -/
theorem binExponent_scaled (num den : Nat) (hn : 0 < num) (hd : 0 < den) :
    (2 : ℚ) ^ (52 : Nat) * (2 : ℚ) ^ (binExponent num den) ≤ (num : ℚ) / den := by
  have hdq : (0 : ℚ) < den := by exact_mod_cast hd
  obtain ⟨a1, -⟩ := ilog2_bounds num hn
  obtain ⟨-, b2⟩ := ilog2_bounds den hd
  unfold binExponent
  simp only []
  split
  · -- the exponent is one less than the first guess
    rw [le_div_iff₀ hdq]
    have e1 : ((ilog2 num : Int) - (ilog2 den : Int) - 52 - 1)
        = (ilog2 num : Int) - ((ilog2 den : Int) + 1) - 52 := by ring
    rw [e1, zpow_sub₀ (by norm_num), zpow_sub₀ (by norm_num), zpow_natCast]
    have e2 : ((2 : ℚ) ^ ((ilog2 den : Int) + 1)) = (2 : ℚ) ^ (ilog2 den + 1) := by
      rw [← zpow_natCast]
      push_cast
      rfl
    rw [e2]
    have e3 : ((2 : ℚ) ^ (52 : Int)) = (2 : ℚ) ^ (52 : Nat) := by norm_cast
    rw [e3]
    have hA : ((2 : ℚ) ^ ilog2 num) ≤ (num : ℚ) := by exact_mod_cast a1
    have hB : (den : ℚ) ≤ (2 : ℚ) ^ (ilog2 den + 1) := by exact_mod_cast b2.le
    have hP : (0 : ℚ) < (2 : ℚ) ^ (ilog2 den + 1) := by positivity
    have h52 : (0 : ℚ) < (2 : ℚ) ^ (52 : Nat) := by positivity
    calc (2 : ℚ) ^ (52 : Nat) * ((2 : ℚ) ^ ilog2 num / (2 : ℚ) ^ (ilog2 den + 1) / (2 : ℚ) ^ (52 : Nat))
          * den
        = (2 : ℚ) ^ ilog2 num * (den / (2 : ℚ) ^ (ilog2 den + 1)) := by
          field_simp
          ring
      _ ≤ (2 : ℚ) ^ ilog2 num * 1 := by
          apply mul_le_mul_of_nonneg_left _ (by positivity)
          rw [div_le_one hP]
          exact hB
      _ ≤ num := by rw [mul_one]; exact hA
  · -- the first guess stands
    rename_i hcond
    have hnat : 2 ^ 52 * (den * 2 ^ ((ilog2 num : Int) - (ilog2 den : Int) - 52).toNat)
        ≤ num * 2 ^ (-((ilog2 num : Int) - (ilog2 den : Int) - 52)).toNat := Nat.le_of_not_lt hcond
    have hq : ((2 : ℚ) ^ (52 : Nat)
          * ((den : ℚ) * (2 : ℚ) ^ ((ilog2 num : Int) - (ilog2 den : Int) - 52).toNat))
        ≤ (num : ℚ) * (2 : ℚ) ^ (-((ilog2 num : Int) - (ilog2 den : Int) - 52)).toNat := by
      exact_mod_cast hnat
    rw [two_zpow_eq_div, le_div_iff₀ hdq]
    have hD : (0 : ℚ) < (2 : ℚ) ^ (-((ilog2 num : Int) - (ilog2 den : Int) - 52)).toNat := by
      positivity
    calc (2 : ℚ) ^ (52 : Nat)
          * ((2 : ℚ) ^ ((ilog2 num : Int) - (ilog2 den : Int) - 52).toNat
            / (2 : ℚ) ^ (-((ilog2 num : Int) - (ilog2 den : Int) - 52)).toNat) * den
        = ((2 : ℚ) ^ (52 : Nat)
            * ((den : ℚ) * (2 : ℚ) ^ ((ilog2 num : Int) - (ilog2 den : Int) - 52).toNat))
          / (2 : ℚ) ^ (-((ilog2 num : Int) - (ilog2 den : Int) - 52)).toNat := by
          field_simp
          ring
      _ ≤ ((num : ℚ) * (2 : ℚ) ^ (-((ilog2 num : Int) - (ilog2 den : Int) - 52)).toNat)
          / (2 : ℚ) ^ (-((ilog2 num : Int) - (ilog2 den : Int) - 52)).toNat :=
          div_le_div_of_nonneg_right hq hD.le
      _ = num := by field_simp


/-- The mantissa chosen by `roundToDouble` is within a half of the scaled quotient. -/
theorem roundToDouble_nat (num den : Nat) (hd : 0 < den) :
    ∃ m : Nat, roundToDouble num den = (m, binExponent num den)
      ∧ 2 * (m * (den * 2 ^ (binExponent num den).toNat))
          ≤ 2 * (num * 2 ^ (-(binExponent num den)).toNat)
            + den * 2 ^ (binExponent num den).toNat
      ∧ 2 * (num * 2 ^ (-(binExponent num den)).toNat)
          ≤ 2 * (m * (den * 2 ^ (binExponent num den).toNat))
            + den * 2 ^ (binExponent num den).toNat := by
  have hd' : 0 < den * 2 ^ (binExponent num den).toNat := by positivity
  have hdiv := Nat.div_add_mod (num * 2 ^ (-(binExponent num den)).toNat)
    (den * 2 ^ (binExponent num den).toNat)
  have hmod := Nat.mod_lt (num * 2 ^ (-(binExponent num den)).toNat) hd'
  rw [mul_comm] at hdiv
  unfold roundToDouble
  simp only []
  generalize num * 2 ^ (-(binExponent num den)).toNat = n' at *
  generalize den * 2 ^ (binExponent num den).toNat = d' at *
  generalize hQ : n' / d' = Q at *
  generalize n' % d' = R at *
  have hsucc : (Q + 1) * d' = Q * d' + d' := by ring
  generalize hP : Q * d' = P at *
  split_ifs with h1 h2 h3
  · exact ⟨Q, rfl, by rw [hP]; omega, by rw [hP]; omega⟩
  · exact ⟨Q + 1, rfl, by rw [hsucc]; omega, by rw [hsucc]; omega⟩
  · exact ⟨Q, rfl, by rw [hP]; omega, by rw [hP]; omega⟩
  · exact ⟨Q + 1, rfl, by rw [hsucc]; omega, by rw [hsucc]; omega⟩

/-- The double nearest to `num / den` differs from it by half a unit in the last
place at most. -/
theorem roundToDouble_spec (num den : Nat) (hd : 0 < den) :
    (roundToDouble num den).2 = binExponent num den
    ∧ |toRat (roundToDouble num den) - (num : ℚ) / den|
        ≤ (2 : ℚ) ^ (binExponent num den) / 2 := by
  obtain ⟨m, hm, h1, h2⟩ := roundToDouble_nat num den hd
  rw [hm]
  refine ⟨rfl, ?_⟩
  have hdq : (0 : ℚ) < den := by exact_mod_cast hd
  have hA : (0 : ℚ) < (2 : ℚ) ^ (binExponent num den).toNat := by positivity
  have hB : (0 : ℚ) < (2 : ℚ) ^ (-(binExponent num den)).toNat := by positivity
  have q1 : 2 * ((m : ℚ) * ((den : ℚ) * (2 : ℚ) ^ (binExponent num den).toNat))
      ≤ 2 * ((num : ℚ) * (2 : ℚ) ^ (-(binExponent num den)).toNat)
        + (den : ℚ) * (2 : ℚ) ^ (binExponent num den).toNat := by exact_mod_cast h1
  have q2 : 2 * ((num : ℚ) * (2 : ℚ) ^ (-(binExponent num den)).toNat)
      ≤ 2 * ((m : ℚ) * ((den : ℚ) * (2 : ℚ) ^ (binExponent num den).toNat))
        + (den : ℚ) * (2 : ℚ) ^ (binExponent num den).toNat := by exact_mod_cast h2
  unfold toRat
  simp only []
  rw [two_zpow_eq_div (binExponent num den)]
  generalize (2 : ℚ) ^ (binExponent num den).toNat = A at *
  generalize (2 : ℚ) ^ (-(binExponent num den)).toNat = B at *
  have e : (m : ℚ) * (A / B) - (num : ℚ) / den
      = ((m : ℚ) * ((den : ℚ) * A) - (num : ℚ) * B) / (den * B) := by
    field_simp
    ring
  rw [e, abs_le]
  have hden : (0 : ℚ) < den * B := by positivity
  constructor
  · rw [le_div_iff₀ hden]
    have : -(A / B / 2) * (↑den * B) = -(den * A) / 2 := by
      field_simp
      ring
    rw [this]
    linarith
  · rw [div_le_iff₀ hden]
    have : A / B / 2 * (↑den * B) = (den * A) / 2 := by
      field_simp
      ring
    rw [this]
    linarith

/-- The relative error of one rounding is at most `2 ^ -53`, and the mantissa is
positive. -/
theorem roundToDouble_error (num den : Nat) (hn : 0 < num) (hd : 0 < den) :
    |toRat (roundToDouble num den) - (num : ℚ) / den| ≤ (num : ℚ) / den / 2 ^ (53 : Nat)
    ∧ 0 < (roundToDouble num den).1 := by
  obtain ⟨h1, h2⟩ := roundToDouble_spec num den hd
  have h3 := binExponent_scaled num den hn hd
  have hx : (0 : ℚ) < (num : ℚ) / den := by positivity
  have hb : |toRat (roundToDouble num den) - (num : ℚ) / den|
      ≤ (num : ℚ) / den / 2 ^ (53 : Nat) := by
    refine le_trans h2 ?_
    rw [div_le_div_iff₀ (by norm_num) (by positivity)]
    have : (2 : ℚ) ^ (53 : Nat) = 2 ^ (52 : Nat) * 2 := by norm_num
    rw [this]
    nlinarith [two_zpow_pos (binExponent num den)]
  refine ⟨hb, ?_⟩
  by_contra hm
  have hm0 : (roundToDouble num den).1 = 0 := by omega
  have ht : toRat (roundToDouble num den) = 0 := by simp [toRat, hm0]
  rw [ht, zero_sub, abs_neg, abs_of_pos hx] at hb
  have : (num : ℚ) / den / 2 ^ (53 : Nat) < (num : ℚ) / den := by
    apply div_lt_self hx
    norm_num
  linarith


/-- The double `(a / b) * 100` differs from `100 * a / b` by three relative roundings
at most. -/
theorem quotTimes100_error (a b : Nat) (ha : 0 < a) (hb : 0 < b) :
    |toRat (quotTimes100 a b) - 100 * (a : ℚ) / b| ≤ 3 * (100 * (a : ℚ) / b) / 2 ^ (53 : Nat) := by
  obtain ⟨h1, hm⟩ := roundToDouble_error a b ha hb
  have hnum : 0 < 100 * (roundToDouble a b).1 * 2 ^ (roundToDouble a b).2.toNat := by positivity
  have hden : 0 < 2 ^ (-(roundToDouble a b).2).toNat := by positivity
  obtain ⟨h2, -⟩ := roundToDouble_error _ _ hnum hden
  have hval : ((100 * (roundToDouble a b).1 * 2 ^ (roundToDouble a b).2.toNat : Nat) : ℚ)
      / ((2 ^ (-(roundToDouble a b).2).toNat : Nat) : ℚ) = 100 * toRat (roundToDouble a b) := by
    unfold toRat
    rw [two_zpow_eq_div (roundToDouble a b).2]
    push_cast
    ring
  rw [hval] at h2
  have hq : toRat (quotTimes100 a b)
      = toRat (roundToDouble (100 * (roundToDouble a b).1 * 2 ^ (roundToDouble a b).2.toNat)
          (2 ^ (-(roundToDouble a b).2).toNat)) := rfl
  rw [hq]
  have hx : (0 : ℚ) < (a : ℚ) / b := by positivity
  generalize toRat (roundToDouble (100 * (roundToDouble a b).1 * 2 ^ (roundToDouble a b).2.toNat)
      (2 ^ (-(roundToDouble a b).2).toNat)) = y at *
  generalize toRat (roundToDouble a b) = x1 at *
  have e : 100 * (a : ℚ) / b = 100 * ((a : ℚ) / b) := by ring
  rw [e]
  generalize (a : ℚ) / b = x at *
  rw [abs_le] at h1 h2 ⊢
  have hu : (2 : ℚ) ^ (53 : Nat) = 9007199254740992 := by norm_num
  rw [hu] at h1 h2 ⊢
  constructor
  · have := h1.1
    have := h2.1
    have : x / 9007199254740992 = x * (1 / 9007199254740992) := by ring
    have : 100 * x1 / 9007199254740992 = 100 * x1 * (1 / 9007199254740992) := by ring
    have : 3 * (100 * x) / 9007199254740992 = 300 * x * (1 / 9007199254740992) := by ring
    nlinarith
  · have := h1.2
    have := h2.2
    have : x / 9007199254740992 = x * (1 / 9007199254740992) := by ring
    have : 100 * x1 / 9007199254740992 = 100 * x1 * (1 / 9007199254740992) := by ring
    have : 3 * (100 * x) / 9007199254740992 = 300 * x * (1 / 9007199254740992) := by ring
    nlinarith

/-- `Math.round(x)` is `floor(x + 1/2)`. -/
theorem mathRound_bounds (x : Nat × Int) :
    (mathRound x : ℚ) ≤ toRat x + 1 / 2 ∧ toRat x + 1 / 2 < (mathRound x : ℚ) + 1 := by
  have hD : 0 < 2 * 2 ^ (-x.2).toNat := by positivity
  have h1 := Nat.div_mul_le_self (2 * x.1 * 2 ^ x.2.toNat + 2 ^ (-x.2).toNat)
    (2 * 2 ^ (-x.2).toNat)
  have h2 := Nat.lt_div_mul_add (a := 2 * x.1 * 2 ^ x.2.toNat + 2 ^ (-x.2).toNat) hD
  have q1 : ((mathRound x : Nat) : ℚ) * (2 * (2 : ℚ) ^ (-x.2).toNat)
      ≤ 2 * (x.1 : ℚ) * (2 : ℚ) ^ x.2.toNat + (2 : ℚ) ^ (-x.2).toNat := by
    unfold mathRound
    exact_mod_cast h1
  have q2 : 2 * (x.1 : ℚ) * (2 : ℚ) ^ x.2.toNat + (2 : ℚ) ^ (-x.2).toNat
      < ((mathRound x : Nat) : ℚ) * (2 * (2 : ℚ) ^ (-x.2).toNat) + 2 * (2 : ℚ) ^ (-x.2).toNat := by
    unfold mathRound
    exact_mod_cast h2
  have hB : (0 : ℚ) < (2 : ℚ) ^ (-x.2).toNat := by positivity
  unfold toRat
  rw [two_zpow_eq_div x.2]
  generalize (2 : ℚ) ^ x.2.toNat = A at *
  generalize (2 : ℚ) ^ (-x.2).toNat = B at *
  generalize ((mathRound x : Nat) : ℚ) = K at *
  have e : (x.1 : ℚ) * (A / B) + 1 / 2 = (2 * (x.1 : ℚ) * A + B) / (2 * B) := by
    field_simp
    ring
  rw [e]
  constructor
  · rw [le_div_iff₀ (by positivity)]
    exact q1
  · rw [div_lt_iff₀ (by positivity)]
    linarith

/-- `Math.round(-x)` is `-ceil(x - 1/2)`. -/
theorem mathRoundNeg_bounds (x : Nat × Int) :
    toRat x - 1 / 2 ≤ ((-(mathRoundNeg x) : Int) : ℚ)
    ∧ ((-(mathRoundNeg x) : Int) : ℚ) < toRat x + 1 / 2 := by
  have hD : 0 < 2 * 2 ^ (-x.2).toNat := by positivity
  have hD1 : 1 ≤ 2 ^ (-x.2).toNat := Nat.one_le_two_pow
  have h1 := Nat.div_mul_le_self (2 * x.1 * 2 ^ x.2.toNat + 2 ^ (-x.2).toNat - 1)
    (2 * 2 ^ (-x.2).toNat)
  have h2 := Nat.lt_div_mul_add (a := 2 * x.1 * 2 ^ x.2.toNat + 2 ^ (-x.2).toNat - 1) hD
  have hk : (-(mathRoundNeg x) : Int)
      = (((2 * x.1 * 2 ^ x.2.toNat + 2 ^ (-x.2).toNat - 1) / (2 * 2 ^ (-x.2).toNat) : Nat) : Int) := by
    unfold mathRoundNeg
    simp
  rw [hk]
  generalize hK : (2 * x.1 * 2 ^ x.2.toNat + 2 ^ (-x.2).toNat - 1) / (2 * 2 ^ (-x.2).toNat) = K at *
  have n1 : K * (2 * 2 ^ (-x.2).toNat) + 1 ≤ 2 * x.1 * 2 ^ x.2.toNat + 2 ^ (-x.2).toNat := by
    omega
  have n2 : 2 * x.1 * 2 ^ x.2.toNat + 2 ^ (-x.2).toNat
      ≤ K * (2 * 2 ^ (-x.2).toNat) + 2 * 2 ^ (-x.2).toNat := by
    omega
  have q1 : (K : ℚ) * (2 * (2 : ℚ) ^ (-x.2).toNat) + 1
      ≤ 2 * (x.1 : ℚ) * (2 : ℚ) ^ x.2.toNat + (2 : ℚ) ^ (-x.2).toNat := by
    exact_mod_cast n1
  have q2 : 2 * (x.1 : ℚ) * (2 : ℚ) ^ x.2.toNat + (2 : ℚ) ^ (-x.2).toNat
      ≤ (K : ℚ) * (2 * (2 : ℚ) ^ (-x.2).toNat) + 2 * (2 : ℚ) ^ (-x.2).toNat := by
    exact_mod_cast n2
  have hB : (0 : ℚ) < (2 : ℚ) ^ (-x.2).toNat := by positivity
  unfold toRat
  rw [two_zpow_eq_div x.2]
  generalize (2 : ℚ) ^ x.2.toNat = A at *
  generalize (2 : ℚ) ^ (-x.2).toNat = B at *
  have e1 : (x.1 : ℚ) * (A / B) - 1 / 2 = (2 * (x.1 : ℚ) * A - B) / (2 * B) := by
    field_simp
    ring
  have e2 : (x.1 : ℚ) * (A / B) + 1 / 2 = (2 * (x.1 : ℚ) * A + B) / (2 * B) := by
    field_simp
    ring
  rw [e1, e2]
  push_cast
  constructor
  · rw [div_le_iff₀ (by positivity)]
    linarith
  · rw [lt_div_iff₀ (by positivity)]
    linarith


/-- An integer within a half of a double that is within three roundings of
`100 * a / b` is within a half of `100 * a / b`, for `a` below `2 ^ 43`. -/
theorem near_of_rounded (K : Int) (y : ℚ) (a b : Nat) (hb : 0 < b) (hlt : a < 2 ^ 43)
    (herr : |y - 100 * (a : ℚ) / b| ≤ 3 * (100 * (a : ℚ) / b) / 2 ^ (53 : Nat))
    (h1 : (K : ℚ) ≤ y + 1 / 2) (h2 : y - 1 / 2 ≤ (K : ℚ)) :
    2 * (b : Int) * K ≤ 200 * (a : Int) + b ∧ 200 * (a : Int) ≤ 2 * (b : Int) * K + b := by
  have hbq : (0 : ℚ) < b := by exact_mod_cast hb
  have haq : (a : ℚ) < 8796093022208 := by exact_mod_cast hlt
  have ha0 : (0 : ℚ) ≤ a := by positivity
  have hu : (2 : ℚ) ^ (53 : Nat) = 9007199254740992 := by norm_num
  rw [hu, abs_le] at herr
  have hX : 100 * (a : ℚ) / b * b = 100 * a := by field_simp
  generalize 100 * (a : ℚ) / b = X at *
  have e3 : 3 * X / 9007199254740992 * b = 300 * (a : ℚ) / 9007199254740992 := by
    rw [div_mul_eq_mul_div, mul_assoc, hX]
    ring
  constructor
  · have hq : (2 * (b : ℚ) * K) < 200 * a + b + 1 := by
      have s1 : (K : ℚ) * b ≤ (X + 3 * X / 9007199254740992 + 1 / 2) * b :=
        mul_le_mul_of_nonneg_right (by linarith [herr.2]) hbq.le
      have s2 : (X + 3 * X / 9007199254740992 + 1 / 2) * b
          = 100 * a + 300 * (a : ℚ) / 9007199254740992 + b / 2 := by
        rw [add_mul, add_mul, hX, e3]
        ring
      rw [s2] at s1
      linarith
    have hz : 2 * (b : Int) * K < 200 * (a : Int) + b + 1 := by exact_mod_cast hq
    omega
  · have hq : (200 * (a : ℚ)) < 2 * b * K + b + 1 := by
      have s1 : (X - 3 * X / 9007199254740992 - 1 / 2) * b ≤ (K : ℚ) * b :=
        mul_le_mul_of_nonneg_right (by linarith [herr.1]) hbq.le
      have s2 : (X - 3 * X / 9007199254740992 - 1 / 2) * b
          = 100 * a - 300 * (a : ℚ) / 9007199254740992 - b / 2 := by
        rw [sub_mul, sub_mul, hX, e3]
        ring
      rw [s2] at s1
      linarith
    have hz : 200 * (a : Int) < 2 * (b : Int) * K + b + 1 := by exact_mod_cast hq
    omega

/-- The value of `Math.round((a / b) * 100)` is an integer nearest to `100 * a / b`,
for a positive `b` and `a` between `-2 ^ 43` and `2 ^ 43`. -/
theorem roundedPercentFin_near (a : Int) (b : Nat) (hb : 0 < b)
    (hlo : -(2 ^ 43 : Int) < a) (hhi : a < 2 ^ 43) :
    2 * (b : Int) * roundedPercentFin a b ≤ 200 * a + b
    ∧ 200 * a ≤ 2 * (b : Int) * roundedPercentFin a b + b := by
  unfold roundedPercentFin
  by_cases h0 : a = 0
  · subst h0
    simp
  · by_cases hpos : 0 < a
    · simp only [h0, if_false, hpos, if_true]
      have hn : 0 < a.toNat := by omega
      have hlt : a.toNat < 2 ^ 43 := by omega
      obtain ⟨m1, m2⟩ := mathRound_bounds (quotTimes100 a.toNat b)
      have := near_of_rounded (mathRound (quotTimes100 a.toNat b) : Int)
        (toRat (quotTimes100 a.toNat b)) a.toNat b hb hlt
        (quotTimes100_error a.toNat b hn hb) (by push_cast; exact m1) (by push_cast; linarith)
      have hcast : ((a.toNat : Nat) : Int) = a := Int.toNat_of_nonneg hpos.le
      rw [hcast] at this
      exact this
    · simp only [h0, if_false, hpos]
      have hn : 0 < (-a).toNat := by omega
      have hlt : (-a).toNat < 2 ^ 43 := by omega
      obtain ⟨m1, m2⟩ := mathRoundNeg_bounds (quotTimes100 (-a).toNat b)
      have := near_of_rounded (-(mathRoundNeg (quotTimes100 (-a).toNat b)))
        (toRat (quotTimes100 (-a).toNat b)) (-a).toNat b hb hlt
        (quotTimes100_error (-a).toNat b hn hb) (by linarith) m1
      have hcast : (((-a).toNat : Nat) : Int) = -a := Int.toNat_of_nonneg (by omega)
      rw [hcast] at this
      constructor
      · linarith [this.2]
      · linarith [this.1]

/-- With 73 in the denominator no percentage is halfway between two integers. -/
theorem roundedPercentFin_73 (n : Int) (hlo : -(2 ^ 43 : Int) < n) (hhi : n < 2 ^ 43) :
    roundedPercentFin n 73 = (200 * n + 73) / 146 := by
  obtain ⟨h1, h2⟩ := roundedPercentFin_near n 73 (by norm_num) hlo hhi
  push_cast at h1 h2
  omega

/-- Up to `2 ^ 43` the rounded percentage is `100 * s / t` rounded to the nearest
integer, where an exact half goes up or down. -/
theorem roundedPercentFin_round (s t : Nat) (ht : 0 < t) (hs : s < 2 ^ 43) :
    roundedPercentFin (s : Int) t = (200 * (s : Int) + t) / (2 * (t : Int))
    ∨ (roundedPercentFin (s : Int) t + 1 = (200 * (s : Int) + t) / (2 * (t : Int))
        ∧ (200 * (s : Int) + t) % (2 * (t : Int)) = 0) := by
  obtain ⟨h1, h2⟩ := roundedPercentFin_near (s : Int) t ht (by omega) (by exact_mod_cast hs)
  have hM : (0 : Int) < 2 * (t : Int) := by omega
  have hdiv := Int.ediv_add_emod (200 * (s : Int) + t) (2 * (t : Int))
  have hr0 := Int.emod_nonneg (200 * (s : Int) + t) (ne_of_gt hM)
  have hr1 := Int.emod_lt_of_pos (200 * (s : Int) + t) hM
  generalize roundedPercentFin (s : Int) t = k at *
  generalize (200 * (s : Int) + t) / (2 * (t : Int)) = R at *
  generalize (200 * (s : Int) + t) % (2 * (t : Int)) = r at *
  have hkR : k ≤ R := by
    have : 2 * (t : Int) * k < 2 * (t : Int) * (R + 1) := by nlinarith
    have := lt_of_mul_lt_mul_left this hM.le
    omega
  have hRk : R ≤ k + 1 := by
    have : 2 * (t : Int) * R < 2 * (t : Int) * (k + 1 + 1) := by nlinarith
    have := lt_of_mul_lt_mul_left this hM.le
    omega
  by_cases hk : k = R
  · exact Or.inl hk
  · have hk1 : k + 1 = R := by omega
    refine Or.inr ⟨hk1, ?_⟩
    subst hk1
    nlinarith


set_option maxRecDepth 100000 in
set_option maxHeartbeats 4000000 in
/-- Below 40 questions every percentage is rounded as in exact arithmetic. -/
theorem small_quiz_exact :
    ∀ t : Nat, t < 40 → ∀ s : Nat, s ≤ t →
      roundedPercentFin (s : Int) t = (200 * (s : Int) + t) / (2 * (t : Int)) := by
  decide

/-- C9 (amended): on every tracker whose `totalLessonsCompleted` lies between
`-2 ^ 43` and `2 ^ 43`, `getOverallPercentage()` returns the integer nearest to
`100 * totalLessonsCompleted / 73` (less than a half away from it), which is
`floor((200 * n + 73) / 146)`; with `totalLessonsCompleted = 37` it returns 51.  The
method yields a value only. -/
theorem getOverallPercentage_nearest (t : Tracker)
    (hlo : -(2 ^ 43 : Int) < t.progress.totalLessonsCompleted)
    (hhi : t.progress.totalLessonsCompleted < 2 ^ 43) :
    getOverallPercentage t = (200 * t.progress.totalLessonsCompleted + 73) / 146
    ∧ -73 < 146 * getOverallPercentage t - 200 * t.progress.totalLessonsCompleted
    ∧ 146 * getOverallPercentage t - 200 * t.progress.totalLessonsCompleted < 73
    ∧ (t.progress.totalLessonsCompleted = 37 → getOverallPercentage t = 51) := by
  have h := roundedPercentFin_73 t.progress.totalLessonsCompleted hlo hhi
  unfold getOverallPercentage
  rw [h]
  refine ⟨rfl, by omega, by omega, fun h37 => by omega⟩

/-- Witness of C9 (amended): a document that counts 37 completed lessons. -/
theorem getOverallPercentage_nearest_witness :
    getOverallPercentage (trackerWithCount 37) = 51 :=
  (getOverallPercentage_nearest (trackerWithCount 37) (by decide) (by decide)).2.2.2 rfl

/-- Counterexample to C9 as stated: for a document with
`totalLessonsCompleted = 64000000000041` the method returns 87671232876769, while
`100 * 64000000000041 / 73 = 87671232876768.49..` is nearest to 87671232876768. -/
theorem getOverallPercentage_large_count :
    getOverallPercentage (trackerWithCount 64000000000041) = 87671232876769
    ∧ (200 * (64000000000041 : Int) + 73) / 146 = 87671232876768
    ∧ ¬ (146 * getOverallPercentage (trackerWithCount 64000000000041)
          - 200 * (64000000000041 : Int) < 73) := by
  decide

/-- C6 (amended): on every tracker with a quiz record for `moduleId`, for
`totalQuestions > 0` and a score below `2 ^ 43`, `recordQuizAttempt` returns true,
raises `quizzes[moduleId].attempts` by one and stores in `lastAttempt` the date, the
score, the total and as percentage the value `k` of
`Math.round((score / totalQuestions) * 100)`: `k` is `100 * score / totalQuestions`
rounded to the nearest integer with a half rounded up, or, only when
`100 * score / totalQuestions` is exactly halfway between two integers, rounded down;
for `totalQuestions < 40` it is always the former.  The quiz records of the other
modules, the modules with their lessons and `totalLessonsCompleted` stay as they were. -/
theorem recordQuizAttempt_effect (stringify : ProgressDocument → String)
    (tDate tSaved : Timestamp) (moduleId : Int) (score totalQuestions : Nat) (t : Tracker)
    (quiz : QuizRecord) (hq : Obj.get moduleId t.progress.quizzes = some quiz)
    (hn : 0 < totalQuestions) (hs : score < 2 ^ 43) :
    (recordQuizAttempt stringify tDate tSaved moduleId score totalQuestions t).1 = true
    ∧ (∃ q', Obj.get moduleId
          (recordQuizAttempt stringify tDate tSaved moduleId score
            totalQuestions t).2.progress.quizzes = some q'
        ∧ q'.attempts = quiz.attempts + 1
        ∧ q'.lastAttempt = some
            { date := tDate, score := score, total := totalQuestions,
              percentage := JSNumber.fin (roundedPercentFin (score : Int) totalQuestions) })
    ∧ (roundedPercentFin (score : Int) totalQuestions
          = (200 * (score : Int) + totalQuestions) / (2 * (totalQuestions : Int))
        ∨ (roundedPercentFin (score : Int) totalQuestions + 1
              = (200 * (score : Int) + totalQuestions) / (2 * (totalQuestions : Int))
            ∧ (200 * (score : Int) + totalQuestions) % (2 * (totalQuestions : Int)) = 0))
    ∧ (totalQuestions < 40 → score ≤ totalQuestions →
        roundedPercentFin (score : Int) totalQuestions
          = (200 * (score : Int) + totalQuestions) / (2 * (totalQuestions : Int)))
    ∧ (∀ i, i ≠ moduleId →
        Obj.get i
          (recordQuizAttempt stringify tDate tSaved moduleId score totalQuestions t).2.progress.quizzes
          = Obj.get i t.progress.quizzes)
    ∧ (recordQuizAttempt stringify tDate tSaved moduleId score totalQuestions t).2.progress.modules
        = t.progress.modules
    ∧ (recordQuizAttempt stringify tDate tSaved moduleId score
        totalQuestions t).2.progress.totalLessonsCompleted = t.progress.totalLessonsCompleted := by
  obtain ⟨a1, a2, a3, a4, a5⟩ :=
    recordQuizAttempt_spec stringify tDate tSaved moduleId score totalQuestions t quiz hq
  have hne : totalQuestions ≠ 0 := by omega
  refine ⟨a1, ⟨_, a5, rfl, ?_⟩, roundedPercentFin_round score totalQuestions hn hs, ?_,
    a4, a2, a3⟩
  · simp [roundedPercent, hne]
  · intro h40 hle
    exact small_quiz_exact totalQuestions h40 score hle

/-- Witness of C6 (amended): 9 of 16 on module 3 of the fresh document. -/
theorem recordQuizAttempt_effect_witness :
    (recordQuizAttempt counterStringify 10 11 3 9 16
        (initialTracker counterStringify 1 2 3 blankTracker)).1 = true
    ∧ roundedPercentFin 9 16 = 56 :=
  have h := recordQuizAttempt_effect counterStringify 10 11 3 9 16
    (initialTracker counterStringify 1 2 3 blankTracker) freshQuiz (by decide) (by decide)
    (by decide)
  ⟨h.1, (h.2.2.2.1 (by decide) (by decide)).trans (by decide)⟩

/-- Counterexample to C6 as stated: `recordQuizAttempt(3, 23, 40)` on the fresh
document stores the percentage 57, while `100 * 23 / 40 = 57.5` rounded with the half
up is 58. -/
theorem recordQuizAttempt_23_of_40 :
    ((Obj.get 3 (recordQuizAttempt counterStringify 10 11 3 23 40
        (initialTracker counterStringify 1 2 3 blankTracker)).2.progress.quizzes).bind
        (fun q => q.lastAttempt)).map (fun a => a.percentage) = some (JSNumber.fin 57)
    ∧ (200 * (23 : Int) + 40) / (2 * 40) = 58
    ∧ (200 * (23 : Int) + 40) % (2 * 40) = 0 := by
  decide

/-! ## Totals and attempts -/

theorem Obj.get_map {α β : Type} (k : Int) (g : α → β) (o : Obj α) :
    Obj.get k (o.map (fun p => (p.1, g p.2))) = (Obj.get k o).map g := by
  induction o with
  | nil => rfl
  | cons q rest ih =>
    obtain ⟨k1, v⟩ := q
    by_cases h : k1 = k
    · simp [Obj.get, h]
    · simp only [List.map_cons, Obj.get, h, if_false, ih]

theorem lessonAt_markLessonComplete (stringify : ProgressDocument → String)
    (tDone tSaved : Timestamp) (moduleId lessonId : Int) (t : Tracker)
    (lesson : LessonState) (h : lessonAt t moduleId lessonId = some lesson) (i j : Int) :
    lessonAt (markLessonComplete stringify tDone tSaved moduleId lessonId t).2 i j
      = if i = moduleId ∧ j = lessonId then
          some { completed := true,
                 completedAt := if lesson.completed then lesson.completedAt else some tDone,
                 attempts := lesson.attempts + 1 }
        else lessonAt t i j := by
  unfold lessonAt at h
  cases hm : Obj.get moduleId t.progress.modules with
  | none => simp [hm] at h
  | some module =>
    rw [hm] at h
    simp only [Option.some_bind] at h
    obtain ⟨-, -, -, a4, module', b1, -, -, b4, b5⟩ :=
      markLessonComplete_spec stringify tDone tSaved moduleId lessonId t module lesson hm h
    by_cases hi : i = moduleId
    · subst hi
      by_cases hj : j = lessonId
      · subst hj
        simp [lessonAt, b1, b5]
      · simp [lessonAt, b1, b4 j hj, hm, hj]
    · simp [lessonAt, a4 i hi, hi]

theorem lessonAt_markLessonIncomplete (stringify : ProgressDocument → String)
    (tSaved : Timestamp) (moduleId lessonId : Int) (t : Tracker)
    (lesson : LessonState) (h : lessonAt t moduleId lessonId = some lesson) (i j : Int) :
    lessonAt (markLessonIncomplete stringify tSaved moduleId lessonId t).2 i j
      = if i = moduleId ∧ j = lessonId then
          some { completed := false,
                 completedAt := if lesson.completed then none else lesson.completedAt,
                 attempts := lesson.attempts }
        else lessonAt t i j := by
  unfold lessonAt at h
  cases hm : Obj.get moduleId t.progress.modules with
  | none => simp [hm] at h
  | some module =>
    rw [hm] at h
    simp only [Option.some_bind] at h
    obtain ⟨-, -, -, a4, module', b1, -, -, b4, b5⟩ :=
      markLessonIncomplete_spec stringify tSaved moduleId lessonId t module lesson hm h
    by_cases hi : i = moduleId
    · subst hi
      by_cases hj : j = lessonId
      · subst hj
        simp [lessonAt, b1, b5]
      · simp [lessonAt, b1, b4 j hj, hm, hj]
    · simp [lessonAt, a4 i hi, hi]

theorem markLessonComplete_of_none (stringify : ProgressDocument → String)
    (tDone tSaved : Timestamp) (moduleId lessonId : Int) (t : Tracker)
    (h : lessonAt t moduleId lessonId = none) :
    (markLessonComplete stringify tDone tSaved moduleId lessonId t).2 = t := by
  apply markLessonComplete_of_false
  rw [markLessonComplete_fst, h]
  rfl

theorem markLessonIncomplete_of_none (stringify : ProgressDocument → String)
    (tSaved : Timestamp) (moduleId lessonId : Int) (t : Tracker)
    (h : lessonAt t moduleId lessonId = none) :
    (markLessonIncomplete stringify tSaved moduleId lessonId t).2 = t := by
  apply markLessonIncomplete_of_false
  rw [markLessonIncomplete_fst, h]
  rfl

theorem recordQuizAttempt_modules (stringify : ProgressDocument → String)
    (tDate tSaved : Timestamp) (moduleId : Int) (score totalQuestions : Nat) (t : Tracker) :
    (recordQuizAttempt stringify tDate tSaved moduleId score totalQuestions t).2.progress.modules
        = t.progress.modules
      ∧ (recordQuizAttempt stringify tDate tSaved moduleId score
          totalQuestions t).2.progress.totalLessonsCompleted
        = t.progress.totalLessonsCompleted := by
  cases hq : Obj.get moduleId t.progress.quizzes with
  | none => simp only [recordQuizAttempt, hq, and_self]
  | some q =>
    obtain ⟨-, a2, a3, -, -⟩ :=
      recordQuizAttempt_spec stringify tDate tSaved moduleId score totalQuestions t q hq
    exact ⟨a2, a3⟩

theorem lessonAt_recordQuizAttempt (stringify : ProgressDocument → String)
    (tDate tSaved : Timestamp) (moduleId : Int) (score totalQuestions : Nat) (t : Tracker)
    (i j : Int) :
    lessonAt (recordQuizAttempt stringify tDate tSaved moduleId score totalQuestions t).2 i j
      = lessonAt t i j := by
  unfold lessonAt
  rw [(recordQuizAttempt_modules stringify tDate tSaved moduleId score totalQuestions t).1]

/-- No call lowers the `attempts` of a lesson, and no call removes a lesson. -/
theorem attempts_le_after_call (stringify : ProgressDocument → String) (op : Op) (t : Tracker)
    (i j : Int) (s : LessonState) (hs : lessonAt t i j = some s) :
    ∃ s', lessonAt (op.call stringify t).2 i j = some s' ∧ s.attempts ≤ s'.attempts := by
  cases op with
  | complete m l tDone tSaved =>
    simp only [Op.call]
    cases h : lessonAt t m l with
    | none =>
      rw [markLessonComplete_of_none stringify tDone tSaved m l t h]
      exact ⟨s, hs, le_refl _⟩
    | some lesson =>
      rw [lessonAt_markLessonComplete stringify tDone tSaved m l t lesson h]
      by_cases hij : i = m ∧ j = l
      · obtain ⟨rfl, rfl⟩ := hij
        rw [h] at hs
        cases hs
        simp
      · simp only [hij, if_false]
        exact ⟨s, hs, le_refl _⟩
  | incomplete m l tSaved =>
    simp only [Op.call]
    cases h : lessonAt t m l with
    | none =>
      rw [markLessonIncomplete_of_none stringify tSaved m l t h]
      exact ⟨s, hs, le_refl _⟩
    | some lesson =>
      rw [lessonAt_markLessonIncomplete stringify tSaved m l t lesson h]
      by_cases hij : i = m ∧ j = l
      · obtain ⟨rfl, rfl⟩ := hij
        rw [h] at hs
        cases hs
        simp
      · simp only [hij, if_false]
        exact ⟨s, hs, le_refl _⟩
  | quiz m sc n tDate tSaved =>
    simp only [Op.call]
    rw [lessonAt_recordQuizAttempt]
    exact ⟨s, hs, le_refl _⟩

/-- C18: on every tracker, a `markLessonComplete` call on a lesson that exists raises
that lesson's `attempts` by exactly one, whether the lesson was completed or not, and
leaves every other lesson as it was; and after any call of `markLessonComplete`,
`markLessonIncomplete` or `recordQuizAttempt` every lesson is still there with
`attempts` not below its value before the call. -/
theorem attempts_incremented_never_lowered (stringify : ProgressDocument → String)
    (tDone tSaved : Timestamp) (moduleId lessonId : Int) (t : Tracker) (lesson : LessonState)
    (h : lessonAt t moduleId lessonId = some lesson) :
    (markLessonComplete stringify tDone tSaved moduleId lessonId t).1 = true
    ∧ (lessonAt (markLessonComplete stringify tDone tSaved moduleId lessonId t).2
        moduleId lessonId).map (fun l => l.attempts) = some (lesson.attempts + 1)
    ∧ (∀ i j : Int, ¬ (i = moduleId ∧ j = lessonId) →
        lessonAt (markLessonComplete stringify tDone tSaved moduleId lessonId t).2 i j
          = lessonAt t i j)
    ∧ (∀ (op : Op) (u : Tracker) (i j : Int) (s : LessonState), lessonAt u i j = some s →
        ∃ s', lessonAt (op.call stringify u).2 i j = some s' ∧ s.attempts ≤ s'.attempts) := by
  refine ⟨?_, ?_, ?_, fun op u i j s hs => attempts_le_after_call stringify op u i j s hs⟩
  · rw [markLessonComplete_fst, h]
    rfl
  · rw [lessonAt_markLessonComplete stringify tDone tSaved moduleId lessonId t lesson h]
    simp
  · intro i j hij
    rw [lessonAt_markLessonComplete stringify tDone tSaved moduleId lessonId t lesson h]
    simp [hij]

/-- Witness of C18: lesson 2 of module 3, completed a second time. -/
theorem attempts_incremented_never_lowered_witness :
    (lessonAt (markLessonComplete counterStringify 12 13 3 2
        (markLessonComplete counterStringify 10 11 3 2 blankTracker).2).2 3 2).map
      (fun l => l.attempts) = some (1 + 1) :=
  (attempts_incremented_never_lowered counterStringify 12 13 3 2
    (markLessonComplete counterStringify 10 11 3 2 blankTracker).2
    { completed := true, completedAt := some 10, attempts := 1 } (by decide)).2.1

/-- What holds of the module totals: `initializeProgress` creates exactly the modules
1..14, module `i` with `completed` 0, with the `total` of the table
5,5,5,5,6,5,5,6,6,6,6,6,6,5 (which sums to 77) and with exactly the lessons `1..total`,
each not completed, without completion time and with `attempts` 0; and after any
sequence of calls every module has the `total` and the lesson ids it had at the
start. -/
theorem totals_fixed (stringify : ProgressDocument → String)
    (tUpdated tStarted tSaved : Timestamp) (t0 : Tracker) (ops : List Op) :
    (initialTracker stringify tUpdated tStarted tSaved t0).progress.modules
      = (([1, 2, 3, 4, 5, 6, 7, 8, 9, 10, 11, 12, 13, 14] : List Nat).zip
          [5, 5, 5, 5, 6, 5, 5, 6, 6, 6, 6, 6, 6, 5]).map
          (fun (p : Nat × Nat) => ((p.1 : Int),
            { completed := 0, total := (p.2 : Int),
              lessons := (List.range' 1 p.2).map (fun j => ((j : Int), freshLesson)) }))
    ∧ ([5, 5, 5, 5, 6, 5, 5, 6, 6, 6, 6, 6, 6, 5] : List Nat).sum = 77
    ∧ Obj.keys
        (run stringify ops (initialTracker stringify tUpdated tStarted tSaved t0)).progress.modules
      = [1, 2, 3, 4, 5, 6, 7, 8, 9, 10, 11, 12, 13, 14]
    ∧ (∀ i : Int,
        (Obj.get i (run stringify ops
            (initialTracker stringify tUpdated tStarted tSaved t0)).progress.modules).map
          (fun m => (m.total, Obj.keys m.lessons))
        = (Obj.get i (initialTracker stringify tUpdated tStarted tSaved t0).progress.modules).map
          (fun m => (m.total, Obj.keys m.lessons))) := by
  have hc := consistent_reachable stringify tUpdated tStarted tSaved t0 ops
  have hc0 := consistent_initialTracker stringify tUpdated tStarted tSaved t0
  refine ⟨?_, by decide, hc.keys_modules, ?_⟩
  · rfl
  · intro i
    have key : ∀ d : ProgressDocument,
        (Obj.get i d.modules).map (fun m => (m.total, Obj.keys m.lessons))
          = Obj.get i (shape d) := by
      intro d
      rw [← Obj.get_map]
      rfl
    rw [key, key, hc.shape_eq, hc0.shape_eq]

/-- C17, the failing input: the totals of the modules that `initializeProgress` creates
sum to 77, not to the 73 that `getOverallPercentage()` takes for the number of lessons
of the course; with all 77 lessons counted `getOverallPercentage()` is 105. -/
theorem default_totals_sum :
    (((initialTracker counterStringify 1 2 3 blankTracker).progress.modules).map
        (fun p => p.2.total)).sum = 77
    ∧ ([5, 5, 5, 5, 6, 5, 5, 6, 6, 6, 6, 6, 6, 5] : List Nat).sum ≠ 73
    ∧ getOverallPercentage (trackerWithCount 73) = 100
    ∧ getOverallPercentage (trackerWithCount 77) = 105 := by
  decide

/-! ## Achievements -/

theorem getStatistics_completedLessons (now : Timestamp) (t : Tracker) :
    (getStatistics now t).completedLessons = t.progress.totalLessonsCompleted
    ∧ (getStatistics now t).overallPercentage = getOverallPercentage t
    ∧ (getStatistics now t).quizzesCompleted
        = ((Obj.values t.progress.quizzes).filter (fun (quiz : QuizRecord) => quiz.completed)).length := by
  have key : ∀ (l : List Nat) (s : Statistics),
      (l.foldl (fun (s : Statistics) (i : Nat) =>
          if isModuleComplete t (i : Int) then { s with modulesCompleted := s.modulesCompleted + 1 }
          else s) s).completedLessons = s.completedLessons
      ∧ (l.foldl (fun (s : Statistics) (i : Nat) =>
          if isModuleComplete t (i : Int) then { s with modulesCompleted := s.modulesCompleted + 1 }
          else s) s).overallPercentage = s.overallPercentage := by
    intro l
    induction l with
    | nil => intro s; exact ⟨rfl, rfl⟩
    | cons i rest ih =>
      intro s
      simp only [List.foldl_cons]
      split
      · exact ih _
      · exact ih _
  unfold getStatistics
  simp only []
  exact ⟨(key _ _).1, (key _ _).2, trivial⟩

theorem getStatistics_modulesCompleted_zero (now : Timestamp) (t : Tracker)
    (h : ∀ i : Nat, 1 ≤ i → i < 1 + 14 → isModuleComplete t (i : Int) = false) :
    (getStatistics now t).modulesCompleted = 0 := by
  have key : ∀ (n a : Nat) (s : Statistics),
      (∀ i : Nat, a ≤ i → i < a + n → isModuleComplete t (i : Int) = false) →
      ((List.range' a n).foldl (fun (s : Statistics) (i : Nat) =>
          if isModuleComplete t (i : Int) then { s with modulesCompleted := s.modulesCompleted + 1 }
          else s) s).modulesCompleted = s.modulesCompleted := by
    intro n
    induction n with
    | zero => intro a s _; rfl
    | succ n ih =>
      intro a s hh
      rw [List.range'_succ, List.foldl_cons, hh a (le_refl a) (by omega)]
      simp only [Bool.false_eq_true, if_false]
      exact ih (a + 1) s (fun i h1 h2 => hh i (by omega) (by omega))
  unfold getStatistics
  simp only []
  exact key 14 1 _ h


theorem sum_eq_zero_of_nonneg (l : List Int) (hnn : ∀ x ∈ l, 0 ≤ x) (hsum : l.sum = 0) :
    ∀ x ∈ l, x = 0 := by
  induction l with
  | nil => intro x hx; cases hx
  | cons a rest ih =>
    have ha : 0 ≤ a := hnn a (List.mem_cons_self _ _)
    have hrest : ∀ x ∈ rest, 0 ≤ x := fun x hx => hnn x (List.mem_cons_of_mem _ hx)
    have hr : 0 ≤ rest.sum := List.sum_nonneg hrest
    rw [List.sum_cons] at hsum
    intro x hx
    rcases List.mem_cons.mp hx with rfl | hx'
    · omega
    · exact ih hrest (by omega) x hx'

theorem completedCount_nonneg (lessons : Obj LessonState) : 0 ≤ completedCount lessons := by
  unfold completedCount
  exact Int.natCast_nonneg _

/-- On a consistent document that counts no completed lesson, no module is complete. -/
theorem Consistent.no_module_complete (t : Tracker) (hc : Consistent t.progress)
    (h0 : t.progress.totalLessonsCompleted = 0) (i : Int) (h1 : 1 ≤ i) (h14 : i ≤ 14) :
    isModuleComplete t i = false := by
  obtain ⟨module, hm⟩ := Option.isSome_iff_exists.mp (hc.get_module_isSome _ i h1 h14)
  have hmem := Obj.mem_of_get i _ module hm
  have hz : module.completed = 0 := by
    apply sum_eq_zero_of_nonneg ((Obj.values t.progress.modules).map (fun m => m.completed))
    · intro x hx
      simp only [Obj.values, List.mem_map] at hx
      obtain ⟨m', ⟨p, hp, rfl⟩, rfl⟩ := hx
      rw [hc.module_count p hp]
      exact completedCount_nonneg _
    · rw [← hc.total_sum, h0]
    · simp only [Obj.values, List.mem_map]
      exact ⟨module, ⟨(i, module), hmem, rfl⟩, rfl⟩
  have htot := (hc.lessons_keys _ i module hm).2
  unfold isModuleComplete
  rw [hm]
  simp only [decide_eq_false_iff_not]
  rw [hz, htot]
  interval_cases i <;> decide

theorem getOverallPercentage_zero (t : Tracker) (h0 : t.progress.totalLessonsCompleted = 0) :
    getOverallPercentage t = 0 := by
  simp [getOverallPercentage, roundedPercentFin, h0]

/-- The count `modulesCompleted` of `getStatistics()` is at least 1 exactly when
`isModuleComplete(i)` holds for one of the modules 1..14. -/
theorem getStatistics_modulesCompleted_pos (now : Timestamp) (t : Tracker) :
    1 ≤ (getStatistics now t).modulesCompleted
      ↔ ∃ i ∈ List.range' 1 14, isModuleComplete t (i : Int) = true := by
  have key : ∀ (l : List Nat) (s : Statistics),
      (l.foldl (fun (s : Statistics) (i : Nat) =>
          if isModuleComplete t (i : Int) then { s with modulesCompleted := s.modulesCompleted + 1 }
          else s) s).modulesCompleted
        = s.modulesCompleted + l.countP (fun (i : Nat) => isModuleComplete t (i : Int)) := by
    intro l
    induction l with
    | nil => intro s; simp
    | cons i rest ih =>
      intro s
      rw [List.foldl_cons, ih]
      cases hi : isModuleComplete t (i : Int)
      · simp [hi]
      · simp [hi]
        omega
  have h : (getStatistics now t).modulesCompleted
      = (List.range' 1 14).countP (fun (i : Nat) => isModuleComplete t (i : Int)) := by
    unfold getStatistics
    simp only []
    rw [key]
    simp
  rw [h]
  constructor
  · intro hpos
    have : 0 < (List.range' 1 14).countP (fun (i : Nat) => isModuleComplete t (i : Int)) := by
      omega
    obtain ⟨i, hi, hc⟩ := List.countP_pos_iff.mp this
    exact ⟨i, hi, hc⟩
  · rintro ⟨i, hi, hc⟩
    have : 0 < (List.range' 1 14).countP (fun (i : Nat) => isModuleComplete t (i : Int)) :=
      List.countP_pos_iff.mpr ⟨i, hi, hc⟩
    omega

/-- C19 (amended): for every document whose `totalLessonsCompleted` is 0,
`getAchievements()` holds neither `First Steps` nor `Halfway There` nor
`Full Stack Developer`; it holds `Module Master` exactly when `isModuleComplete(i)`
holds for one of the modules 1..14 (the counter `completed` of that module equals its
`total`), `Quiz Master` exactly when 10 quizzes are completed and `Perfect Scholar`
exactly when 5 quizzes have the best score 100, in this order.  On a tracker that
`initializeProgress` and the three mutating calls lead to, no module is complete while
`totalLessonsCompleted` is 0, so the list holds quiz achievements only, and it is empty
on the document that `initializeProgress` creates. -/
theorem getAchievements_without_lessons (now : Timestamp) (t : Tracker)
    (h0 : t.progress.totalLessonsCompleted = 0) :
    getAchievements now t
        = (if ∃ i ∈ List.range' 1 14, isModuleComplete t (i : Int) = true then [moduleMaster]
            else [])
          ++ (if 10 ≤ ((Obj.values t.progress.quizzes).filter
                (fun (quiz : QuizRecord) => quiz.completed)).length then [quizMaster] else [])
          ++ (if 5 ≤ perfectQuizzes t then [perfectScholar] else [])
    ∧ (∀ stringify : ProgressDocument → String, Reachable stringify t →
        (∀ i ∈ List.range' 1 14, isModuleComplete t (i : Int) = false)
        ∧ getAchievements now t
            = (if 10 ≤ ((Obj.values t.progress.quizzes).filter
                  (fun (quiz : QuizRecord) => quiz.completed)).length then [quizMaster] else [])
              ++ (if 5 ≤ perfectQuizzes t then [perfectScholar] else []))
    ∧ (∀ (stringify : ProgressDocument → String) (tUpdated tStarted tSaved : Timestamp)
        (t0 : Tracker),
        getAchievements now (initialTracker stringify tUpdated tStarted tSaved t0) = []) := by
  have main : ∀ u : Tracker, u.progress.totalLessonsCompleted = 0 →
      getAchievements now u
        = (if ∃ i ∈ List.range' 1 14, isModuleComplete u (i : Int) = true then [moduleMaster]
            else [])
          ++ (if 10 ≤ ((Obj.values u.progress.quizzes).filter
                (fun (quiz : QuizRecord) => quiz.completed)).length then [quizMaster] else [])
          ++ (if 5 ≤ perfectQuizzes u then [perfectScholar] else []) := by
    intro u hu
    obtain ⟨s1, s2, s3⟩ := getStatistics_completedLessons now u
    have s4 := getStatistics_modulesCompleted_pos now u
    unfold getAchievements
    simp only [s1, s2, s3, s4, hu, getOverallPercentage_zero u hu]
    split_ifs <;> first | omega | simp
  have reach : ∀ (stringify : ProgressDocument → String) (u : Tracker),
      Reachable stringify u → u.progress.totalLessonsCompleted = 0 →
      (∀ i ∈ List.range' 1 14, isModuleComplete u (i : Int) = false)
      ∧ getAchievements now u
          = (if 10 ≤ ((Obj.values u.progress.quizzes).filter
                (fun (quiz : QuizRecord) => quiz.completed)).length then [quizMaster] else [])
            ++ (if 5 ≤ perfectQuizzes u then [perfectScholar] else []) := by
    intro stringify u hr hu
    have hnone : ∀ i ∈ List.range' 1 14, isModuleComplete u (i : Int) = false := by
      intro i hi
      have hi' := List.mem_range'_1.mp hi
      exact (hr.consistent stringify u).no_module_complete u hu (i : Int) (by omega) (by omega)
    refine ⟨hnone, ?_⟩
    rw [main u hu]
    have hno : ¬ ∃ i ∈ List.range' 1 14, isModuleComplete u (i : Int) = true := by
      rintro ⟨i, hi, hc⟩
      rw [hnone i hi] at hc
      cases hc
    rw [if_neg hno]
    rfl
  refine ⟨main t h0, fun stringify hr => reach stringify t hr h0, ?_⟩
  intro stringify tUpdated tStarted tSaved t0
  rw [(reach stringify (initialTracker stringify tUpdated tStarted tSaved t0)
    (reachable_run stringify tUpdated tStarted tSaved t0 []) rfl).2]
  have hq : (initialTracker stringify tUpdated tStarted tSaved t0).progress.quizzes
      = (defaultDocument 0 0).quizzes := rfl
  unfold perfectQuizzes
  rw [hq]
  decide

/-- Witness of C19 (amended): the tracker after one quiz attempt. -/
theorem getAchievements_without_lessons_witness :
    getAchievements 5
        (run counterStringify [Op.quiz 1 10 10 0 0]
          (initialTracker counterStringify 1 2 3 blankTracker)) = [] :=
  ((getAchievements_without_lessons 5
    (run counterStringify [Op.quiz 1 10 10 0 0]
      (initialTracker counterStringify 1 2 3 blankTracker)) (by decide)).2.1 counterStringify
    (reachable_run counterStringify 1 2 3 blankTracker _)).2.trans (by decide)

/-- Counterexample to C19 as stated: after five quiz attempts of 10 out of 10 on the
fresh document no lesson is completed, and `getAchievements()` returns
`Perfect Scholar`. -/
theorem getAchievements_after_five_perfect_quizzes :
    (run counterStringify fivePerfectQuizzes
        (initialTracker counterStringify 1 2 3 blankTracker)).progress.totalLessonsCompleted = 0
    ∧ getAchievements 5
        (run counterStringify fivePerfectQuizzes
          (initialTracker counterStringify 1 2 3 blankTracker)) = [perfectScholar] := by
  decide

theorem mem_getAchievements_firstSteps (now : Timestamp) (t : Tracker)
    (h : 1 ≤ t.progress.totalLessonsCompleted) : firstSteps ∈ getAchievements now t := by
  obtain ⟨s1, -, -⟩ := getStatistics_completedLessons now t
  unfold getAchievements
  simp only [s1, h, if_true]
  split_ifs <;> simp

theorem totalLessonsCompleted_le_after_call (stringify : ProgressDocument → String) (op : Op)
    (t : Tracker) (hop : op.isIncomplete = false) :
    t.progress.totalLessonsCompleted ≤ (op.call stringify t).2.progress.totalLessonsCompleted := by
  cases op with
  | complete m l tDone tSaved =>
    simp only [Op.call]
    cases hm : Obj.get m t.progress.modules with
    | none => simp only [markLessonComplete, hm, le_refl]
    | some module =>
      cases hl : Obj.get l module.lessons with
      | none => simp only [markLessonComplete, hm, hl, le_refl]
      | some lesson =>
        rw [(markLessonComplete_spec stringify tDone tSaved m l t module lesson hm hl).2.1]
        split <;> omega
  | incomplete m l tSaved => simp [Op.isIncomplete] at hop
  | quiz m sc n tDate tSaved =>
    simp only [Op.call]
    rw [(recordQuizAttempt_modules stringify tDate tSaved m sc n t).2]

theorem totalLessonsCompleted_le_after_run (stringify : ProgressDocument → String)
    (ops : List Op) :
    ∀ t : Tracker, (∀ op ∈ ops, op.isIncomplete = false) →
      t.progress.totalLessonsCompleted ≤ (run stringify ops t).progress.totalLessonsCompleted := by
  induction ops with
  | nil => intro t _; exact le_refl _
  | cons op rest ih =>
    intro t h
    rw [run_cons]
    exact le_trans
      (totalLessonsCompleted_le_after_call stringify op t (h op (List.mem_cons_self _ _)))
      (ih _ (fun o ho => h o (List.mem_cons_of_mem _ ho)))

theorem default_lessons_fresh :
    ∀ p ∈ (defaultDocument 0 0).modules, ∀ q ∈ p.2.lessons, q.2 = freshLesson := by
  decide

/-- C20: after a `markLessonComplete` call that returns true on the tracker that
`initializeProgress` leaves, `getAchievements()` contains `First Steps`, and it still
contains it after any further sequence of `markLessonComplete` and
`recordQuizAttempt` calls. -/
theorem firstSteps_unlocked_and_kept (stringify : ProgressDocument → String)
    (tUpdated tStarted tSaved tDone tSaved1 now1 now2 : Timestamp) (t0 : Tracker)
    (moduleId lessonId : Int) (ops : List Op)
    (hfirst : (markLessonComplete stringify tDone tSaved1 moduleId lessonId
        (initialTracker stringify tUpdated tStarted tSaved t0)).1 = true)
    (hops : ∀ op ∈ ops, op.isIncomplete = false) :
    firstSteps ∈ getAchievements now1
        (markLessonComplete stringify tDone tSaved1 moduleId lessonId
          (initialTracker stringify tUpdated tStarted tSaved t0)).2
    ∧ firstSteps ∈ getAchievements now2
        (run stringify ops
          (markLessonComplete stringify tDone tSaved1 moduleId lessonId
            (initialTracker stringify tUpdated tStarted tSaved t0)).2) := by
  have h1 : (markLessonComplete stringify tDone tSaved1 moduleId lessonId
      (initialTracker stringify tUpdated tStarted tSaved t0)).2.progress.totalLessonsCompleted
        = 1 := by
    rw [markLessonComplete_fst] at hfirst
    obtain ⟨lesson, hl⟩ := Option.isSome_iff_exists.mp hfirst
    unfold lessonAt at hl
    cases hm : Obj.get moduleId
        (initialTracker stringify tUpdated tStarted tSaved t0).progress.modules with
    | none => simp [hm] at hl
    | some module =>
      rw [hm] at hl
      simp only [Option.some_bind] at hl
      have hfresh : lesson = freshLesson :=
        default_lessons_fresh (moduleId, module) (Obj.mem_of_get _ _ _ hm) (lessonId, lesson)
          (Obj.mem_of_get _ _ _ hl)
      rw [(markLessonComplete_spec stringify tDone tSaved1 moduleId lessonId _ module lesson
        hm hl).2.1, hfresh]
      rfl
  refine ⟨mem_getAchievements_firstSteps now1 _ (by rw [h1]), ?_⟩
  apply mem_getAchievements_firstSteps
  have := totalLessonsCompleted_le_after_run stringify ops
    (markLessonComplete stringify tDone tSaved1 moduleId lessonId
      (initialTracker stringify tUpdated tStarted tSaved t0)).2 hops
  rw [h1] at this
  exact this

/-- Witness of C20: lesson 1 of module 1, then another lesson and a quiz attempt. -/
theorem firstSteps_unlocked_and_kept_witness :
    firstSteps ∈ getAchievements 30
        (run counterStringify [Op.complete 2 3 12 13, Op.quiz 1 2 10 14 15]
          (markLessonComplete counterStringify 10 11 1 1
            (initialTracker counterStringify 1 2 3 blankTracker)).2) :=
  (firstSteps_unlocked_and_kept counterStringify 1 2 3 10 11 20 30 blankTracker 1 1
    [Op.complete 2 3 12 13, Op.quiz 1 2 10 14 15] (by decide) (by decide)).2

/-! ## The quiz engine -/

theorem Obj.get_set_self {α : Type} (k : Int) (v : α) (o : Obj α) :
    Obj.get k (Obj.set k v o) = some v := by
  induction o with
  | nil => simp [Obj.set, Obj.get]
  | cons p rest ih =>
    obtain ⟨k1, w⟩ := p
    by_cases h : k1 = k
    · simp [Obj.set, Obj.get, h]
    · simp [Obj.set, Obj.get, h, ih]

theorem Obj.get_set_ne {α : Type} (k k' : Int) (v : α) (o : Obj α) (h : k' ≠ k) :
    Obj.get k' (Obj.set k v o) = Obj.get k' o := by
  induction o with
  | nil =>
    have h' : ¬ k = k' := fun e => h e.symm
    simp [Obj.set, Obj.get, h']
  | cons p rest ih =>
    obtain ⟨k1, w⟩ := p
    by_cases h1 : k1 = k
    · subst h1
      have h' : ¬ k1 = k' := fun e => h e.symm
      simp [Obj.set, Obj.get, h']
    · by_cases h2 : k1 = k'
      · subst h2
        simp [Obj.set, Obj.get, h1]
      · simp [Obj.set, Obj.get, h1, h2, ih]

theorem recordAnswers_get_of_not_mem (k : Int) (rest : List (Int × String)) :
    ∀ q : QuizEngine, (∀ e ∈ rest, e.1 ≠ k) →
      Obj.get k (recordAnswers rest q).answers = Obj.get k q.answers := by
  induction rest with
  | nil => intro q _; rfl
  | cons e rest ih =>
    intro q h
    have h1 : e.1 ≠ k := h e (List.mem_cons_self _ _)
    have : recordAnswers (e :: rest) q = recordAnswers rest (recordAnswer e.1 e.2 q) := rfl
    rw [this, ih _ (fun e' he' => h e' (List.mem_cons_of_mem _ he'))]
    exact Obj.get_set_ne e.1 k e.2 q.answers (fun h' => h1 h'.symm)

/-- The answer stored for a question is the value of the last `change` event for it. -/
theorem recordAnswers_last_wins (k : Int) (v : String) (before rest : List (Int × String))
    (q : QuizEngine) (h : ∀ e ∈ rest, e.1 ≠ k) :
    Obj.get k (recordAnswers (before ++ (k, v) :: rest) q).answers = some v := by
  have : recordAnswers (before ++ (k, v) :: rest) q
      = recordAnswers rest (recordAnswer k v (recordAnswers before q)) := by
    simp [recordAnswers, List.foldl_append]
  rw [this, recordAnswers_get_of_not_mem k rest _ h]
  exact Obj.get_set_self k v _

theorem checkAnswer_eq (userAnswer : Option String) (correctAnswer : AnswerValue)
    (questionType : String) :
    checkAnswer userAnswer correctAnswer questionType
      = decide (userAnswer = some correctAnswer.toString) := by
  have h : (userAnswer == some correctAnswer.toString)
      = decide (userAnswer = some correctAnswer.toString) := by
    rw [Bool.eq_iff_iff]
    simp
  unfold checkAnswer
  split <;> exact h

theorem foldl_count {α : Type} (c : α → Bool) (l : List α) :
    ∀ a : Nat, l.foldl (fun score p => if c p then score + 1 else score) a = a + l.countP c := by
  induction l with
  | nil => intro a; rfl
  | cons x rest ih =>
    intro a
    rw [List.foldl_cons, ih, List.countP_cons]
    cases c x
    · simp
    · simp
      omega

theorem countCorrect_eq (q : QuizEngine) :
    countCorrect q
      = (q.questions.enumFrom 1).countP (fun (p : Nat × Question) =>
          decide (Obj.get (p.1 : Int) q.answers = some p.2.correct_answer.toString)) := by
  unfold countCorrect
  have h : (fun (score : Nat) (p : Nat × Question) =>
        if checkAnswer (Obj.get (p.1 : Int) q.answers) p.2.correct_answer p.2.type then score + 1
        else score)
      = (fun (score : Nat) (p : Nat × Question) =>
        if (fun (p : Nat × Question) =>
            decide (Obj.get (p.1 : Int) q.answers = some p.2.correct_answer.toString)) p
        then score + 1 else score) := by
    funext score p
    rw [checkAnswer_eq]
  rw [h, foldl_count]
  simp

theorem countCorrect_le (q : QuizEngine) : countCorrect q ≤ q.questions.length := by
  rw [countCorrect_eq]
  exact le_trans (List.countP_le_length _) (by simp)

/-! ## Persistence, loading, export and import -/

theorem saveProgress_storage (stringify : ProgressDocument → String) (now : Timestamp)
    (progress : ProgressDocument) (t : Tracker) :
    (saveProgress stringify now progress t).storage
        = some (stringify (saveProgress stringify now progress t).progress)
      ∧ (saveProgress stringify now progress t).progress.lastUpdated = now :=
  ⟨rfl, rfl⟩

/-- A call that returns true has saved the document it leaves. -/
theorem saved_after_success (stringify : ProgressDocument → String) (op : Op) (t : Tracker)
    (h : (op.call stringify t).1 = true) :
    (op.call stringify t).2.storage = some (stringify (op.call stringify t).2.progress)
      ∧ (op.call stringify t).2.progress.lastUpdated = op.savedAt := by
  cases op with
  | complete m l tDone tSaved =>
    simp only [Op.call, Op.savedAt] at h ⊢
    cases hm : Obj.get m t.progress.modules with
    | none => simp [markLessonComplete, hm] at h
    | some module =>
      cases hl : Obj.get l module.lessons with
      | none => simp [markLessonComplete, hm, hl] at h
      | some lesson =>
        simp only [markLessonComplete, hm, hl]
        exact saveProgress_storage _ _ _ _
  | incomplete m l tSaved =>
    simp only [Op.call, Op.savedAt] at h ⊢
    cases hm : Obj.get m t.progress.modules with
    | none => simp [markLessonIncomplete, hm] at h
    | some module =>
      cases hl : Obj.get l module.lessons with
      | none => simp [markLessonIncomplete, hm, hl] at h
      | some lesson =>
        simp only [markLessonIncomplete, hm, hl]
        exact saveProgress_storage _ _ _ _
  | quiz m sc n tDate tSaved =>
    simp only [Op.call, Op.savedAt] at h ⊢
    cases hq : Obj.get m t.progress.quizzes with
    | none => simp [recordQuizAttempt, hq] at h
    | some quiz =>
      simp only [recordQuizAttempt, hq]
      exact saveProgress_storage _ _ _ _

/-- No call changes `version` or `startedAt`. -/
theorem call_version (stringify : ProgressDocument → String) (op : Op) (t : Tracker) :
    (op.call stringify t).2.progress.version = t.progress.version
      ∧ (op.call stringify t).2.progress.startedAt = t.progress.startedAt := by
  cases op with
  | complete m l tDone tSaved =>
    simp only [Op.call]
    cases hm : Obj.get m t.progress.modules with
    | none => simp [markLessonComplete, hm]
    | some module =>
      cases hl : Obj.get l module.lessons with
      | none => simp [markLessonComplete, hm, hl]
      | some lesson =>
        simp only [markLessonComplete, hm, hl, saveProgress_progress]
        cases lesson.completed <;> exact ⟨rfl, rfl⟩
  | incomplete m l tSaved =>
    simp only [Op.call]
    cases hm : Obj.get m t.progress.modules with
    | none => simp [markLessonIncomplete, hm]
    | some module =>
      cases hl : Obj.get l module.lessons with
      | none => simp [markLessonIncomplete, hm, hl]
      | some lesson =>
        simp only [markLessonIncomplete, hm, hl, saveProgress_progress]
        cases lesson.completed <;> exact ⟨rfl, rfl⟩
  | quiz m sc n tDate tSaved =>
    simp only [Op.call]
    cases hq : Obj.get m t.progress.quizzes with
    | none => simp [recordQuizAttempt, hq]
    | some quiz =>
      simp only [recordQuizAttempt, hq, saveProgress_progress]
      exact ⟨trivial, trivial⟩

theorem run_version (stringify : ProgressDocument → String) (ops : List Op) :
    ∀ t : Tracker, (run stringify ops t).progress.version = t.progress.version := by
  induction ops with
  | nil => intro t; rfl
  | cons op rest ih =>
    intro t
    rw [run_cons, ih, (call_version stringify op t).1]

theorem reachable_version (stringify : ProgressDocument → String)
    (tUpdated tStarted tSaved : Timestamp) (t0 : Tracker) (ops : List Op) :
    (run stringify ops (initialTracker stringify tUpdated tStarted tSaved t0)).progress.version
      = "1.0.0" := by
  rw [run_version]
  rfl

/-! ### Numbers that JSON cannot carry -/

theorem numJs_of_isFinite (json : Bool) (n : JSNumber) (h : n.isFinite = true) :
    numJs json n = JsVal.num n := by
  simp [numJs, h]

theorem quizJs_of_finite (q : QuizRecord) (h1 : q.bestScore.isFinite = true)
    (h2 : ∀ a, q.lastAttempt = some a → a.percentage.isFinite = true) :
    quizJs true q = quizJs false q := by
  unfold quizJs
  rw [numJs_of_isFinite true _ h1, numJs_of_isFinite false _ h1]
  cases ha : q.lastAttempt with
  | none => rfl
  | some a =>
    simp only [attemptJs]
    rw [numJs_of_isFinite true _ (h2 a ha), numJs_of_isFinite false _ (h2 a ha)]

/-- A document without `NaN` and infinities comes back from its JSON text as it is. -/
theorem toJson_eq_toJs (d : ProgressDocument) (h : FiniteNumbers d) : toJson d = toJs d := by
  unfold toJson toJs docJs
  have : d.quizzes.map (fun p => (keyText p.1, quizJs true p.2))
      = d.quizzes.map (fun p => (keyText p.1, quizJs false p.2)) := by
    apply List.map_congr_left
    intro p hp
    rw [quizJs_of_finite p.2 (h p hp).1 (h p hp).2]
  rw [this]

theorem roundedPercent_isFinite (a : Int) (b : Nat) (hb : 0 < b) :
    (roundedPercent a b).isFinite = true := by
  have : b ≠ 0 := by omega
  simp [roundedPercent, this, JSNumber.isFinite]

theorem recordQuizAttempt_quizzes (stringify : ProgressDocument → String)
    (tDate tSaved : Timestamp) (moduleId : Int) (score totalQuestions : Nat) (t : Tracker)
    (quiz : QuizRecord) (hq : Obj.get moduleId t.progress.quizzes = some quiz) :
    (recordQuizAttempt stringify tDate tSaved moduleId score totalQuestions t).2.progress.quizzes
      = Obj.modify moduleId (fun quiz =>
          { completed :=
              quiz.completed
                || JSNumber.ge (roundedPercent (score : Int) totalQuestions) (JSNumber.fin 70),
            attempts := quiz.attempts + 1,
            bestScore :=
              if JSNumber.gt (roundedPercent (score : Int) totalQuestions) quiz.bestScore then
                roundedPercent (score : Int) totalQuestions
              else quiz.bestScore,
            lastAttempt := some
              { date := tDate, score := score, total := totalQuestions,
                percentage := roundedPercent (score : Int) totalQuestions } })
          t.progress.quizzes := by
  simp only [recordQuizAttempt, hq, saveProgress_progress]
  congr 1
  funext q
  cases h1 : JSNumber.gt (roundedPercent (score : Int) totalQuestions) q.bestScore <;>
    cases h2 : JSNumber.ge (roundedPercent (score : Int) totalQuestions) (JSNumber.fin 70) <;>
    simp

theorem finite_call (stringify : ProgressDocument → String) (op : Op) (t : Tracker)
    (hop : op.hasQuestions = true) (h : FiniteNumbers t.progress) :
    FiniteNumbers (op.call stringify t).2.progress := by
  cases op with
  | complete m l tDone tSaved =>
    unfold FiniteNumbers
    simp only [Op.call, markLessonComplete_quizzes]
    exact h
  | incomplete m l tSaved =>
    unfold FiniteNumbers
    simp only [Op.call, markLessonIncomplete_quizzes]
    exact h
  | quiz m sc n tDate tSaved =>
    have hn : 0 < n := by simpa [Op.hasQuestions] using hop
    have hfin := roundedPercent_isFinite (sc : Int) n hn
    simp only [Op.call]
    cases hq : Obj.get m t.progress.quizzes with
    | none =>
      simp only [recordQuizAttempt, hq]
      exact h
    | some quiz =>
      unfold FiniteNumbers
      rw [recordQuizAttempt_quizzes stringify tDate tSaved m sc n t quiz hq]
      intro p hp
      rcases Obj.mem_modify _ _ _ p hp with hp' | ⟨v, hv, rfl⟩
      · exact h p hp'
      · have hv' := h (m, v) (Obj.mem_of_get _ _ _ hv)
        refine ⟨?_, ?_⟩
        · simp only []
          split
          · exact hfin
          · exact hv'.1
        · intro a ha
          simp only [Option.some.injEq] at ha
          rw [← ha]
          exact hfin

theorem finite_run (stringify : ProgressDocument → String) (ops : List Op) :
    ∀ t : Tracker, (∀ op ∈ ops, op.hasQuestions = true) → FiniteNumbers t.progress →
      FiniteNumbers (run stringify ops t).progress := by
  induction ops with
  | nil => intro t _ h; exact h
  | cons op rest ih =>
    intro t hops h
    rw [run_cons]
    exact ih _ (fun o ho => hops o (List.mem_cons_of_mem _ ho))
      (finite_call stringify op t (hops op (List.mem_cons_self _ _)) h)

theorem default_finite : FiniteNumbers (defaultDocument 0 0) := by
  unfold FiniteNumbers
  decide

theorem finite_initialTracker (stringify : ProgressDocument → String)
    (tUpdated tStarted tSaved : Timestamp) (t0 : Tracker) :
    FiniteNumbers (initialTracker stringify tUpdated tStarted tSaved t0).progress :=
  default_finite

theorem ReachableWithQuestions.finite (stringifyVal : JsVal → String) (t : Tracker)
    (h : ReachableWithQuestions stringifyVal t) : FiniteNumbers t.progress := by
  obtain ⟨tUpdated, tStarted, tSaved, t0, ops, hops, rfl⟩ := h
  exact finite_run _ ops _ hops (finite_initialTracker _ tUpdated tStarted tSaved t0)

/-- At every moment between two calls the storage slot holds the text of the document
in memory. -/
theorem storage_run (stringify : ProgressDocument → String) (ops : List Op) :
    ∀ t : Tracker, t.storage = some (stringify t.progress) →
      (run stringify ops t).storage = some (stringify (run stringify ops t).progress) := by
  induction ops with
  | nil => intro t h; exact h
  | cons op rest ih =>
    intro t h
    rw [run_cons]
    apply ih
    cases hb : (op.call stringify t).1 with
    | true => exact (saved_after_success stringify op t hb).1
    | false =>
      have : (op.call stringify t).2 = t := by
        cases op with
        | complete m l tDone tSaved =>
          exact markLessonComplete_of_false stringify tDone tSaved m l t hb
        | incomplete m l tSaved =>
          exact markLessonIncomplete_of_false stringify tSaved m l t hb
        | quiz m sc n tDate tSaved =>
          exact recordQuizAttempt_of_false stringify tDate tSaved m sc n t hb
      rw [this]
      exact h

theorem Reachable.storage (stringify : ProgressDocument → String) (t : Tracker)
    (hr : Reachable stringify t) : t.storage = some (stringify t.progress) := by
  obtain ⟨tUpdated, tStarted, tSaved, t0, ops, rfl⟩ := hr
  exact storage_run stringify ops _ rfl

/-- What `loadProgress` does with a stored text that is not empty. -/
theorem loadProgress_stored (stringifyVal : JsVal → String) (parse : String → ParseResult)
    (tUpdated tStarted tSaved : Timestamp) (t : Tracker) (stored : String)
    (hs : t.storage = some stored) (hne : stored ≠ "") :
    loadProgress stringifyVal parse tUpdated tStarted tSaved t
      = match parse stored with
        | ParseResult.syntaxError => (LoadResult.raised, t)
        | ParseResult.value v => (LoadResult.returned v, t) := by
  simp [loadProgress, hs, hne]

/-- What `loadProgress` does with an absent or empty slot: the default document is
initialized, saved and returned. -/
theorem loadProgress_absent (stringifyVal : JsVal → String) (parse : String → ParseResult)
    (tUpdated tStarted tSaved : Timestamp) (t : Tracker)
    (hs : t.storage = none ∨ t.storage = some "") :
    loadProgress stringifyVal parse tUpdated tStarted tSaved t
      = (LoadResult.returned
          (toJs (initialTracker (docText stringifyVal) tUpdated tStarted tSaved t).progress),
         initialTracker (docText stringifyVal) tUpdated tStarted tSaved t)
      ∧ (initialTracker (docText stringifyVal) tUpdated tStarted tSaved t).storage
          = some (stringifyVal
              (toJs (initialTracker (docText stringifyVal) tUpdated tStarted tSaved t).progress))
      ∧ (∀ p ∈ (initialTracker (docText stringifyVal) tUpdated tStarted tSaved t).progress.modules,
          ∀ q ∈ p.2.lessons, q.2 = freshLesson) := by
  refine ⟨?_, rfl, ?_⟩
  · rcases hs with hs | hs
    · simp only [loadProgress, hs]
      rfl
    · simp only [loadProgress, hs]
      rfl
  · have hm : (initialTracker (docText stringifyVal) tUpdated tStarted tSaved t).progress.modules
        = (defaultDocument 0 0).modules := defaultDocument_modules tUpdated tStarted
    rw [hm]
    exact default_lessons_fresh

/-- C13 (amended): on every tracker that `initializeProgress` and the calls
`markLessonComplete`, `markLessonIncomplete` and `recordQuizAttempt` lead to, the storage
slot holds the text that `JSON.stringify` makes of the document in memory; a call that
returns true (and `initializeProgress`) has set `lastUpdated` to the clock reading of its
save before the text was made.  When the host reads this text back as the JSON image of
the document, `loadProgress` on a newly constructed tracker with this storage returns
that image and saves nothing; the image equals the document in memory when no quiz
attempt was made on a quiz without questions. -/
theorem mutation_persisted (stringifyVal : JsVal → String) (parse : String → ParseResult)
    (t : Tracker) (a b c : Timestamp) (u : Tracker)
    (hr : Reachable (docText stringifyVal) t)
    (hu : u.storage = t.storage)
    (htext : stringifyVal (toJs t.progress) ≠ "")
    (hparse : parse (stringifyVal (toJs t.progress)) = ParseResult.value (toJson t.progress)) :
    t.storage = some (stringifyVal (toJs t.progress))
    ∧ (∀ op : Op, (op.call (docText stringifyVal) t).1 = true →
        (op.call (docText stringifyVal) t).2.progress.lastUpdated = op.savedAt
        ∧ (op.call (docText stringifyVal) t).2.storage
            = some (stringifyVal (toJs (op.call (docText stringifyVal) t).2.progress)))
    ∧ (∀ (tUpdated tStarted tSaved : Timestamp) (t0 : Tracker),
        (initialTracker (docText stringifyVal) tUpdated tStarted tSaved t0).progress.lastUpdated
          = tSaved)
    ∧ loadProgress stringifyVal parse a b c u = (LoadResult.returned (toJson t.progress), u)
    ∧ (ReachableWithQuestions stringifyVal t → toJson t.progress = toJs t.progress) := by
  have hst := Reachable.storage (docText stringifyVal) t hr
  refine ⟨hst, ?_, ?_, ?_, ?_⟩
  · intro op hop
    have h := saved_after_success (docText stringifyVal) op t hop
    exact ⟨h.2, h.1⟩
  · intro tUpdated tStarted tSaved t0
    rfl
  · rw [loadProgress_stored stringifyVal parse a b c u (stringifyVal (toJs t.progress))
      (hu.trans hst) htext, hparse]
  · intro hq
    exact toJson_eq_toJs _ (hq.finite stringifyVal t)

/-- Witness of C13 (amended): lesson 1 of module 1 completed on the fresh document, then
a new tracker constructed over the same storage. -/
theorem mutation_persisted_witness :
    (run (docText markStringify) [Op.complete 1 1 5 6]
        (initialTracker (docText markStringify) 1 2 3 blankTracker)).storage = some "json"
    ∧ (loadProgress markStringify
        (echoParse (toJson (run (docText markStringify) [Op.complete 1 1 5 6]
          (initialTracker (docText markStringify) 1 2 3 blankTracker)).progress)) 7 8 9
        { blankTracker with storage := some "json" }).1
      = LoadResult.returned
          (toJson (run (docText markStringify) [Op.complete 1 1 5 6]
            (initialTracker (docText markStringify) 1 2 3 blankTracker)).progress) :=
  have h := mutation_persisted markStringify
    (echoParse (toJson (run (docText markStringify) [Op.complete 1 1 5 6]
      (initialTracker (docText markStringify) 1 2 3 blankTracker)).progress))
    (run (docText markStringify) [Op.complete 1 1 5 6]
      (initialTracker (docText markStringify) 1 2 3 blankTracker)) 7 8 9
    { blankTracker with storage := some "json" }
    (reachable_run (docText markStringify) 1 2 3 blankTracker [Op.complete 1 1 5 6])
    rfl (by decide) rfl
  ⟨h.1, congrArg Prod.fst h.2.2.2.1⟩

/-- Counterexample to C13 as stated: after `recordQuizAttempt(3, 0, 0)` on the fresh
document the call has returned true and the storage holds the text of the document,
but the document that `loadProgress` returns on a new tracker has
`quizzes[3].lastAttempt.percentage` equal to `null`, where the document in memory has
`NaN`. -/
theorem load_after_empty_quiz :
    emptyQuizTracker = run (docText markStringify) [Op.quiz 3 0 0 5 6]
        (initialTracker (docText markStringify) 1 2 3 blankTracker)
    ∧ (recordQuizAttempt (docText markStringify) 5 6 3 0 0
        (initialTracker (docText markStringify) 1 2 3 blankTracker)).1 = true
    ∧ emptyQuizTracker.storage = some (markStringify (toJs emptyQuizTracker.progress))
    ∧ (loadProgress markStringify (echoParse (toJson emptyQuizTracker.progress)) 7 8 9
        { blankTracker with storage := emptyQuizTracker.storage }).1
      = LoadResult.returned (toJson emptyQuizTracker.progress)
    ∧ percentageOfQuiz3 (toJson emptyQuizTracker.progress) = some JsVal.null
    ∧ percentageOfQuiz3 (toJs emptyQuizTracker.progress) = some (JsVal.num JSNumber.nan)
    ∧ toJson emptyQuizTracker.progress ≠ toJs emptyQuizTracker.progress := by
  refine ⟨rfl, rfl, rfl, rfl, rfl, rfl, ?_⟩
  intro h
  have h2 : percentageOfQuiz3 (toJson emptyQuizTracker.progress)
      = percentageOfQuiz3 (toJs emptyQuizTracker.progress) := congrArg percentageOfQuiz3 h
  have h3 : (some JsVal.null : Option JsVal) = some (JsVal.num JSNumber.nan) := h2
  cases h3


theorem setFieldIn_lastUpdated (json : Bool) (d : ProgressDocument) (now : Timestamp) :
    (docJs json d).setField "lastUpdated" (JsVal.str (timeText now))
      = docJs json { d with lastUpdated := now } := by
  simp [docJs, JsVal.setField, setFieldIn]

/-- An import is accepted exactly when the file parses to a value whose `version` and
`modules` are truthy; then the value is saved, and otherwise nothing changes. -/
theorem importProgress_spec (stringifyVal : JsVal → String) (parse : String → ParseResult)
    (now : Timestamp) (fileText : String) (t : RawTracker) :
    ((importProgress stringifyVal parse now fileText t).1 = ImportOutcome.imported
      ↔ ∃ v, parse fileText = ParseResult.value v
          ∧ truthyField (v.getField "version") = true
          ∧ truthyField (v.getField "modules") = true)
    ∧ (∀ v, parse fileText = ParseResult.value v →
        truthyField (v.getField "version") = true →
        truthyField (v.getField "modules") = true →
        importProgress stringifyVal parse now fileText t
          = (ImportOutcome.imported, rawSaveProgress stringifyVal now v t))
    ∧ ((importProgress stringifyVal parse now fileText t).1 ≠ ImportOutcome.imported →
        (importProgress stringifyVal parse now fileText t).2 = t) := by
  cases hp : parse fileText with
  | syntaxError =>
    simp [importProgress, hp]
  | value v =>
    cases v with
    | null => simp [importProgress, hp, JsVal.getField, truthyField]
    | bool b => simp [importProgress, hp, JsVal.getField, truthyField]
    | num n => simp [importProgress, hp, JsVal.getField, truthyField]
    | str s => simp [importProgress, hp, JsVal.getField, truthyField]
    | arr items => simp [importProgress, hp, JsVal.getField, truthyField]
    | obj fields =>
      simp only [importProgress, hp]
      by_cases h : (truthyField ((JsVal.obj fields).getField "version")
          && truthyField ((JsVal.obj fields).getField "modules")) = true
      · rw [if_pos h]
        simp only [Bool.and_eq_true] at h
        simp [h.1, h.2]
      · rw [if_neg h]
        simp only [Bool.and_eq_true] at h
        refine ⟨?_, ?_, ?_⟩
        · simp only [reduceCtorEq, false_iff]
          rintro ⟨v, hv, h1, h2⟩
          cases hv
          exact h ⟨h1, h2⟩
        · intro v hv h1 h2
          cases hv
          exact absurd ⟨h1, h2⟩ h
        · intro _
          trivial

theorem truthyField_iff (o : Option JsVal) :
    truthyField o = true ↔ ∃ x, o = some x ∧ x.truthy = true := by
  cases o with
  | none => simp [truthyField]
  | some x => simp [truthyField]

theorem Reachable.version (stringify : ProgressDocument → String) (t : Tracker)
    (hr : Reachable stringify t) : t.progress.version = "1.0.0" := by
  obtain ⟨tUpdated, tStarted, tSaved, t0, ops, rfl⟩ := hr
  exact reachable_version stringify tUpdated tStarted tSaved t0 ops

theorem toJson_truthy (d : ProgressDocument) (hv : d.version = "1.0.0") :
    truthyField ((toJson d).getField "version") = true
      ∧ truthyField ((toJson d).getField "modules") = true := by
  simp [toJson, docJs, JsVal.getField, truthyField, JsVal.truthy, hv]

/-- C14 (amended): for the document `d` of every tracker that `initializeProgress` and
the three mutating calls lead to, importing the text that `exportProgress` makes of `d`
(the host reading it back as the JSON image of `d`) is accepted, and leaves in memory
the JSON image of `d` with `lastUpdated` set to the time of the import and in the
storage slot the text of that value; when no quiz attempt was made on a quiz without
questions this is `d` itself in every field except `lastUpdated`. -/
theorem export_import_round_trip (stringifyVal prettyVal : JsVal → String)
    (parse : String → ParseResult) (now : Timestamp) (t : Tracker)
    (hr : Reachable (docText stringifyVal) t)
    (hparse : parse (prettyVal (toJs t.progress)) = ParseResult.value (toJson t.progress)) :
    (importProgress stringifyVal parse now (exportProgress prettyVal t) t.toRaw).1
        = ImportOutcome.imported
    ∧ (importProgress stringifyVal parse now (exportProgress prettyVal t) t.toRaw).2.progress
        = toJson { t.progress with lastUpdated := now }
    ∧ (importProgress stringifyVal parse now (exportProgress prettyVal t) t.toRaw).2.storage
        = some (stringifyVal (toJson { t.progress with lastUpdated := now }))
    ∧ (ReachableWithQuestions stringifyVal t →
        (importProgress stringifyVal parse now (exportProgress prettyVal t) t.toRaw).2.progress
            = toJs { t.progress with lastUpdated := now }
          ∧ (importProgress stringifyVal parse now (exportProgress prettyVal t) t.toRaw).2.storage
            = some (stringifyVal (toJs { t.progress with lastUpdated := now }))) := by
  have htr := toJson_truthy t.progress (hr.version (docText stringifyVal) t)
  have himp := (importProgress_spec stringifyVal parse now (exportProgress prettyVal t)
    t.toRaw).2.1 (toJson t.progress) hparse htr.1 htr.2
  have hset : (toJson t.progress).setField "lastUpdated" (JsVal.str (timeText now))
      = toJson { t.progress with lastUpdated := now } :=
    setFieldIn_lastUpdated true t.progress now
  have hp : (importProgress stringifyVal parse now (exportProgress prettyVal t) t.toRaw).2.progress
      = toJson { t.progress with lastUpdated := now } := by
    rw [himp]
    exact hset
  have hs : (importProgress stringifyVal parse now (exportProgress prettyVal t) t.toRaw).2.storage
      = some (stringifyVal (toJson { t.progress with lastUpdated := now })) := by
    rw [himp]
    exact congrArg (fun v => some (stringifyVal v)) hset
  refine ⟨by rw [himp], hp, hs, ?_⟩
  intro hq
  have hfin : FiniteNumbers { t.progress with lastUpdated := now } :=
    hq.finite stringifyVal t
  rw [hp, hs, toJson_eq_toJs _ hfin]
  exact ⟨rfl, rfl⟩

/-- Witness of C14 (amended): the document after lesson 1 of module 1 was completed and
7 of 10 scored on quiz 3. -/
theorem export_import_round_trip_witness :
    (importProgress markStringify
        (echoParse (toJson (run (docText markStringify) [Op.complete 1 1 5 6, Op.quiz 3 7 10 7 8]
          (initialTracker (docText markStringify) 1 2 3 blankTracker)).progress)) 9
        (exportProgress markStringify
          (run (docText markStringify) [Op.complete 1 1 5 6, Op.quiz 3 7 10 7 8]
            (initialTracker (docText markStringify) 1 2 3 blankTracker)))
        (run (docText markStringify) [Op.complete 1 1 5 6, Op.quiz 3 7 10 7 8]
          (initialTracker (docText markStringify) 1 2 3 blankTracker)).toRaw).1
      = ImportOutcome.imported :=
  (export_import_round_trip markStringify markStringify
    (echoParse (toJson (run (docText markStringify) [Op.complete 1 1 5 6, Op.quiz 3 7 10 7 8]
      (initialTracker (docText markStringify) 1 2 3 blankTracker)).progress)) 9
    (run (docText markStringify) [Op.complete 1 1 5 6, Op.quiz 3 7 10 7 8]
      (initialTracker (docText markStringify) 1 2 3 blankTracker))
    (reachable_run (docText markStringify) 1 2 3 blankTracker
      [Op.complete 1 1 5 6, Op.quiz 3 7 10 7 8])
    rfl).1

/-- Counterexample to C14 as stated: the document after `recordQuizAttempt(3, 0, 0)` on
the fresh document is exported and imported again; the import is accepted, and the
document then in memory has `quizzes[3].lastAttempt.percentage` equal to `null`, where
the exported document had `NaN`. -/
theorem import_after_empty_quiz :
    emptyQuizTracker = run (docText markStringify) [Op.quiz 3 0 0 5 6]
        (initialTracker (docText markStringify) 1 2 3 blankTracker)
    ∧ (importProgress markStringify (echoParse (toJson emptyQuizTracker.progress)) 9
        (exportProgress markStringify emptyQuizTracker) emptyQuizTracker.toRaw).1
      = ImportOutcome.imported
    ∧ percentageOfQuiz3
        (importProgress markStringify (echoParse (toJson emptyQuizTracker.progress)) 9
          (exportProgress markStringify emptyQuizTracker) emptyQuizTracker.toRaw).2.progress
      = some JsVal.null
    ∧ percentageOfQuiz3 emptyQuizTracker.toRaw.progress = some (JsVal.num JSNumber.nan) :=
  ⟨rfl, rfl, rfl, rfl⟩

/-- C15 (amended): `importProgress` replaces the document in memory and the stored text
if and only if the file parses as JSON and the parsed value has a `version` and a
`modules` property whose values are truthy; the document is then the parsed value with
`lastUpdated` set to the time of the import, and the storage slot holds its text.  In
every other case the import is rejected and the document in memory, the storage slot
and the events are left as they were. -/
theorem importProgress_accepts_iff_truthy (stringifyVal : JsVal → String)
    (parse : String → ParseResult) (now : Timestamp) (fileText : String) (t : RawTracker) :
    ((importProgress stringifyVal parse now fileText t).1 = ImportOutcome.imported
      ↔ ∃ v, parse fileText = ParseResult.value v
          ∧ (∃ x, v.getField "version" = some x ∧ x.truthy = true)
          ∧ (∃ y, v.getField "modules" = some y ∧ y.truthy = true))
    ∧ (∀ v, parse fileText = ParseResult.value v →
        (importProgress stringifyVal parse now fileText t).1 = ImportOutcome.imported →
        (importProgress stringifyVal parse now fileText t).2.progress
            = v.setField "lastUpdated" (JsVal.str (timeText now))
          ∧ (importProgress stringifyVal parse now fileText t).2.storage
            = some (stringifyVal (v.setField "lastUpdated" (JsVal.str (timeText now)))))
    ∧ ((importProgress stringifyVal parse now fileText t).1 ≠ ImportOutcome.imported →
        (importProgress stringifyVal parse now fileText t).2 = t) := by
  obtain ⟨h1, h2, h3⟩ := importProgress_spec stringifyVal parse now fileText t
  refine ⟨?_, ?_, h3⟩
  · rw [h1]
    simp only [truthyField_iff]
  · intro v hv himp
    obtain ⟨w, hw, hw1, hw2⟩ := h1.1 himp
    rw [hv] at hw
    cases hw
    rw [h2 v hv hw1 hw2]
    exact ⟨rfl, rfl⟩

/-- Counterexample to C15 as stated: a file whose JSON value has a `version` and a
`modules` property, the `version` being the empty string, is rejected as an invalid
format and nothing changes. -/
theorem import_empty_version :
    (emptyVersionFile.getField "version").isSome = true
    ∧ (emptyVersionFile.getField "modules").isSome = true
    ∧ (importProgress markStringify (echoParse emptyVersionFile) 9 "file"
        blankTracker.toRaw).1 = ImportOutcome.invalidFormat
    ∧ (importProgress markStringify (echoParse emptyVersionFile) 9 "file"
        blankTracker.toRaw).2 = blankTracker.toRaw :=
  ⟨rfl, rfl, rfl, rfl⟩

/-- C16, the failing input: with a lone opening brace in the storage slot `JSON.parse`
raises its `SyntaxError`, and `loadProgress` lets it through, the tracker being left as
it was; `importProgress` on the same text catches the error and reports it. -/
theorem loadProgress_malformed_storage :
    braceTracker.storage = some "\x7b"
    ∧ braceParse "\x7b" = ParseResult.syntaxError
    ∧ loadProgress markStringify braceParse 1 2 3 braceTracker
        = (LoadResult.raised, braceTracker)
    ∧ (importProgress markStringify braceParse 9 "\x7b" blankTracker.toRaw).1
        = ImportOutcome.importError :=
  ⟨rfl, rfl, rfl, rfl⟩

/-! ## Constructing a tracker and submitting a quiz

Reading a value as a document is the inverse of `toJs`. -/

theorem digitChar_value (k : Nat) (h : k < 10) : (Nat.digitChar k).toNat - 48 = k := by
  interval_cases k <;> rfl

theorem digitsValue_cons (a : Nat) (c : Char) (cs : List Char) :
    digitsValue a (c :: cs) = digitsValue (a * 10 + (c.toNat - 48)) cs :=
  rfl

/-- The digits that `Nat.toDigitsCore` puts before `ds` denote `n`. -/
theorem digitsValue_toDigitsCore : ∀ (fuel n : Nat) (ds : List Char), n < fuel →
    digitsValue 0 (Nat.toDigitsCore 10 fuel n ds) = digitsValue n ds := by
  intro fuel
  induction fuel with
  | zero => intro n ds h; omega
  | succ fuel ih =>
    intro n ds h
    rw [Nat.toDigitsCore]
    split
    · rename_i hz
      rw [digitsValue_cons, digitChar_value _ (Nat.mod_lt _ (by norm_num))]
      congr 1
      omega
    · rename_i hz
      rw [ih (n / 10) _ (by omega), digitsValue_cons,
        digitChar_value _ (Nat.mod_lt _ (by norm_num))]
      congr 1
      omega

theorem timeText_data (n : Nat) : (timeText n).data = Nat.toDigits 10 n :=
  rfl

/-- The text of a clock reading is read back as that reading. -/
theorem natOfText_timeText (n : Nat) : natOfText (timeText n) = some n := by
  have h : digitsValue 0 (timeText n).data = n := by
    rw [timeText_data]
    unfold Nat.toDigits
    rw [digitsValue_toDigitsCore (n + 1) n [] (by omega)]
    rfl
  unfold natOfText
  simp only [h, if_true]

theorem digitChar_ne_minus (k : Nat) (h : k < 10) : Nat.digitChar k ≠ Char.ofNat 45 := by
  interval_cases k <;> decide

/-- Every character that `Nat.toDigitsCore` puts before `ds` is a digit. -/
theorem toDigitsCore_digits : ∀ (fuel n : Nat) (ds : List Char) (c : Char),
    c ∈ Nat.toDigitsCore 10 fuel n ds → c ∈ ds ∨ c ≠ Char.ofNat 45 := by
  intro fuel
  induction fuel with
  | zero =>
    intro n ds c h
    rw [Nat.toDigitsCore] at h
    exact Or.inl h
  | succ fuel ih =>
    intro n ds c h
    rw [Nat.toDigitsCore] at h
    split at h
    · rcases List.mem_cons.mp h with rfl | h
      · exact Or.inr (digitChar_ne_minus _ (Nat.mod_lt _ (by norm_num)))
      · exact Or.inl h
    · rcases ih _ _ c h with h | h
      · rcases List.mem_cons.mp h with rfl | h
        · exact Or.inr (digitChar_ne_minus _ (Nat.mod_lt _ (by norm_num)))
        · exact Or.inl h
      · exact Or.inr h

theorem digitsValue_toDigits (n : Nat) : digitsValue 0 (Nat.toDigits 10 n) = n := by
  unfold Nat.toDigits
  rw [digitsValue_toDigitsCore (n + 1) n [] (by omega)]
  rfl

theorem keyText_ofNat_data (m : Nat) : (keyText (Int.ofNat m)).data = Nat.toDigits 10 m :=
  rfl

theorem keyText_negSucc_data (m : Nat) :
    (keyText (Int.negSucc m)).data = Char.ofNat 45 :: Nat.toDigits 10 (m + 1) :=
  rfl

/-- The property key of an integer is read back as that integer. -/
theorem intOfText_keyText (i : Int) : intOfText (keyText i) = some i := by
  unfold intOfText
  cases i with
  | ofNat m =>
    have hv := digitsValue_toDigits m
    rw [keyText_ofNat_data]
    cases hd : Nat.toDigits 10 m with
    | nil =>
      rw [hd] at hv
      have hm : m = 0 := hv.symm
      subst hm
      simp
    | cons c rest =>
      have hc : c ≠ Char.ofNat 45 := by
        have hmem : c ∈ Nat.toDigitsCore 10 (m + 1) m [] := by
          have : c ∈ Nat.toDigits 10 m := by rw [hd]; exact List.mem_cons_self _ _
          exact this
        rcases toDigitsCore_digits _ _ _ c hmem with h | h
        · cases h
        · exact h
      rw [hd] at hv
      simp only [hc, if_false, hv]
      simp
  | negSucc m =>
    have hv := digitsValue_toDigits (m + 1)
    rw [keyText_negSucc_data]
    simp only [if_true, hv]
    have : -((m + 1 : Nat) : Int) = Int.negSucc m := by
      rw [Int.negSucc_eq]
      push_cast
      ring
    rw [this]
    simp

theorem entriesOfJs_map {α : Type} (f : JsVal → Option α) (g : α → JsVal) (l : Obj α)
    (h : ∀ p ∈ l, f (g p.2) = some p.2) :
    entriesOfJs f (l.map (fun p => (keyText p.1, g p.2))) = some l := by
  induction l with
  | nil => rfl
  | cons p rest ih =>
    have hp := h p (List.mem_cons_self _ _)
    have hr := ih (fun x hx => h x (List.mem_cons_of_mem _ hx))
    simp only [List.map_cons, entriesOfJs, intOfText_keyText, hp, hr]

theorem lessonOfJs_lessonJs (l : LessonState) : lessonOfJs (lessonJs l) = some l := by
  cases hc : l.completedAt with
  | none =>
    simp only [lessonJs, hc, lessonOfJs, and_self, if_true]
    cases l
    simp only at hc
    subst hc
    rfl
  | some t =>
    simp only [lessonJs, hc, lessonOfJs, and_self, if_true, natOfText_timeText, Option.map_some']
    cases l
    simp only at hc
    subst hc
    rfl

theorem moduleOfJs_moduleJs (m : ModuleProgress) : moduleOfJs (moduleJs m) = some m := by
  simp only [moduleJs, moduleOfJs, and_self, if_true,
    entriesOfJs_map lessonOfJs lessonJs m.lessons (fun p _ => lessonOfJs_lessonJs p.2),
    Option.map_some']

theorem attemptOfJs_attemptJs (a : Attempt) : attemptOfJs (attemptJs false a) = some a := by
  have h1 : (0 : Int) ≤ (a.score : Int) := Int.natCast_nonneg _
  have h2 : (0 : Int) ≤ (a.total : Int) := Int.natCast_nonneg _
  simp [attemptJs, numJs, attemptOfJs, natOfText_timeText]

theorem quizOfJs_quizJs (q : QuizRecord) : quizOfJs (quizJs false q) = some q := by
  cases hl : q.lastAttempt with
  | none =>
    simp only [quizJs, hl, quizOfJs, numJs, Bool.false_and, Bool.false_eq_true, if_false,
      and_self, if_true]
    cases q
    simp only at hl
    subst hl
    rfl
  | some a =>
    have ha := attemptOfJs_attemptJs a
    simp only [quizJs, hl, quizOfJs, numJs, Bool.false_and, Bool.false_eq_true, if_false,
      and_self, if_true]
    simp only [attemptJs, numJs, Bool.false_and, Bool.false_eq_true, if_false] at ha ⊢
    rw [ha]
    cases q
    simp only at hl
    subst hl
    rfl

/-- Every document of the data model is read back from its value. -/
theorem documentOfJs_toJs (d : ProgressDocument) : documentOfJs (toJs d) = some d := by
  simp only [toJs, docJs, documentOfJs, and_self, if_true, natOfText_timeText,
    entriesOfJs_map moduleOfJs moduleJs d.modules (fun p _ => moduleOfJs_moduleJs p.2),
    entriesOfJs_map quizOfJs (quizJs false) d.quizzes (fun p _ => quizOfJs_quizJs p.2)]


theorem natOfText_sound (s : String) (n : Nat) (h : natOfText s = some n) : timeText n = s := by
  unfold natOfText at h
  simp only [] at h
  split at h
  · rename_i hs
    cases h
    exact hs
  · cases h

theorem intOfText_sound (s : String) (i : Int) (h : intOfText s = some i) : keyText i = s := by
  unfold intOfText at h
  simp only [] at h
  split at h
  · rename_i hs
    cases h
    exact hs
  · cases h

theorem entriesOfJs_sound {α : Type} (f : JsVal → Option α) (g : α → JsVal)
    (hf : ∀ v x, f v = some x → g x = v) :
    ∀ (fields : List (String × JsVal)) (o : Obj α), entriesOfJs f fields = some o →
      o.map (fun p => (keyText p.1, g p.2)) = fields := by
  intro fields
  induction fields with
  | nil =>
    intro o h
    simp only [entriesOfJs, Option.some.injEq] at h
    subst h
    rfl
  | cons e rest ih =>
    intro o h
    obtain ⟨k, v⟩ := e
    unfold entriesOfJs at h
    cases hk : intOfText k with
    | none => simp [hk] at h
    | some i =>
      cases hv : f v with
      | none => simp [hk, hv] at h
      | some x =>
        cases hr : entriesOfJs f rest with
        | none => simp [hk, hv, hr] at h
        | some o' =>
          simp only [hk, hv, hr, Option.some.injEq] at h
          subst h
          simp only [List.map_cons, intOfText_sound k i hk, hf v x hv, ih o' hr]

theorem lessonOfJs_sound (v : JsVal) (l : LessonState) (h : lessonOfJs v = some l) :
    lessonJs l = v := by
  unfold lessonOfJs at h
  split at h
  · split at h
    · rename_i hk
      obtain ⟨rfl, rfl, rfl⟩ := hk
      split at h
      · cases h
        rfl
      · rename_i s
        cases hn : natOfText s with
        | none => simp [hn] at h
        | some t =>
          simp only [hn, Option.map_some', Option.some.injEq] at h
          subst h
          simp only [lessonJs, natOfText_sound s t hn]
      · cases h
    · cases h
  · cases h

theorem moduleOfJs_sound (v : JsVal) (m : ModuleProgress) (h : moduleOfJs v = some m) :
    moduleJs m = v := by
  unfold moduleOfJs at h
  split at h
  · split at h
    · rename_i lessons hk
      obtain ⟨rfl, rfl, rfl⟩ := hk
      cases he : entriesOfJs lessonOfJs lessons with
      | none => simp [he] at h
      | some l =>
        simp only [he, Option.map_some', Option.some.injEq] at h
        subst h
        simp only [moduleJs, entriesOfJs_sound lessonOfJs lessonJs lessonOfJs_sound lessons l he]
    · cases h
  · cases h

theorem attemptOfJs_sound (v : JsVal) (a : Attempt) (h : attemptOfJs v = some a) :
    attemptJs false a = v := by
  unfold attemptOfJs at h
  split at h
  · split at h
    · rename_i hk
      obtain ⟨rfl, rfl, rfl, rfl, hs, ht⟩ := hk
      rw [Option.map_eq_some'] at h
      obtain ⟨t, hn, rfl⟩ := h
      simp [attemptJs, numJs, natOfText_sound _ t hn, Int.toNat_of_nonneg hs,
        Int.toNat_of_nonneg ht]
    · cases h
  · cases h

theorem quizOfJs_sound (v : JsVal) (q : QuizRecord) (h : quizOfJs v = some q) :
    quizJs false q = v := by
  unfold quizOfJs at h
  split at h
  · split at h
    · rename_i hk
      obtain ⟨rfl, rfl, rfl, rfl⟩ := hk
      split at h
      · cases h
        simp [quizJs, numJs]
      · rw [Option.map_eq_some'] at h
        obtain ⟨a, ha, rfl⟩ := h
        simp [quizJs, numJs, attemptOfJs_sound _ a ha]
    · cases h
  · cases h

/-- A value that is read as the document `d` is the value of `d`. -/
theorem documentOfJs_sound (v : JsVal) (d : ProgressDocument) (h : documentOfJs v = some d) :
    toJs d = v := by
  unfold documentOfJs at h
  split at h
  · split at h
    · rename_i hk
      obtain ⟨rfl, rfl, rfl, rfl, rfl, rfl⟩ := hk
      split at h
      · rename_i h1 h2 h3 h4
        cases h
        simp only [toJs, docJs, natOfText_sound _ _ h1, natOfText_sound _ _ h4,
          entriesOfJs_sound moduleOfJs moduleJs moduleOfJs_sound _ _ h2,
          entriesOfJs_sound quizOfJs (quizJs false) quizOfJs_sound _ _ h3]
      · cases h
    · cases h
  · cases h

/-- The values that are read as a document are exactly the values of documents. -/
theorem documentOfJs_eq_some_iff (v : JsVal) (d : ProgressDocument) :
    documentOfJs v = some d ↔ toJs d = v :=
  ⟨documentOfJs_sound v d, fun h => h ▸ documentOfJs_toJs d⟩


/-- With an absent or empty slot the constructor builds the tracker that
`initializeProgress` leaves. -/
theorem Tracker.new_absent (stringifyVal : JsVal → String) (parse : String → ParseResult)
    (tUpdated tStarted tSaved : Timestamp) (slot : Tracker)
    (hs : slot.storage = none ∨ slot.storage = some "") :
    Tracker.new stringifyVal parse tUpdated tStarted tSaved slot
      = Construction.built (initialTracker (docText stringifyVal) tUpdated tStarted tSaved slot) := by
  have hl := (loadProgress_absent stringifyVal parse tUpdated tStarted tSaved slot hs).1
  unfold Tracker.new
  rw [hl]
  simp only [documentOfJs_toJs]

/-- The constructor builds a tracker exactly when `loadProgress()` returns the value of
a document of the data model, and the tracker then holds that document. -/
theorem Tracker.new_built_iff (stringifyVal : JsVal → String) (parse : String → ParseResult)
    (tUpdated tStarted tSaved : Timestamp) (slot : Tracker) :
    (∃ t, Tracker.new stringifyVal parse tUpdated tStarted tSaved slot = Construction.built t)
      ↔ ∃ d, (loadProgress stringifyVal parse tUpdated tStarted tSaved slot).1
          = LoadResult.returned (toJs d) := by
  unfold Tracker.new
  rcases hl : loadProgress stringifyVal parse tUpdated tStarted tSaved slot with ⟨res, t⟩
  cases res with
  | raised => simp
  | returned v =>
    cases hd : documentOfJs v with
    | none =>
      simp only [hd, reduceCtorEq, exists_false, false_iff]
      rintro ⟨d, h⟩
      simp only [LoadResult.returned.injEq] at h
      subst h
      rw [documentOfJs_toJs] at hd
      cases hd
    | some d =>
      simp only [hd, Construction.built.injEq, exists_eq', true_iff]
      exact ⟨d, by rw [documentOfJs_sound v d hd]⟩

/-- With a text in the slot the constructor ends as `JSON.parse` and the reading of the
value as a document end. -/
theorem Tracker.new_stored (stringifyVal : JsVal → String) (parse : String → ParseResult)
    (tUpdated tStarted tSaved : Timestamp) (slot : Tracker) (stored : String)
    (hs : slot.storage = some stored) (hne : stored ≠ "") :
    Tracker.new stringifyVal parse tUpdated tStarted tSaved slot
      = match parse stored with
        | ParseResult.syntaxError => Construction.raised slot
        | ParseResult.value v =>
          match documentOfJs v with
          | some d => Construction.built { slot with progress := d }
          | none => Construction.foreign v slot := by
  have hl := loadProgress_stored stringifyVal parse tUpdated tStarted tSaved slot stored hs hne
  unfold Tracker.new
  rw [hl]
  cases parse stored with
  | syntaxError => rfl
  | value v => rfl

/-- The constructor raises exactly when `loadProgress()` raises. -/
theorem Tracker.new_raised_iff (stringifyVal : JsVal → String) (parse : String → ParseResult)
    (tUpdated tStarted tSaved : Timestamp) (slot : Tracker) :
    (∃ t, Tracker.new stringifyVal parse tUpdated tStarted tSaved slot = Construction.raised t)
      ↔ (loadProgress stringifyVal parse tUpdated tStarted tSaved slot).1 = LoadResult.raised := by
  unfold Tracker.new
  rcases hl : loadProgress stringifyVal parse tUpdated tStarted tSaved slot with ⟨res, t⟩
  cases res with
  | raised => simp
  | returned v =>
    cases hd : documentOfJs v with
    | none => simp [hd]
    | some d => simp [hd]

theorem submitQuiz_declined (stringifyVal : JsVal → String) (parse : String → ParseResult)
    (confirmed : Bool) (tUpdated tStarted tSaved0 tDate tSaved : Timestamp) (slot : Tracker)
    (q : QuizEngine)
    (hstop : (Obj.keys q.answers).length < q.questions.length ∧ confirmed = false) :
    submitQuiz stringifyVal parse confirmed tUpdated tStarted tSaved0 tDate tSaved slot q
      = { ending := Ending.declined, engine := q, tracker := slot, calls := [], asked := true,
          shown := none } := by
  simp only [submitQuiz, hstop, and_self, if_true]

theorem submitQuiz_proceeds (stringifyVal : JsVal → String) (parse : String → ParseResult)
    (confirmed : Bool) (tUpdated tStarted tSaved0 tDate tSaved : Timestamp) (slot : Tracker)
    (q : QuizEngine)
    (hgo : q.questions.length ≤ (Obj.keys q.answers).length ∨ confirmed = true) :
    submitQuiz stringifyVal parse confirmed tUpdated tStarted tSaved0 tDate tSaved slot q
      = match Tracker.new stringifyVal parse tUpdated tStarted tSaved0 slot with
        | Construction.raised t =>
          { ending := Ending.raised, engine := { q with score := countCorrect q }, tracker := t,
            calls := [], asked := decide ((Obj.keys q.answers).length < q.questions.length),
            shown := none }
        | Construction.foreign _ t =>
          { ending := Ending.foreign, engine := { q with score := countCorrect q }, tracker := t,
            calls := [], asked := decide ((Obj.keys q.answers).length < q.questions.length),
            shown := none }
        | Construction.built progressTracker =>
          { ending := Ending.finished,
            engine := { q with score := countCorrect q, quizSubmitted := true },
            tracker := (recordQuizAttempt (docText stringifyVal) tDate tSaved q.moduleId
              (countCorrect q) q.questions.length progressTracker).2,
            calls := [(q.moduleId, countCorrect q, q.questions.length)],
            asked := decide ((Obj.keys q.answers).length < q.questions.length),
            shown := some (roundedPercent (countCorrect q : Int) q.questions.length) } := by
  have h : ¬ ((Obj.keys q.answers).length < q.questions.length ∧ confirmed = false) := by
    rintro ⟨h1, h2⟩
    rcases hgo with h | h
    · omega
    · rw [h] at h2
      cases h2
  simp only [submitQuiz, h, if_false]

/-- What `submitQuiz()` does to the engine and the tracker, by the way it ends: it is
declined exactly when fewer answers than questions are stored and the confirmation is
refused, and then nothing changes; otherwise the score is computed, and the one call
`recordQuizAttempt(moduleId, score, n)` is made and `quizSubmitted` is set exactly when
the constructor has built a tracker; when the constructor raises, no call is made and
`quizSubmitted` stays as it was. -/
theorem submitQuiz_calls (stringifyVal : JsVal → String) (parse : String → ParseResult)
    (confirmed : Bool) (tUpdated tStarted tSaved0 tDate tSaved : Timestamp) (slot : Tracker)
    (q : QuizEngine) :
    (((Obj.keys q.answers).length < q.questions.length ∧ confirmed = false) →
        (submitQuiz stringifyVal parse confirmed tUpdated tStarted tSaved0 tDate tSaved slot q)
          = { ending := Ending.declined, engine := q, tracker := slot, calls := [],
              asked := true, shown := none })
    ∧ ((q.questions.length ≤ (Obj.keys q.answers).length ∨ confirmed = true) →
        (submitQuiz stringifyVal parse confirmed tUpdated tStarted tSaved0 tDate tSaved slot
            q).engine.score = countCorrect q
        ∧ (submitQuiz stringifyVal parse confirmed tUpdated tStarted tSaved0 tDate tSaved slot
            q).engine.answers = q.answers
        ∧ ((submitQuiz stringifyVal parse confirmed tUpdated tStarted tSaved0 tDate tSaved slot
            q).asked = true ↔ (Obj.keys q.answers).length < q.questions.length)
        ∧ (∀ t, Tracker.new stringifyVal parse tUpdated tStarted tSaved0 slot
              = Construction.built t →
            (submitQuiz stringifyVal parse confirmed tUpdated tStarted tSaved0 tDate tSaved slot
                q).ending = Ending.finished
            ∧ (submitQuiz stringifyVal parse confirmed tUpdated tStarted tSaved0 tDate tSaved slot
                q).calls = [(q.moduleId, countCorrect q, q.questions.length)]
            ∧ (submitQuiz stringifyVal parse confirmed tUpdated tStarted tSaved0 tDate tSaved slot
                q).tracker
              = (recordQuizAttempt (docText stringifyVal) tDate tSaved q.moduleId
                  (countCorrect q) q.questions.length t).2
            ∧ (submitQuiz stringifyVal parse confirmed tUpdated tStarted tSaved0 tDate tSaved slot
                q).engine.quizSubmitted = true
            ∧ (submitQuiz stringifyVal parse confirmed tUpdated tStarted tSaved0 tDate tSaved slot
                q).shown = some (roundedPercent (countCorrect q : Int) q.questions.length))
        ∧ (∀ t, Tracker.new stringifyVal parse tUpdated tStarted tSaved0 slot
              = Construction.raised t →
            (submitQuiz stringifyVal parse confirmed tUpdated tStarted tSaved0 tDate tSaved slot
                q).ending = Ending.raised
            ∧ (submitQuiz stringifyVal parse confirmed tUpdated tStarted tSaved0 tDate tSaved slot
                q).calls = []
            ∧ (submitQuiz stringifyVal parse confirmed tUpdated tStarted tSaved0 tDate tSaved slot
                q).tracker = t
            ∧ (submitQuiz stringifyVal parse confirmed tUpdated tStarted tSaved0 tDate tSaved slot
                q).engine.quizSubmitted = q.quizSubmitted
            ∧ (submitQuiz stringifyVal parse confirmed tUpdated tStarted tSaved0 tDate tSaved slot
                q).shown = none)) := by
  constructor
  · intro hstop
    exact submitQuiz_declined stringifyVal parse confirmed tUpdated tStarted tSaved0 tDate tSaved
      slot q hstop
  · intro hgo
    rw [submitQuiz_proceeds stringifyVal parse confirmed tUpdated tStarted tSaved0 tDate tSaved
      slot q hgo]
    cases hc : Tracker.new stringifyVal parse tUpdated tStarted tSaved0 slot with
    | raised t =>
      refine ⟨rfl, rfl, by simp, ?_, ?_⟩
      · intro t' ht'
        cases ht'
      · intro t' ht'
        cases ht'
        exact ⟨rfl, rfl, rfl, rfl, rfl⟩
    | foreign v t =>
      refine ⟨rfl, rfl, by simp, ?_, ?_⟩
      · intro t' ht'
        cases ht'
      · intro t' ht'
        cases ht'
    | built t =>
      refine ⟨rfl, rfl, by simp, ?_, ?_⟩
      · intro t' ht'
        cases ht'
        exact ⟨rfl, rfl, rfl, rfl, rfl⟩
      · intro t' ht'
        cases ht'

/-- C11 (amended): when `submitQuiz()` proceeds, the score is the number of questions
whose stored answer is the same string as `correct_answer.toString()`, whatever the
type of the question, and the stored answer of a question is the value of the last
`change` event for it.  A percentage is shown when the method runs to its end, which it
does when the storage slot is absent or empty or `loadProgress()` returns a document of
the data model; when `JSON.parse` raises in the constructor of the tracker, which is
exactly when `loadProgress()` raises, no percentage is shown.  The percentage shown is
`Math.round((score / n) * 100)`, which for a quiz with questions is `100 * score / n`
rounded to the nearest integer with a half rounded up or, only when `100 * score / n` is
exactly halfway between two integers, rounded down; 3 right answers out of 5 give the
score 3 and 60 percent. -/
theorem submitQuiz_score (stringifyVal : JsVal → String) (parse : String → ParseResult)
    (confirmed : Bool) (tUpdated tStarted tSaved0 tDate tSaved : Timestamp) (slot : Tracker)
    (q : QuizEngine)
    (hgo : q.questions.length ≤ (Obj.keys q.answers).length ∨ confirmed = true)
    (hlen : q.questions.length < 2 ^ 32) :
    (submitQuiz stringifyVal parse confirmed tUpdated tStarted tSaved0 tDate tSaved slot
        q).engine.score
        = (q.questions.enumFrom 1).countP (fun (p : Nat × Question) =>
            decide (Obj.get (p.1 : Int) q.answers = some p.2.correct_answer.toString))
    ∧ (∀ (userAnswer : Option String) (correctAnswer : AnswerValue) (type1 type2 : String),
        checkAnswer userAnswer correctAnswer type1 = checkAnswer userAnswer correctAnswer type2)
    ∧ (∀ (k : Int) (v : String) (before rest : List (Int × String)) (q0 : QuizEngine),
        (∀ e ∈ rest, e.1 ≠ k) →
        Obj.get k (recordAnswers (before ++ (k, v) :: rest) q0).answers = some v)
    ∧ ((submitQuiz stringifyVal parse confirmed tUpdated tStarted tSaved0 tDate tSaved slot
          q).ending = Ending.finished →
        (submitQuiz stringifyVal parse confirmed tUpdated tStarted tSaved0 tDate tSaved slot
          q).shown
          = some (roundedPercent
              ((submitQuiz stringifyVal parse confirmed tUpdated tStarted tSaved0 tDate tSaved slot
                q).engine.score : Int)
              q.questions.length))
    ∧ ((submitQuiz stringifyVal parse confirmed tUpdated tStarted tSaved0 tDate tSaved slot
          q).ending = Ending.raised →
        (submitQuiz stringifyVal parse confirmed tUpdated tStarted tSaved0 tDate tSaved slot
          q).shown = none)
    ∧ ((submitQuiz stringifyVal parse confirmed tUpdated tStarted tSaved0 tDate tSaved slot
          q).ending = Ending.raised
        ↔ (loadProgress stringifyVal parse tUpdated tStarted tSaved0 slot).1 = LoadResult.raised)
    ∧ ((slot.storage = none ∨ slot.storage = some "") →
        (submitQuiz stringifyVal parse confirmed tUpdated tStarted tSaved0 tDate tSaved slot
          q).ending = Ending.finished)
    ∧ (∀ d : ProgressDocument,
        (loadProgress stringifyVal parse tUpdated tStarted tSaved0 slot).1
          = LoadResult.returned (toJs d) →
        (submitQuiz stringifyVal parse confirmed tUpdated tStarted tSaved0 tDate tSaved slot
          q).ending = Ending.finished)
    ∧ (0 < q.questions.length →
        ∃ k : Int,
          roundedPercent
              ((submitQuiz stringifyVal parse confirmed tUpdated tStarted tSaved0 tDate tSaved slot
                q).engine.score : Int) q.questions.length = JSNumber.fin k
          ∧ (k = (200 * ((submitQuiz stringifyVal parse confirmed tUpdated tStarted tSaved0 tDate
                    tSaved slot q).engine.score : Int)
                  + q.questions.length) / (2 * (q.questions.length : Int))
            ∨ (k + 1
                = (200 * ((submitQuiz stringifyVal parse confirmed tUpdated tStarted tSaved0 tDate
                      tSaved slot q).engine.score : Int)
                    + q.questions.length) / (2 * (q.questions.length : Int))
              ∧ (200 * ((submitQuiz stringifyVal parse confirmed tUpdated tStarted tSaved0 tDate
                      tSaved slot q).engine.score : Int)
                  + q.questions.length) % (2 * (q.questions.length : Int)) = 0)))
    ∧ (roundedPercent 3 5 = JSNumber.fin 60) := by
  have hscore : (submitQuiz stringifyVal parse confirmed tUpdated tStarted tSaved0 tDate tSaved
      slot q).engine.score = countCorrect q :=
    ((submitQuiz_calls stringifyVal parse confirmed tUpdated tStarted tSaved0 tDate tSaved
      slot q).2 hgo).1
  have hp := submitQuiz_proceeds stringifyVal parse confirmed tUpdated tStarted tSaved0 tDate
    tSaved slot q hgo
  refine ⟨hscore.trans (countCorrect_eq q), ?_, ?_, ?_, ?_, ?_, ?_, ?_, ?_, by decide⟩
  · intro u c t1 t2
    rw [checkAnswer_eq, checkAnswer_eq]
  · intro k v before rest q0 h
    exact recordAnswers_last_wins k v before rest q0 h
  · rw [hscore, hp]
    cases Tracker.new stringifyVal parse tUpdated tStarted tSaved0 slot with
    | raised t => intro h; cases h
    | foreign v t => intro h; cases h
    | built t => intro _; rfl
  · rw [hp]
    cases Tracker.new stringifyVal parse tUpdated tStarted tSaved0 slot with
    | raised t => intro _; rfl
    | foreign v t => intro _; rfl
    | built t => intro h; cases h
  · rw [← Tracker.new_raised_iff, hp]
    cases Tracker.new stringifyVal parse tUpdated tStarted tSaved0 slot with
    | raised t => simp
    | foreign v t => simp
    | built t => simp
  · intro hs
    rw [hp, Tracker.new_absent stringifyVal parse tUpdated tStarted tSaved0 slot hs]
  · intro d hd
    obtain ⟨t, ht⟩ := (Tracker.new_built_iff stringifyVal parse tUpdated tStarted tSaved0
      slot).mpr ⟨d, hd⟩
    rw [hp, ht]
  · intro hn
    rw [hscore]
    have hne : q.questions.length ≠ 0 := by omega
    have hs : countCorrect q < 2 ^ 43 := by
      have := countCorrect_le q
      omega
    refine ⟨roundedPercentFin (countCorrect q : Int) q.questions.length, ?_,
      roundedPercentFin_round (countCorrect q) q.questions.length hn hs⟩
    simp [roundedPercent, hne]

/-- Witness of C11 (amended): five questions, three of them answered rightly, the
storage slot being absent. -/
theorem submitQuiz_score_witness :
    (submitQuiz markStringify braceParse false 1 2 3 4 5 blankTracker threeRightEngine).engine.score
        = 3
    ∧ (submitQuiz markStringify braceParse false 1 2 3 4 5 blankTracker threeRightEngine).shown
        = some (JSNumber.fin 60) :=
  have h := submitQuiz_score markStringify braceParse false 1 2 3 4 5 blankTracker
    threeRightEngine (by decide) (by decide)
  have h3 : (submitQuiz markStringify braceParse false 1 2 3 4 5 blankTracker
      threeRightEngine).engine.score = 3 := h.1.trans (by decide)
  ⟨h3, by
    rw [h.2.2.2.1 (h.2.2.2.2.2.2.1 (Or.inl rfl)), h3]
    exact congrArg some h.2.2.2.2.2.2.2.2.2⟩

/-- The quiz of 40 questions with 23 right answers, submitted with the storage slot
absent. -/
theorem submitQuiz_forty (stringifyVal : JsVal → String) (parse : String → ParseResult) :
    (submitQuiz stringifyVal parse false 1 2 3 4 5 blankTracker
        (recordAnswers twentyThreeRight (QuizEngine.new fortyQuestions 3))).engine.score = 23
    ∧ (submitQuiz stringifyVal parse false 1 2 3 4 5 blankTracker
        (recordAnswers twentyThreeRight (QuizEngine.new fortyQuestions 3))).shown
      = some (JSNumber.fin 57) := by
  have hgo : (recordAnswers twentyThreeRight (QuizEngine.new fortyQuestions 3)).questions.length
      ≤ (Obj.keys (recordAnswers twentyThreeRight (QuizEngine.new fortyQuestions 3)).answers).length
      ∨ false = true := Or.inl (by decide)
  have h := ((submitQuiz_calls stringifyVal parse false 1 2 3 4 5 blankTracker
    (recordAnswers twentyThreeRight (QuizEngine.new fortyQuestions 3))).2 hgo)
  have hb := h.2.2.2.1 _ (Tracker.new_absent stringifyVal parse 1 2 3 blankTracker (Or.inl rfl))
  have hc : countCorrect (recordAnswers twentyThreeRight (QuizEngine.new fortyQuestions 3)) = 23 := by
    decide
  refine ⟨h.1.trans hc, ?_⟩
  rw [hb.2.2.2.2, hc]
  decide

/-- Counterexample to C11 as stated: 40 questions with 23 right answers give the
score 23 and the percentage 57, while `100 * 23 / 40` is 57.5. -/
theorem submitQuiz_23_of_40 :
    (submitQuiz markStringify braceParse false 1 2 3 4 5 blankTracker
        (recordAnswers twentyThreeRight (QuizEngine.new fortyQuestions 3))).engine.score = 23
    ∧ (submitQuiz markStringify braceParse false 1 2 3 4 5 blankTracker
        (recordAnswers twentyThreeRight (QuizEngine.new fortyQuestions 3))).shown
      = some (JSNumber.fin 57)
    ∧ (200 * (23 : Int) + 40) / (2 * 40) = 58
    ∧ (200 * (23 : Int) + 40) % (2 * 40) = 0 :=
  ⟨(submitQuiz_forty markStringify braceParse).1, (submitQuiz_forty markStringify braceParse).2,
    by decide, by decide⟩

/-- The five questions of `fiveQuestions` answered as in `threeRight`, submitted with
the storage slot absent: the one call is `recordQuizAttempt(3, 3, 5)`. -/
theorem submitQuiz_five (stringifyVal : JsVal → String) (parse : String → ParseResult) :
    (submitQuiz stringifyVal parse false 1 2 3 4 5 blankTracker threeRightEngine).ending
        = Ending.finished
    ∧ (submitQuiz stringifyVal parse false 1 2 3 4 5 blankTracker threeRightEngine).calls
        = [(3, 3, 5)]
    ∧ (submitQuiz stringifyVal parse false 1 2 3 4 5 blankTracker
        threeRightEngine).engine.quizSubmitted = true := by
  have hgo : threeRightEngine.questions.length ≤ (Obj.keys threeRightEngine.answers).length
      ∨ false = true := Or.inl (by decide)
  have h := ((submitQuiz_calls stringifyVal parse false 1 2 3 4 5 blankTracker
    threeRightEngine).2 hgo)
  have hb := h.2.2.2.1 _ (Tracker.new_absent stringifyVal parse 1 2 3 blankTracker (Or.inl rfl))
  refine ⟨hb.1, ?_, hb.2.2.2.1⟩
  rw [hb.2.1]
  decide

/-- C12, the failing input: all five questions are answered, three of them rightly, and
the storage slot holds a lone opening brace.  `submitQuiz()` proceeds without asking
and computes the score 3; then `JSON.parse` raises in `new ProgressTracker()`: no
`recordQuizAttempt` call is made, no percentage is shown and `quizSubmitted` stays
false.  With the slot absent the same submission makes the call
`recordQuizAttempt(3, 3, 5)` and sets `quizSubmitted`. -/
theorem submitQuiz_malformed_storage :
    threeRightEngine.questions.length ≤ (Obj.keys threeRightEngine.answers).length
    ∧ submitQuiz markStringify braceParse false 1 2 3 4 5 braceTracker threeRightEngine
        = { ending := Ending.raised, engine := { threeRightEngine with score := 3 },
            tracker := braceTracker, calls := [], asked := false, shown := none }
    ∧ (submitQuiz markStringify braceParse false 1 2 3 4 5 braceTracker
        threeRightEngine).engine.quizSubmitted = false
    ∧ (submitQuiz markStringify braceParse false 1 2 3 4 5 blankTracker threeRightEngine).calls
        = [(3, 3, 5)]
    ∧ (submitQuiz markStringify braceParse false 1 2 3 4 5 blankTracker
        threeRightEngine).engine.quizSubmitted = true := by
  refine ⟨by decide, by decide, by decide, (submitQuiz_five markStringify braceParse).2.1,
    (submitQuiz_five markStringify braceParse).2.2⟩

/-! ## Reset -/

theorem default_modules_zero :
    Obj.keys (defaultDocument 0 0).modules = [1, 2, 3, 4, 5, 6, 7, 8, 9, 10, 11, 12, 13, 14]
    ∧ (∀ p ∈ (defaultDocument 0 0).modules, p.2.completed = 0)
    ∧ lessonCount (defaultDocument 0 0) = 77 := by
  decide

theorem default_quizzes_fresh :
    Obj.keys (defaultDocument 0 0).quizzes = [1, 2, 3, 4, 5, 6, 7, 8, 9, 10, 11, 12, 13, 14]
    ∧ (∀ p ∈ (defaultDocument 0 0).quizzes, p.2 = freshQuiz) := by
  decide

theorem resetProgress_confirmed (stringify : ProgressDocument → String)
    (tUpdated tStarted tSaved1 tSaved2 : Timestamp) (t : Tracker) :
    (resetProgress stringify true tUpdated tStarted tSaved1 tSaved2 t).progress
        = { defaultDocument tUpdated tStarted with lastUpdated := tSaved2 }
    ∧ (resetProgress stringify true tUpdated tStarted tSaved1 tSaved2 t).storage
        = some (stringify { defaultDocument tUpdated tStarted with lastUpdated := tSaved2 }) := by
  simp [resetProgress, initializeProgress, saveProgress]

/-- What holds of the reset: `resetProgress()` with the confirmation accepted leaves in
memory the default document of `initializeProgress` (its `lastUpdated` being the time of the last
save) and in the storage slot its text: the modules 1..14 with `completed` 0, 77
lessons in all, each incomplete with `completedAt` null and `attempts` 0,
`totalLessonsCompleted` 0, and for each of 1..14 a quiz record with `completed` false,
`attempts` 0, `bestScore` 0 and `lastAttempt` null.  With the confirmation declined the
tracker (document, storage slot, events) is as it was. -/
theorem resetProgress_effect (stringify : ProgressDocument → String) (confirmed : Bool)
    (tUpdated tStarted tSaved1 tSaved2 : Timestamp) (t : Tracker) :
    (confirmed = true →
      (resetProgress stringify confirmed tUpdated tStarted tSaved1 tSaved2 t).progress
          = { defaultDocument tUpdated tStarted with lastUpdated := tSaved2 }
      ∧ (resetProgress stringify confirmed tUpdated tStarted tSaved1 tSaved2 t).storage
          = some (stringify
              (resetProgress stringify confirmed tUpdated tStarted tSaved1 tSaved2 t).progress)
      ∧ Obj.keys
            (resetProgress stringify confirmed tUpdated tStarted tSaved1 tSaved2 t).progress.modules
          = [1, 2, 3, 4, 5, 6, 7, 8, 9, 10, 11, 12, 13, 14]
      ∧ (∀ p ∈ (resetProgress stringify confirmed tUpdated tStarted tSaved1 tSaved2
              t).progress.modules,
          p.2.completed = 0
          ∧ ∀ q ∈ p.2.lessons,
              q.2 = { completed := false, completedAt := none, attempts := 0 })
      ∧ lessonCount
            (resetProgress stringify confirmed tUpdated tStarted tSaved1 tSaved2 t).progress = 77
      ∧ (resetProgress stringify confirmed tUpdated tStarted tSaved1 tSaved2
            t).progress.totalLessonsCompleted = 0
      ∧ Obj.keys
            (resetProgress stringify confirmed tUpdated tStarted tSaved1 tSaved2 t).progress.quizzes
          = [1, 2, 3, 4, 5, 6, 7, 8, 9, 10, 11, 12, 13, 14]
      ∧ (∀ p ∈ (resetProgress stringify confirmed tUpdated tStarted tSaved1 tSaved2
              t).progress.quizzes,
          p.2 = { completed := false, attempts := 0, bestScore := JSNumber.fin 0,
                  lastAttempt := none }))
    ∧ (confirmed = false →
        resetProgress stringify confirmed tUpdated tStarted tSaved1 tSaved2 t = t) := by
  constructor
  · intro hc
    subst hc
    obtain ⟨hp, hs⟩ := resetProgress_confirmed stringify tUpdated tStarted tSaved1 tSaved2 t
    have hm : (resetProgress stringify true tUpdated tStarted tSaved1 tSaved2 t).progress.modules
        = (defaultDocument 0 0).modules := by
      rw [hp]
      exact defaultDocument_modules tUpdated tStarted
    have hq : (resetProgress stringify true tUpdated tStarted tSaved1 tSaved2 t).progress.quizzes
        = (defaultDocument 0 0).quizzes := by
      rw [hp]
      exact defaultDocument_quizzes tUpdated tStarted
    have hl : lessonCount (resetProgress stringify true tUpdated tStarted tSaved1 tSaved2 t).progress
        = lessonCount (defaultDocument 0 0) := by
      unfold lessonCount
      rw [hm]
    refine ⟨hp, ?_, ?_, ?_, ?_, ?_, ?_, ?_⟩
    · rw [hs, hp]
    · rw [hm]
      exact default_modules_zero.1
    · rw [hm]
      intro p hpm
      exact ⟨default_modules_zero.2.1 p hpm, fun q hq => default_lessons_fresh p hpm q hq⟩
    · rw [hl]
      exact default_modules_zero.2.2
    · rw [hp]
      rfl
    · rw [hq]
      exact default_quizzes_fresh.1
    · rw [hq]
      exact default_quizzes_fresh.2
  · intro hc
    subst hc
    rfl

/-- An example: a reset of the tracker with one completed lesson, accepted and
declined. -/
theorem resetProgress_effect_witness :
    (resetProgress counterStringify true 7 8 9 10 oneLessonTracker).progress.totalLessonsCompleted
        = 0
    ∧ oneLessonTracker.progress.totalLessonsCompleted = 1
    ∧ resetProgress counterStringify false 7 8 9 10 oneLessonTracker = oneLessonTracker :=
  ⟨((resetProgress_effect counterStringify true 7 8 9 10 oneLessonTracker).1 rfl).2.2.2.2.2.1,
   by decide,
   (resetProgress_effect counterStringify false 7 8 9 10 oneLessonTracker).2 rfl⟩

/-- C21, the failing input: the document that an accepted reset leaves has 77 lessons,
all of them incomplete, not the 73 that `getOverallPercentage()` takes for the number
of lessons of the course. -/
theorem resetProgress_lesson_count :
    lessonCount (resetProgress counterStringify true 7 8 9 10 oneLessonTracker).progress = 77
    ∧ lessonCount (resetProgress counterStringify true 7 8 9 10 oneLessonTracker).progress
        ≠ 73
    ∧ (resetProgress counterStringify true 7 8 9 10
        oneLessonTracker).progress.totalLessonsCompleted = 0
    ∧ getOverallPercentage (trackerWithCount 73) = 100 := by
  decide

/-! ## The percentage badges -/

theorem mem_push_if {α : Type} (c : Prop) [Decidable c] (l : List α) (x a : α) :
    a ∈ (if c then l ++ [x] else l) ↔ a ∈ l ∨ (c ∧ a = x) := by
  by_cases h : c
  · simp [h]
  · simp [h]

/-- The entries of `getAchievements()`, one condition each. -/
theorem mem_getAchievements (now : Timestamp) (t : Tracker) (a : Achievement) :
    a ∈ getAchievements now t ↔
      (1 ≤ t.progress.totalLessonsCompleted ∧ a = firstSteps)
      ∨ (1 ≤ (getStatistics now t).modulesCompleted ∧ a = moduleMaster)
      ∨ (50 ≤ getOverallPercentage t ∧ a = halfwayThere)
      ∨ (getOverallPercentage t = 100 ∧ a = fullStackDeveloper)
      ∨ (10 ≤ (getStatistics now t).quizzesCompleted ∧ a = quizMaster)
      ∨ (5 ≤ perfectQuizzes t ∧ a = perfectScholar) := by
  obtain ⟨s1, s2, -⟩ := getStatistics_completedLessons now t
  unfold getAchievements
  simp only [mem_push_if, s1, s2, List.not_mem_nil, false_or]
  tauto

theorem getOverallPercentage_badges (t : Tracker)
    (h0 : 0 ≤ t.progress.totalLessonsCompleted) (h73 : t.progress.totalLessonsCompleted ≤ 73) :
    (50 ≤ getOverallPercentage t ↔ 37 ≤ t.progress.totalLessonsCompleted)
    ∧ (getOverallPercentage t = 100 ↔ t.progress.totalLessonsCompleted = 73) := by
  have h := roundedPercentFin_73 t.progress.totalLessonsCompleted (by omega) (by omega)
  unfold getOverallPercentage
  rw [h]
  constructor <;> omega

/-- C22: for a document with `totalLessonsCompleted = n`, `0 <= n <= 73`, the list of
`getAchievements()` has an entry titled `Halfway There` if and only if `2 n >= 73`,
which is `n >= 37`, and an entry titled `Full Stack Developer` if and only if `n = 73`;
they are the entries `halfwayThere` and `fullStackDeveloper` of the code. -/
theorem percentage_badges_exact (now : Timestamp) (t : Tracker)
    (h0 : 0 ≤ t.progress.totalLessonsCompleted) (h73 : t.progress.totalLessonsCompleted ≤ 73) :
    ((∃ a ∈ getAchievements now t, a.title = "Halfway There")
        ↔ 73 ≤ 2 * t.progress.totalLessonsCompleted)
    ∧ (73 ≤ 2 * t.progress.totalLessonsCompleted ↔ 37 ≤ t.progress.totalLessonsCompleted)
    ∧ ((∃ a ∈ getAchievements now t, a.title = "Full Stack Developer")
        ↔ t.progress.totalLessonsCompleted = 73)
    ∧ (halfwayThere ∈ getAchievements now t ↔ 37 ≤ t.progress.totalLessonsCompleted)
    ∧ (fullStackDeveloper ∈ getAchievements now t ↔ t.progress.totalLessonsCompleted = 73) := by
  obtain ⟨hh, hf⟩ := getOverallPercentage_badges t h0 h73
  have e1 : halfwayThere ∈ getAchievements now t ↔ 37 ≤ t.progress.totalLessonsCompleted := by
    rw [mem_getAchievements, ← hh]
    simp [halfwayThere, firstSteps, moduleMaster, fullStackDeveloper, quizMaster, perfectScholar]
  have e2 : fullStackDeveloper ∈ getAchievements now t
      ↔ t.progress.totalLessonsCompleted = 73 := by
    rw [mem_getAchievements, ← hf]
    simp [halfwayThere, firstSteps, moduleMaster, fullStackDeveloper, quizMaster, perfectScholar]
  have t1 : (∃ a ∈ getAchievements now t, a.title = "Halfway There")
      ↔ halfwayThere ∈ getAchievements now t := by
    constructor
    · rintro ⟨a, ha, hta⟩
      have ha' := ha
      rw [mem_getAchievements] at ha'
      rcases ha' with ⟨-, rfl⟩ | ⟨-, rfl⟩ | ⟨-, rfl⟩ | ⟨-, rfl⟩ | ⟨-, rfl⟩ | ⟨-, rfl⟩
      · exact absurd hta (by decide)
      · exact absurd hta (by decide)
      · exact ha
      · exact absurd hta (by decide)
      · exact absurd hta (by decide)
      · exact absurd hta (by decide)
    · intro h
      exact ⟨halfwayThere, h, rfl⟩
  have t2 : (∃ a ∈ getAchievements now t, a.title = "Full Stack Developer")
      ↔ fullStackDeveloper ∈ getAchievements now t := by
    constructor
    · rintro ⟨a, ha, hta⟩
      have ha' := ha
      rw [mem_getAchievements] at ha'
      rcases ha' with ⟨-, rfl⟩ | ⟨-, rfl⟩ | ⟨-, rfl⟩ | ⟨-, rfl⟩ | ⟨-, rfl⟩ | ⟨-, rfl⟩
      · exact absurd hta (by decide)
      · exact absurd hta (by decide)
      · exact absurd hta (by decide)
      · exact ha
      · exact absurd hta (by decide)
      · exact absurd hta (by decide)
    · intro h
      exact ⟨fullStackDeveloper, h, rfl⟩
  refine ⟨?_, by omega, ?_, e1, e2⟩
  · rw [t1, e1]
    omega
  · rw [t2, e2]

/-- Witness of C22: with 37 of the lessons counted the list has `Halfway There` and has
not `Full Stack Developer`. -/
theorem percentage_badges_exact_witness :
    (∃ a ∈ getAchievements 0 (trackerWithCount 37), a.title = "Halfway There")
    ∧ ¬ (∃ a ∈ getAchievements 0 (trackerWithCount 37), a.title = "Full Stack Developer") :=
  have h := percentage_badges_exact 0 (trackerWithCount 37) (by decide) (by decide)
  ⟨h.1.2 (by decide), fun hx => absurd (h.2.2.1.1 hx) (by decide)⟩

/-- With all 77 lessons of the document counted the overall percentage is 105, and the
list has no `Full Stack Developer`. -/
theorem badges_with_77_lessons :
    getOverallPercentage (trackerWithCount 77) = 105
    ∧ fullStackDeveloper ∉ getAchievements 0 (trackerWithCount 77) := by
  decide

/-! ## Quiz navigation -/

theorem Obj.isSome_get_set {α : Type} (k i : Int) (x : α) (o : Obj α)
    (hk : (Obj.get k o).isSome = true) :
    (Obj.get i (Obj.set k x o)).isSome = (Obj.get i o).isSome := by
  by_cases h : i = k
  · subst h
    rw [Obj.get_set_self, hk]
    rfl
  · rw [Obj.get_set_ne k i x o h]

theorem nextQuestion_of_present (k : Int) (v : QuizView)
    (h1 : (Obj.get k v.cards).isSome = true) (h2 : (Obj.get (k + 1) v.cards).isSome = true) :
    nextQuestion k v
      = { engine := { v.engine with currentQuestion := k },
          cards := Obj.set (k + 1) "block" (Obj.set k "none" v.cards) } := by
  obtain ⟨a, ha⟩ := Option.isSome_iff_exists.mp h1
  obtain ⟨b, hb⟩ := Option.isSome_iff_exists.mp h2
  simp only [nextQuestion, ha, hb]

theorem nextQuestion_of_absent (k : Int) (v : QuizView)
    (h : (Obj.get k v.cards).isSome = false ∨ (Obj.get (k + 1) v.cards).isSome = false) :
    nextQuestion k v = v := by
  unfold nextQuestion
  cases h1 : Obj.get k v.cards with
  | none => rfl
  | some a =>
    cases h2 : Obj.get (k + 1) v.cards with
    | none => rfl
    | some b =>
      rw [h1, h2] at h
      simp at h

theorem previousQuestion_of_present (k : Int) (v : QuizView)
    (h1 : (Obj.get k v.cards).isSome = true) (h2 : (Obj.get (k - 1) v.cards).isSome = true) :
    previousQuestion k v
      = { engine := { v.engine with currentQuestion := k - 2 },
          cards := Obj.set (k - 1) "block" (Obj.set k "none" v.cards) } := by
  obtain ⟨a, ha⟩ := Option.isSome_iff_exists.mp h1
  obtain ⟨b, hb⟩ := Option.isSome_iff_exists.mp h2
  simp only [previousQuestion, ha, hb]

theorem previousQuestion_of_absent (k : Int) (v : QuizView)
    (h : (Obj.get k v.cards).isSome = false ∨ (Obj.get (k - 1) v.cards).isSome = false) :
    previousQuestion k v = v := by
  unfold previousQuestion
  cases h1 : Obj.get k v.cards with
  | none => rfl
  | some a =>
    cases h2 : Obj.get (k - 1) v.cards with
    | none => rfl
    | some b =>
      rw [h1, h2] at h
      simp at h

theorem isSome_false_of_not {α : Type} (o : Option α) (h : ¬ (o.isSome = true)) :
    o.isSome = false := by
  simpa using h

/-- The two navigation methods on a page whose cards are `question-1` .. `question-n`. -/
theorem navigation_cases (v : QuizView) (n : Int)
    (hcards : ∀ i : Int, (Obj.get i v.cards).isSome = true ↔ (1 ≤ i ∧ i ≤ n)) (k : Int) :
    ((1 ≤ k ∧ k < n) →
        nextQuestion k v
          = { engine := { v.engine with currentQuestion := k },
              cards := Obj.set (k + 1) "block" (Obj.set k "none" v.cards) })
    ∧ (¬ (1 ≤ k ∧ k < n) → nextQuestion k v = v)
    ∧ ((1 < k ∧ k ≤ n) →
        previousQuestion k v
          = { engine := { v.engine with currentQuestion := k - 2 },
              cards := Obj.set (k - 1) "block" (Obj.set k "none" v.cards) })
    ∧ (¬ (1 < k ∧ k ≤ n) → previousQuestion k v = v)
    ∧ (∀ i : Int, (Obj.get i (nextQuestion k v).cards).isSome = true ↔ (1 ≤ i ∧ i ≤ n))
    ∧ (∀ i : Int, (Obj.get i (previousQuestion k v).cards).isSome = true ↔ (1 ≤ i ∧ i ≤ n)) := by
  have n1 : (1 ≤ k ∧ k < n) →
      nextQuestion k v
        = { engine := { v.engine with currentQuestion := k },
            cards := Obj.set (k + 1) "block" (Obj.set k "none" v.cards) } := by
    intro h
    exact nextQuestion_of_present k v ((hcards k).2 ⟨h.1, by omega⟩)
      ((hcards (k + 1)).2 ⟨by omega, by omega⟩)
  have n2 : ¬ (1 ≤ k ∧ k < n) → nextQuestion k v = v := by
    intro h
    apply nextQuestion_of_absent
    by_cases hk : (Obj.get k v.cards).isSome = true
    · right
      apply isSome_false_of_not
      intro hk1
      have a := (hcards k).1 hk
      have b := (hcards (k + 1)).1 hk1
      exact h ⟨a.1, by omega⟩
    · left
      exact isSome_false_of_not _ hk
  have p1 : (1 < k ∧ k ≤ n) →
      previousQuestion k v
        = { engine := { v.engine with currentQuestion := k - 2 },
            cards := Obj.set (k - 1) "block" (Obj.set k "none" v.cards) } := by
    intro h
    exact previousQuestion_of_present k v ((hcards k).2 ⟨by omega, h.2⟩)
      ((hcards (k - 1)).2 ⟨by omega, by omega⟩)
  have p2 : ¬ (1 < k ∧ k ≤ n) → previousQuestion k v = v := by
    intro h
    apply previousQuestion_of_absent
    by_cases hk : (Obj.get k v.cards).isSome = true
    · right
      apply isSome_false_of_not
      intro hk1
      have a := (hcards k).1 hk
      have b := (hcards (k - 1)).1 hk1
      exact h ⟨by omega, a.2⟩
    · left
      exact isSome_false_of_not _ hk
  refine ⟨n1, n2, p1, p2, ?_, ?_⟩
  · intro i
    by_cases h : 1 ≤ k ∧ k < n
    · rw [n1 h]
      have hk : (Obj.get k v.cards).isSome = true := (hcards k).2 ⟨h.1, by omega⟩
      have hk1 : (Obj.get (k + 1) (Obj.set k "none" v.cards)).isSome = true := by
        rw [Obj.isSome_get_set k (k + 1) "none" v.cards hk]
        exact (hcards (k + 1)).2 ⟨by omega, by omega⟩
      show (Obj.get i (Obj.set (k + 1) "block" (Obj.set k "none" v.cards))).isSome = true ↔ _
      rw [Obj.isSome_get_set (k + 1) i "block" _ hk1, Obj.isSome_get_set k i "none" v.cards hk]
      exact hcards i
    · rw [n2 h]
      exact hcards i
  · intro i
    by_cases h : 1 < k ∧ k ≤ n
    · rw [p1 h]
      have hk : (Obj.get k v.cards).isSome = true := (hcards k).2 ⟨by omega, h.2⟩
      have hk1 : (Obj.get (k - 1) (Obj.set k "none" v.cards)).isSome = true := by
        rw [Obj.isSome_get_set k (k - 1) "none" v.cards hk]
        exact (hcards (k - 1)).2 ⟨by omega, by omega⟩
      show (Obj.get i (Obj.set (k - 1) "block" (Obj.set k "none" v.cards))).isSome = true ↔ _
      rw [Obj.isSome_get_set (k - 1) i "block" _ hk1, Obj.isSome_get_set k i "none" v.cards hk]
      exact hcards i
    · rw [p2 h]
      exact hcards i

/-- C23: on a quiz of `n` questions (`n >= 1` or not) whose cards `question-1` ..
`question-n` are exactly the ones in the document, for every integer `k` the methods
`nextQuestion(k)`
and `previousQuestion(k)` leave `answers` and `score` (and the questions, the module id
and `quizSubmitted`) as they are, keep `currentQuestion` within `0 .. n - 1` and leave
the same cards in the document; `nextQuestion(n)` and `previousQuestion(1)` change
nothing; `nextQuestion(k)` for `1 <= k < n` sets `currentQuestion` to `k` and
`previousQuestion(k)` for `1 < k <= n` sets it to `k - 2`; for every other `k` they
change nothing. -/
theorem navigation_pure_and_clamped (v : QuizView) (k : Int)
    (hcards : ∀ i : Int, (Obj.get i v.cards).isSome = true
        ↔ (1 ≤ i ∧ i ≤ (v.engine.questions.length : Int))) :
    ((nextQuestion k v).engine = { v.engine with
          currentQuestion := (nextQuestion k v).engine.currentQuestion }
      ∧ (previousQuestion k v).engine = { v.engine with
          currentQuestion := (previousQuestion k v).engine.currentQuestion })
    ∧ ((nextQuestion k v).engine.answers = v.engine.answers
      ∧ (nextQuestion k v).engine.score = v.engine.score
      ∧ (previousQuestion k v).engine.answers = v.engine.answers
      ∧ (previousQuestion k v).engine.score = v.engine.score)
    ∧ ((0 ≤ v.engine.currentQuestion
          ∧ v.engine.currentQuestion ≤ (v.engine.questions.length : Int) - 1) →
        (0 ≤ (nextQuestion k v).engine.currentQuestion
          ∧ (nextQuestion k v).engine.currentQuestion ≤ (v.engine.questions.length : Int) - 1)
        ∧ (0 ≤ (previousQuestion k v).engine.currentQuestion
          ∧ (previousQuestion k v).engine.currentQuestion
              ≤ (v.engine.questions.length : Int) - 1))
    ∧ (nextQuestion (v.engine.questions.length : Int) v = v ∧ previousQuestion 1 v = v)
    ∧ ((1 ≤ k ∧ k < (v.engine.questions.length : Int)) →
        (nextQuestion k v).engine.currentQuestion = k)
    ∧ ((1 < k ∧ k ≤ (v.engine.questions.length : Int)) →
        (previousQuestion k v).engine.currentQuestion = k - 2)
    ∧ (¬ (1 ≤ k ∧ k < (v.engine.questions.length : Int)) → nextQuestion k v = v)
    ∧ (¬ (1 < k ∧ k ≤ (v.engine.questions.length : Int)) → previousQuestion k v = v)
    ∧ (∀ i : Int, (Obj.get i (nextQuestion k v).cards).isSome = true
        ↔ (1 ≤ i ∧ i ≤ (v.engine.questions.length : Int)))
    ∧ (∀ i : Int, (Obj.get i (previousQuestion k v).cards).isSome = true
        ↔ (1 ≤ i ∧ i ≤ (v.engine.questions.length : Int))) := by
  obtain ⟨n1, n2, p1, p2, c1, c2⟩ := navigation_cases v _ hcards k
  have nn := (navigation_cases v _ hcards (v.engine.questions.length : Int)).2.1 (by omega)
  have pp := (navigation_cases v _ hcards 1).2.2.2.1 (by omega)
  have hnext : (nextQuestion k v).engine = { v.engine with
      currentQuestion := (nextQuestion k v).engine.currentQuestion } := by
    by_cases h : 1 ≤ k ∧ k < (v.engine.questions.length : Int)
    · rw [n1 h]
    · rw [n2 h]
  have hprev : (previousQuestion k v).engine = { v.engine with
      currentQuestion := (previousQuestion k v).engine.currentQuestion } := by
    by_cases h : 1 < k ∧ k ≤ (v.engine.questions.length : Int)
    · rw [p1 h]
    · rw [p2 h]
  have cn : (1 ≤ k ∧ k < (v.engine.questions.length : Int)) →
      (nextQuestion k v).engine.currentQuestion = k := by
    intro h
    rw [n1 h]
  have cp : (1 < k ∧ k ≤ (v.engine.questions.length : Int)) →
      (previousQuestion k v).engine.currentQuestion = k - 2 := by
    intro h
    rw [p1 h]
  refine ⟨⟨hnext, hprev⟩, ⟨?_, ?_, ?_, ?_⟩, ?_, ⟨nn, pp⟩, cn, cp, n2, p2, c1, c2⟩
  · rw [hnext]
  · rw [hnext]
  · rw [hprev]
  · rw [hprev]
  · intro hcur
    constructor
    · by_cases h : 1 ≤ k ∧ k < (v.engine.questions.length : Int)
      · rw [cn h]
        omega
      · rw [n2 h]
        exact hcur
    · by_cases h : 1 < k ∧ k ≤ (v.engine.questions.length : Int)
      · rw [cp h]
        omega
      · rw [p2 h]
        exact hcur

theorem fiveQuestions_cards :
    ∀ i : Int, (Obj.get i (QuizView.new fiveQuestions 3).cards).isSome = true
      ↔ (1 ≤ i ∧ i ≤ ((QuizView.new fiveQuestions 3).engine.questions.length : Int)) := by
  intro i
  have hl : ((QuizView.new fiveQuestions 3).engine.questions.length : Int) = 5 := rfl
  rw [hl]
  by_cases h : 1 ≤ i ∧ i ≤ 5
  · have : i = 1 ∨ i = 2 ∨ i = 3 ∨ i = 4 ∨ i = 5 := by omega
    rcases this with rfl | rfl | rfl | rfl | rfl <;> simp <;> rfl
  · simp only [h, iff_false]
    have h1 : i ≠ 1 := by omega
    have h2 : i ≠ 2 := by omega
    have h3 : i ≠ 3 := by omega
    have h4 : i ≠ 4 := by omega
    have h5 : i ≠ 5 := by omega
    simp [QuizView.new, fiveQuestions, List.enumFrom, Obj.get, h1.symm, h2.symm, h3.symm,
      h4.symm, h5.symm]

/-- Witness of C23: the quiz of five questions; `nextQuestion(2)` leads to the index 2,
`previousQuestion(3)` to the index 1, `nextQuestion(5)` and `nextQuestion(7)` nowhere. -/
theorem navigation_pure_and_clamped_witness :
    (nextQuestion 2 (QuizView.new fiveQuestions 3)).engine.currentQuestion = 2
    ∧ (previousQuestion 3 (QuizView.new fiveQuestions 3)).engine.currentQuestion = 1
    ∧ nextQuestion 5 (QuizView.new fiveQuestions 3) = QuizView.new fiveQuestions 3
    ∧ nextQuestion 7 (QuizView.new fiveQuestions 3) = QuizView.new fiveQuestions 3 :=
  ⟨(navigation_pure_and_clamped (QuizView.new fiveQuestions 3) 2
      fiveQuestions_cards).2.2.2.2.1 (by decide),
   (navigation_pure_and_clamped (QuizView.new fiveQuestions 3) 3
      fiveQuestions_cards).2.2.2.2.2.1 (by decide),
   (navigation_pure_and_clamped (QuizView.new fiveQuestions 3) 2
      fiveQuestions_cards).2.2.2.1.1,
   (navigation_pure_and_clamped (QuizView.new fiveQuestions 3) 7
      fiveQuestions_cards).2.2.2.2.2.2.1 (by decide)⟩

/-! ## The presentation layer -/

theorem binExponent_one_le (n : Nat) (h1 : 1 ≤ n) (h : n < 2 ^ 53) : binExponent n 1 ≤ 0 := by
  have hb := (ilog2_bounds n h1).1
  have hl : ilog2 n < 53 := by
    by_contra hc
    have : 2 ^ 53 ≤ 2 ^ ilog2 n := Nat.pow_le_pow_right (by norm_num) (by omega)
    omega
  have h0 : ilog2 1 = 0 := by decide
  unfold binExponent
  simp only [h0]
  split <;> omega

/-- An integer of at most 53 bits is a double. -/
theorem intOfDouble_roundToDouble (n : Nat) (h1 : 1 ≤ n) (h : n < 2 ^ 53) :
    intOfDouble (roundToDouble n 1) = n := by
  obtain ⟨m, hm, hlo, hhi⟩ := roundToDouble_nat n 1 (by norm_num)
  have he := binExponent_one_le n h1 h
  have hz : (binExponent n 1).toNat = 0 := by omega
  rw [hz] at hlo hhi
  simp only [pow_zero, mul_one, one_mul] at hlo hhi
  have hmn : m = n * 2 ^ (-(binExponent n 1)).toNat := by omega
  rw [hm]
  unfold intOfDouble
  simp only [hz, pow_zero, mul_one]
  rw [hmn]
  exact Nat.mul_div_cancel _ (by positivity)

theorem doubleOfInt_exact (x : Int) (h0 : 0 ≤ x) (h : x ≤ 2 ^ 53) :
    doubleOfInt x = JSNumber.fin x := by
  by_cases hx : x = 0
  · simp [doubleOfInt, hx]
  by_cases htop : x = 2 ^ 53
  · rw [htop]
    decide
  have hn1 : 1 ≤ x.natAbs := by omega
  have hn2 : x.natAbs < 2 ^ 53 := by omega
  have hr := intOfDouble_roundToDouble x.natAbs hn1 hn2
  have hpos : 0 < x := by omega
  have hbig : ¬ (1024 ≤ ilog2 x.natAbs) := by
    have hb := (ilog2_bounds x.natAbs hn1).1
    intro hc
    have : 2 ^ 53 ≤ 2 ^ ilog2 x.natAbs := Nat.pow_le_pow_right (by norm_num) (by omega)
    omega
  unfold doubleOfInt
  simp only [hx, if_false, hr, hbig, hpos, if_true]
  congr 1
  omega

theorem foldl_doubleAdd (l : List ModuleProgress) :
    ∀ s : Int, 0 ≤ s → (∀ m ∈ l, 0 ≤ m.completed) →
      s + (l.map (fun m => m.completed)).sum ≤ 2 ^ 53 →
      l.foldl (fun (sum : JSNumber) (module : ModuleProgress) => doubleAdd sum module.completed)
          (JSNumber.fin s)
        = JSNumber.fin (s + (l.map (fun m => m.completed)).sum) := by
  induction l with
  | nil => intro s _ _ _; simp
  | cons x rest ih =>
    intro s hs hnn hsum
    have hx : 0 ≤ x.completed := hnn x (List.mem_cons_self _ _)
    have hrest : ∀ m ∈ rest, 0 ≤ m.completed := fun m hm => hnn m (List.mem_cons_of_mem _ hm)
    have hr : 0 ≤ (rest.map (fun m => m.completed)).sum := by
      apply List.sum_nonneg
      intro y hy
      obtain ⟨m, hm, rfl⟩ := List.mem_map.mp hy
      exact hrest m hm
    simp only [List.map_cons, List.sum_cons] at hsum ⊢
    rw [List.foldl_cons]
    have hstep : doubleAdd (JSNumber.fin s) x.completed = JSNumber.fin (s + x.completed) :=
      doubleOfInt_exact (s + x.completed) (by omega) (by omega)
    rw [hstep]
    rw [ih (s + x.completed) (by omega) hrest (by omega)]
    congr 1
    omega

/-- With counters that are not negative and add up to at most `2 ^ 53`, the sum of
`main.js` is the exact sum. -/
theorem completedLessonsOf_exact (d : ProgressDocument)
    (hnn : ∀ m ∈ Obj.values d.modules, 0 ≤ m.completed)
    (hsum : ((Obj.values d.modules).map (fun m => m.completed)).sum ≤ 2 ^ 53) :
    completedLessonsOf d
      = JSNumber.fin ((Obj.values d.modules).map (fun m => m.completed)).sum := by
  unfold completedLessonsOf
  rw [foldl_doubleAdd _ 0 (le_refl 0) hnn (by omega)]
  congr 1
  omega

theorem default_shape_short :
    (shape (defaultDocument 0 0)).length = 14
    ∧ ∀ x ∈ shape (defaultDocument 0 0), x.2.2.length ≤ 6 := by
  decide

theorem completedCount_le_length (lessons : Obj LessonState) :
    completedCount lessons ≤ (lessons.length : Int) := by
  unfold completedCount Obj.values
  have := List.countP_le_length (fun (l : LessonState) => l.completed)
    (l := lessons.map Prod.snd)
  rw [List.length_map] at this
  exact_mod_cast this

theorem sum_le_of_le (l : List Int) (b : Int) (h : ∀ x ∈ l, x ≤ b) :
    l.sum ≤ b * l.length := by
  induction l with
  | nil => simp
  | cons a rest ih =>
    have ha := h a (List.mem_cons_self _ _)
    have hr := ih (fun x hx => h x (List.mem_cons_of_mem _ hx))
    simp only [List.sum_cons, List.length_cons]
    push_cast
    nlinarith

/-- The counters of a consistent document are not negative and add up to at most 84. -/
theorem Consistent.counters_small (d : ProgressDocument) (hc : Consistent d) :
    (∀ m ∈ Obj.values d.modules, 0 ≤ m.completed)
    ∧ ((Obj.values d.modules).map (fun m => m.completed)).sum ≤ 84 := by
  have hlen : d.modules.length = 14 := by
    have h := congrArg List.length hc.shape_eq
    rw [default_shape_short.1] at h
    simpa [shape] using h
  have hbound : ∀ p ∈ d.modules, 0 ≤ p.2.completed ∧ p.2.completed ≤ 6 := by
    intro p hp
    have hmem : (p.1, p.2.total, Obj.keys p.2.lessons) ∈ shape d :=
      List.mem_map.mpr ⟨p, hp, rfl⟩
    rw [hc.shape_eq] at hmem
    have hk := default_shape_short.2 _ hmem
    simp only [Obj.keys, List.length_map] at hk
    rw [hc.module_count p hp]
    have h1 := completedCount_le_length p.2.lessons
    have h2 := completedCount_nonneg p.2.lessons
    constructor
    · exact h2
    · have : (p.2.lessons.length : Int) ≤ 6 := by exact_mod_cast hk
      omega
  constructor
  · intro m hm
    simp only [Obj.values, List.mem_map] at hm
    obtain ⟨p, hp, rfl⟩ := hm
    exact (hbound p hp).1
  · have h := sum_le_of_le ((Obj.values d.modules).map (fun m => m.completed)) 6 (by
      intro x hx
      simp only [Obj.values, List.mem_map] at hx
      obtain ⟨m, ⟨p, hp, rfl⟩, rfl⟩ := hx
      exact (hbound p hp).2)
    simp only [Obj.values, List.length_map, hlen] at h
    simp only [Obj.values]
    omega

/-- C24 (amended): when no `modules[i].completed` is negative and their sum is at most
`2 ^ 53`, the sum that `GlobalProgressBar.update()` and `ProgressModal.renderProgress()`
add up is the exact sum `c`, and the percentage they show is
`Math.round((c / 73) * 100)`; if moreover `totalLessonsCompleted` is that sum, both
equal `getOverallPercentage()`.  Every tracker that `initializeProgress` and the three
mutating calls lead to has such a document. -/
theorem presentation_agrees_with_store (t : Tracker)
    (hnn : ∀ m ∈ Obj.values t.progress.modules, 0 ≤ m.completed)
    (hsum : ((Obj.values t.progress.modules).map (fun m => m.completed)).sum ≤ 2 ^ 53) :
    ((ProgressModal.renderProgress t).completedLessons
        = JSNumber.fin ((Obj.values t.progress.modules).map (fun m => m.completed)).sum
      ∧ (GlobalProgressBar.update t).percentage
        = JSNumber.fin
            (roundedPercentFin ((Obj.values t.progress.modules).map (fun m => m.completed)).sum 73)
      ∧ (ProgressModal.renderProgress t).overallPercentage
        = JSNumber.fin
            (roundedPercentFin ((Obj.values t.progress.modules).map (fun m => m.completed)).sum 73))
    ∧ (t.progress.totalLessonsCompleted
          = ((Obj.values t.progress.modules).map (fun m => m.completed)).sum →
        (GlobalProgressBar.update t).percentage = JSNumber.fin (getOverallPercentage t)
        ∧ (ProgressModal.renderProgress t).overallPercentage
            = JSNumber.fin (getOverallPercentage t))
    ∧ (∀ (stringify : ProgressDocument → String) (u : Tracker), Reachable stringify u →
        ((∀ m ∈ Obj.values u.progress.modules, 0 ≤ m.completed)
          ∧ ((Obj.values u.progress.modules).map (fun m => m.completed)).sum ≤ 2 ^ 53
          ∧ u.progress.totalLessonsCompleted
              = ((Obj.values u.progress.modules).map (fun m => m.completed)).sum)
        ∧ (GlobalProgressBar.update u).percentage = JSNumber.fin (getOverallPercentage u)
        ∧ (ProgressModal.renderProgress u).overallPercentage
            = JSNumber.fin (getOverallPercentage u)) := by
  have main : ∀ u : Tracker, (∀ m ∈ Obj.values u.progress.modules, 0 ≤ m.completed) →
      ((Obj.values u.progress.modules).map (fun m => m.completed)).sum ≤ 2 ^ 53 →
      (ProgressModal.renderProgress u).completedLessons
          = JSNumber.fin ((Obj.values u.progress.modules).map (fun m => m.completed)).sum
        ∧ (GlobalProgressBar.update u).percentage
          = JSNumber.fin
              (roundedPercentFin ((Obj.values u.progress.modules).map (fun m => m.completed)).sum 73)
        ∧ (ProgressModal.renderProgress u).overallPercentage
          = JSNumber.fin
              (roundedPercentFin
                ((Obj.values u.progress.modules).map (fun m => m.completed)).sum 73) := by
    intro u h1 h2
    have he := completedLessonsOf_exact u.progress h1 h2
    refine ⟨?_, ?_, ?_⟩
    · simp only [ProgressModal.renderProgress, he]
    · simp [GlobalProgressBar.update, he, roundedPercentOf, roundedPercent]
    · simp [ProgressModal.renderProgress, he, roundedPercentOf, roundedPercent]
  refine ⟨main t hnn hsum, ?_, ?_⟩
  · intro h
    obtain ⟨-, hb, hm⟩ := main t hnn hsum
    rw [hb, hm]
    unfold getOverallPercentage
    rw [h]
    exact ⟨rfl, rfl⟩
  · intro stringify u hr
    have hc := hr.consistent stringify u
    obtain ⟨h1, h2⟩ := hc.counters_small
    have h3 : ((Obj.values u.progress.modules).map (fun m => m.completed)).sum ≤ 2 ^ 53 := by
      omega
    obtain ⟨-, hb, hm⟩ := main u h1 h3
    refine ⟨⟨h1, h3, hc.total_sum⟩, ?_, ?_⟩
    · rw [hb]
      unfold getOverallPercentage
      rw [hc.total_sum]
    · rw [hm]
      unfold getOverallPercentage
      rw [hc.total_sum]

/-- Witness of C24 (amended): the tracker with one completed lesson; all three
percentages are 1. -/
theorem presentation_agrees_with_store_witness :
    (GlobalProgressBar.update oneLessonTracker).percentage = JSNumber.fin 1
    ∧ (ProgressModal.renderProgress oneLessonTracker).overallPercentage = JSNumber.fin 1
    ∧ getOverallPercentage oneLessonTracker = 1 :=
  have h := (presentation_agrees_with_store oneLessonTracker (by decide) (by decide)).2.1
    (by decide)
  have h1 : getOverallPercentage oneLessonTracker = 1 := by decide
  ⟨h.1.trans (congrArg JSNumber.fin h1), h.2.trans (congrArg JSNumber.fin h1), h1⟩

/-- Counterexample to C24 as stated: in the document whose modules 1, 2 and 3 count
`2 ^ 53`, 1 and 1 completed lessons, `totalLessonsCompleted` is their sum
`2 ^ 53 + 2`; the sum that the progress bar and the modal add up in double arithmetic
is `2 ^ 53`, and they show 12338629116083550 percent where `getOverallPercentage()`
returns 12338629116083554. -/
theorem presentation_large_counts :
    largeCountTracker.progress.totalLessonsCompleted
        = ((Obj.values largeCountTracker.progress.modules).map (fun m => m.completed)).sum
    ∧ (ProgressModal.renderProgress largeCountTracker).completedLessons = JSNumber.fin (2 ^ 53)
    ∧ (GlobalProgressBar.update largeCountTracker).percentage
        = JSNumber.fin 12338629116083550
    ∧ (ProgressModal.renderProgress largeCountTracker).overallPercentage
        = JSNumber.fin 12338629116083550
    ∧ getOverallPercentage largeCountTracker = 12338629116083554 := by
  decide

end ProgressTracker
